import Mathlib

/-!
# async.hpp: stackless coroutines, timer, semaphore and the task list

A shallow embedding of `src/code/async.hpp` and of the scheduler of
`src/code/example-task-list.cpp`.

* Machine integers are natural numbers reduced modulo `2 ^ w`, where `w` is
  the width the target gives to the C++ type (`Platform`).
* `clock_time()` reads the host clock; every operation that calls it takes the
  reading as an argument `now`.
* A coroutine object is a `task F`: the two members of the `task<TIMPL>` base
  class plus the members `F` declared by the deriving class.  Its body `run()`
  is a function of the object and of the world `W` (everything outside the
  object the body can read or write).
-/

namespace async

/-! ## Integer widths -/

/-- Widths, in bits, of `unsigned int` and `unsigned long` on the build target,
with the minimum widths and the ordering the C++ standard guarantees. -/
structure Platform where
  uint_bits : Nat
  ulong_bits : Nat
  uint_min : 16 ≤ uint_bits
  ulong_min : 32 ≤ ulong_bits
  uint_le_ulong : uint_bits ≤ ulong_bits

/-- Hosted POSIX build (the `#else` branch of the header): 32-bit `unsigned`,
64-bit `unsigned long`. -/
def LP64 : Platform := ⟨32, 64, by decide, by decide, by decide⟩

/-- The `_WIN32` build: `unsigned` and `unsigned long` are both 32 bits wide. -/
def WIN32 : Platform := ⟨32, 32, by decide, by decide, by decide⟩

/-- The `ARDUINO` build on an 8-bit AVR: 16-bit `unsigned`, 32-bit `unsigned long`. -/
def AVR : Platform := ⟨16, 32, by decide, by decide, by decide⟩

/-- Number of values of `unsigned int`. -/
def Platform.UINT_RANGE (P : Platform) : Nat := 2 ^ P.uint_bits

/-- Number of values of `unsigned long`. -/
def Platform.ULONG_RANGE (P : Platform) : Nat := 2 ^ P.ulong_bits

/-- The largest value of `int`, `INT_MAX`: `int` has the width of `unsigned`. -/
def Platform.INT_MAX (P : Platform) : Int := 2 ^ (P.uint_bits - 1) - 1

/-! ## `class timer` -/

/-- State of `class timer`: the deadline `until`, an `unsigned long` (the field
is spelled `until_` because `until` is reserved in Lean). -/
structure timer where
  until_ : Nat
deriving DecidableEq, Repr

/-- Constructor `timer() : until(0) {}`. -/
def timer.new : timer := ⟨0⟩

/-- Method `void start(unsigned int duration) { until = clock_time() + duration; }`:
`now` is the value `clock_time()` returns; the sum is an `unsigned long`. -/
def timer.start (P : Platform) (now : Nat) (duration : Nat) (_tm : timer) : timer :=
  ⟨(now + duration) % P.ULONG_RANGE⟩

/-- Method `bool is_expired() { return clock_time() >= until; }`. -/
def timer.is_expired (now : Nat) (tm : timer) : Bool :=
  decide (now ≥ tm.until_)

/-! ## `class task<TIMPL>` -/

/-- Value of `enum status : int { INIT = 0, DONE = -1 }`: one of the two
enumerators or the line number of a suspension point. -/
abbrev status := Int

/-- Enumerator `INIT = 0`. -/
def INIT : status := 0

/-- Enumerator `DONE = -1`. -/
def DONE : status := -1

/-- An object of a class `TIMPL` deriving from `task<TIMPL>`: the base members
`__status` and `__sleep_timer`, and the members `impl` the deriving class
declares. -/
structure task (F : Type) where
  __status : status
  __sleep_timer : timer
  impl : F
deriving DecidableEq, Repr

/-- Result of one execution of a body `run()`: the `status` it returns, the
object and the world as it leaves them. -/
abbrev run_result (W F : Type) := status × task F × W

/-- Type of a body: `status run()` of a class `TIMPL`, acting on the object and
on the world `W`. -/
abbrev body (W F : Type) := W → task F → run_result W F

/-- Method `void restart() { __status = INIT; }`. -/
def task.restart {F : Type} (t : task F) : task F :=
  { t with __status := INIT }

/-- Constructor `task() { restart(); }` for an object whose timer and own
members have the given initial values. -/
def task.new {F : Type} (tm : timer) (f : F) : task F :=
  task.restart ⟨INIT, tm, f⟩

/-- Method `bool is_done() const { return __status == DONE; }`. -/
def task.is_done {F : Type} (t : task F) : Bool :=
  decide (t.__status = DONE)

/-- Method `bool operator()()` of `task<TIMPL>`:
`if(is_done()) return false; __status = run(); return is_done();`.
Returns the value, the object and the world. -/
def task.operator_call {W F : Type} (run : body W F) (w : W) (t : task F) :
    Bool × task F × W :=
  if t.is_done then (false, t, w)
  else
    let r := run w t
    let t1 : task F := { r.2.1 with __status := r.1 }
    (t1.is_done, t1, r.2.2)

/-- The pair `TASK_BEGIN ... TASK_END`:
`status run() { switch(__status) { case 0: ... default: return (__status = DONE); } }`.
`top` is the code entered at `case 0:`, `resume m` the code entered at the
suspension point whose `case` label is `m`, if the body has one. -/
def TASK_BEGIN_END {W F : Type} (top : body W F) (resume : status → Option (body W F)) :
    body W F :=
  fun w t =>
    if t.__status = 0 then top w t
    else
      match resume t.__status with
      | some k => k w t
      | none => (DONE, { t with __status := DONE }, w)

/-- State of `n` successive calls of `operator()` on the same object. -/
def task.call_n {W F : Type} (run : body W F) : Nat → task F × W → task F × W
  | 0, s => s
  | n + 1, s =>
    let r := task.operator_call run s.2 s.1
    task.call_n run n r.2

/-- A body instrumented with a counter of its invocations, kept in the world. -/
def counted {W F : Type} (run : body W F) : body (W × Nat) F :=
  fun w t =>
    let r := run w.1 t
    (r.1, r.2.1, (r.2.2, w.2 + 1))

/-! ## `class semaphore` -/

/-- State of `class semaphore`: the member `unsigned int _count`. -/
structure semaphore where
  _count : Nat
deriving DecidableEq, Repr

/-- Constructor `semaphore(unsigned int c = 0) : _count(c) {}`. -/
def semaphore.new (c : Nat) : semaphore := ⟨c⟩

/-- Private method `bool is_incomplete()`:
`if (_count == 0) return true; --_count; return false;`.
Returns the value and the semaphore as the call leaves it. -/
def semaphore.is_incomplete (c : semaphore) : Bool × semaphore :=
  if c._count = 0 then (true, c) else (false, ⟨c._count - 1⟩)

/-- Method `void signal() { ++_count; }` on an `unsigned int`. -/
def semaphore.signal (P : Platform) (c : semaphore) : semaphore :=
  ⟨(c._count + 1) % P.UINT_RANGE⟩

/-- Method `void reset(unsigned int n) { _count = n; }`. -/
def semaphore.reset (n : Nat) (_c : semaphore) : semaphore := ⟨n⟩

/-- Adaptor `inline bool is_incomplete(semaphore& c) { return c.is_incomplete(); }`:
one poll of the semaphore. -/
def is_incomplete_semaphore (c : semaphore) : Bool × semaphore :=
  c.is_incomplete

/-- The semaphore after `k` successive calls of `signal()`. -/
def semaphore.signal_n (P : Platform) : Nat → semaphore → semaphore
  | 0, c => c
  | k + 1, c => semaphore.signal_n P k (c.signal P)

/-- Successive polls: the values returned by `n` calls of
`is_incomplete(semaphore&)`, in order, and the semaphore after them. -/
def semaphore.poll_n : Nat → semaphore → List Bool × semaphore
  | 0, c => ([], c)
  | n + 1, c =>
    let r := is_incomplete_semaphore c
    let rest := semaphore.poll_n n r.2
    (r.1 :: rest.1, rest.2)

/-! ## `TASK(task_list)` of `example-task-list.cpp` -/

/-- Members of `task_list`: `unsigned half` and
`std::vector<std::shared_ptr<async::job>> lists[2]`, over handles `H`. -/
structure task_list (H : Type) where
  half : Nat
  lists : List H × List H

/-- Element `lists[i]` of the member array. -/
def task_list.lists_get {H : Type} (tl : task_list H) (i : Nat) : List H :=
  if i = 0 then tl.lists.1 else tl.lists.2

/-- Assignment of a new content to `lists[i]`. -/
def task_list.lists_set {H : Type} (tl : task_list H) (i : Nat) (l : List H) : task_list H :=
  if i = 0 then { tl with lists := (l, tl.lists.2) } else { tl with lists := (tl.lists.1, l) }

/-- Index `half & 1` used by `active_list()`. -/
def task_list.active_index {H : Type} (tl : task_list H) : Nat :=
  tl.half &&& 1

/-- Index `(half + 1) & 1` used by `passive_list()`; the sum is an `unsigned`. -/
def task_list.passive_index {H : Type} (P : Platform) (tl : task_list H) : Nat :=
  ((tl.half + 1) % P.UINT_RANGE) &&& 1

/-- Method `active_list()`: `lists[half & 1]`. -/
def task_list.active_list {H : Type} (tl : task_list H) : List H :=
  tl.lists_get tl.active_index

/-- Method `passive_list()`: `lists[(half + 1) & 1]`. -/
def task_list.passive_list {H : Type} (P : Platform) (tl : task_list H) : List H :=
  tl.lists_get (tl.passive_index P)

/-- Method `void add_task(std::shared_ptr<async::job> task)`:
`active_list().push_back(task);`. -/
def task_list.add_task {H : Type} (tl : task_list H) (task : H) : task_list H :=
  tl.lists_set tl.active_index (tl.active_list ++ [task])

/-- Method `unsigned active_tasks() { return (unsigned) active_list().size(); }`:
`size()` is a `size_t`, at least as wide as `unsigned`; the cast reduces it
modulo `2 ^ uint_bits`. -/
def task_list.active_tasks {H : Type} (P : Platform) (tl : task_list H) : Nat :=
  tl.active_list.length % P.UINT_RANGE

/-- Modelled from the spec: `async::job`, the type behind the handles of the
task list, is not declared in `async.hpp`; the spec describes it as one
polymorphic "pollable" capability (poll once, report done).  `t->operator()()`
on a handle `t` is a function of the handle, of the task list (a polled task
may call `add_task`) and of the rest of the program state `S`; it returns
whether the task reports done. -/
abbrev job (H S : Type) := H → task_list H × S → Bool × (task_list H × S)

/-- A poll that does not touch the task list (the polled task does not call
`add_task`): it acts on the rest of the state only. -/
def no_add_task {H S : Type} (p : H → S → Bool × S) : job H S :=
  fun t st =>
    let r := p t st.2
    (r.1, (st.1, r.2))

/-- The inner loop of `task_list::run`, over the handles still to visit:
`for (auto t : active_list()) { if (t->operator()()) continue; passive_list().push_back(t); }`.
The range is fixed when the loop starts (the first argument is the content of
`active_list()` at that point); `passive_list()` is evaluated at every
`push_back`. -/
def task_list.poll_each {H S : Type} (P : Platform) (poll : job H S) :
    List H → task_list H × S → task_list H × S
  | [], st => st
  | t :: rest, st =>
    let r := poll t st
    if r.1 then task_list.poll_each P poll rest r.2
    else
      task_list.poll_each P poll rest
        (r.2.1.lists_set (r.2.1.passive_index P) (r.2.1.passive_list P ++ [t]), r.2.2)

/-- One iteration of the `for(;;)` of `task_list::run`, up to the `YIELD`:
`passive_list().clear();`, the inner loop, `++half;`. -/
def task_list.round {H S : Type} (P : Platform) (poll : job H S)
    (st : task_list H × S) : task_list H × S :=
  let tl0 := st.1.lists_set (st.1.passive_index P) []
  let r := task_list.poll_each P poll tl0.active_list (tl0, st.2)
  ({ r.1 with half := (r.1.half + 1) % P.UINT_RANGE }, r.2)

/-- Line of the `YIELD` in `task_list::run`, the marker it returns. -/
def task_list.YIELD_LINE : status := 37

/-- Code executed by `task_list::run` from the top of the `for(;;)` body to the
`return status(__LINE__)` of the `YIELD`. -/
def task_list.loop {H S : Type} (P : Platform) (poll : job H S) : body S (task_list H) :=
  fun w t =>
    let r := task_list.round P poll (t.impl, w)
    (task_list.YIELD_LINE, { t with impl := r.1 }, r.2)

/-- Body `run()` of `task_list`: `TASK_BEGIN for(;;) { ...; ++half; YIELD; } TASK_END`.
Resuming at the `case` label of the `YIELD` reaches the end of the `for` body
and starts its next iteration. -/
def task_list.run {H S : Type} (P : Platform) (poll : job H S) : body S (task_list H) :=
  TASK_BEGIN_END (task_list.loop P poll)
    (fun m => if m = task_list.YIELD_LINE then some (task_list.loop P poll) else none)

/-- Object `task_list_instance` as constructed: `half = 0`, both lists empty,
status `INIT`. -/
def task_list_instance (H : Type) : task (task_list H) :=
  task.new timer.new ⟨0, ([], [])⟩

/-- Free function `void add_task(std::shared_ptr<async::job> task)`. -/
def add_task {H S : Type} (st : task (task_list H) × S) (t : H) : task (task_list H) × S :=
  ({ st.1 with impl := st.1.impl.add_task t }, st.2)

/-- Free function `void heartbit() { task_list_instance.operator()(); }`. -/
def heartbit {H S : Type} (P : Platform) (poll : job H S)
    (st : task (task_list H) × S) : task (task_list H) × S :=
  (task.operator_call (task_list.run P poll) st.2 st.1).2

/-- Free function `unsigned active_tasks()`. -/
def active_tasks {H S : Type} (P : Platform) (st : task (task_list H) × S) : Nat :=
  st.1.impl.active_tasks P

/-- State after `n` successive calls of `heartbit()`. -/
def heartbit_n {H S : Type} (P : Platform) (poll : job H S) :
    Nat → task (task_list H) × S → task (task_list H) × S
  | 0, st => st
  | n + 1, st => heartbit_n P poll n (heartbit P poll st)

/-- A poll instrumented with a log of the polls made, in order: the handle
polled and the value its `operator()` returned. -/
def logged {H S : Type} (p : H → S → Bool × S) : H → S × List (H × Bool) → Bool × (S × List (H × Bool)) :=
  fun t s =>
    let r := p t s.1
    (r.1, (r.2, s.2 ++ [(t, r.1)]))

/-- The polls of the handles of a list, one after the other: each handle with
the value its poll returned, and the state after the last poll. -/
def poll_trace {H S : Type} (p : H → S → Bool × S) : List H → S → List (H × Bool) × S
  | [], s => ([], s)
  | t :: rest, s =>
    let r := p t s
    let q := poll_trace p rest r.2
    ((t, r.1) :: q.1, q.2)

/-- The handles of a record of polls whose poll reported not done, in the
order of the record. -/
def not_done {H : Type} (tr : List (H × Bool)) : List H :=
  (tr.filter (fun e => !e.2)).map Prod.fst

/-- The values returned by the polls of handle `t` in a record of polls, the
oldest first. -/
def polls_of {H : Type} [DecidableEq H] (t : H) (log : List (H × Bool)) : List Bool :=
  (log.filter (fun e => decide (e.1 = t))).map Prod.snd

/-- The hypothesis that a task becomes DONE on its `k`-th poll, read on the
record `rs` of the values its polls have returned so far: the polls before the
`k`-th returned not done, and the `k`-th, if it has been made, returned
done. -/
def done_on_poll (k : Nat) (rs : List Bool) : Prop :=
  rs.take k = (List.replicate (k - 1) false ++ [true]).take rs.length

/-- The largest of the poll counts `k t` over the handles of `ts` (0 for none). -/
def max_polls {H : Type} (k : H → Nat) : List H → Nat
  | [] => 0
  | t :: ts => max (k t) (max_polls k ts)

/-- A task list holding the handles 0, 1 and 2, before its first round. -/
def three_tasks : task (task_list Nat) :=
  ⟨INIT, timer.new, ⟨0, ([0, 1, 2], [])⟩⟩

/-- Poll counts for `three_tasks`: handle 1 reports done on its first poll, the
others on their second. -/
def three_counts : Nat → Nat :=
  fun t => if t = 1 then 1 else 2

/-- A store of countdown tasks: each handle maps to the number of polls its
task still needs. -/
def countdown_poll : Nat → (Nat → Nat) → Bool × (Nat → Nat) :=
  fun t s => (decide (s t ≤ 1), Function.update s t (s t - 1))

/-! ## Bodies with loops: control flow between suspension points -/

/-- Adaptor `inline bool is_incomplete(bool c) { return !c; }`. -/
def is_incomplete_bool (c : Bool) : Bool := !c

/-- Adaptor `inline bool is_incomplete(timer& c) { return !c.is_expired(); }`, with
`now` the value `clock_time()` returns. -/
def is_incomplete_timer (now : Nat) (c : timer) : Bool := !c.is_expired now

/-- Adaptor `template<typename T> inline bool is_incomplete(task<T>& t)`:
`t.operator()(); return !t.is_done();`.  Returns the value, the polled task
and the world. -/
def is_incomplete_task {W G : Type} (run : body W G) (w : W) (t : task G) :
    Bool × task G × W :=
  let r := task.operator_call run w t
  (!r.2.1.is_done, r.2.1, r.2.2)

/-- Method `void init() {}` of `task<TIMPL>`. -/
def task.init {F : Type} (t : task F) : task F := t

/-- Outcome of a piece of straight-line code of a body: control continues at
another place `n` of the body, or the body executes `return st`. -/
inductive flow (N W F : Type) where
  | goto (n : N) (w : W) (t : task F)
  | ret (st : status) (w : W) (t : task F)

/-- Execution of a body from place `n`: pieces of straight-line code are run one
after the other until one returns; `none` when more than `fuel` pieces would
be needed. -/
def exec {N W F : Type} (code : N → W → task F → flow N W F) :
    Nat → N → W → task F → Option (run_result W F)
  | 0, _, _, _ => none
  | fuel + 1, n, w, t =>
    match code n w t with
    | flow.goto n1 w1 t1 => exec code fuel n1 w1 t1
    | flow.ret st w1 t1 => some (st, t1, w1)

/-- The code of a body entered at place `n`, as a function: `fuel w t` bounds the
number of pieces of code one invocation runs from `n` (for each body below a
theorem shows the bound is never reached, so the alternative is never
taken). -/
def run_from {N W F : Type} (code : N → W → task F → flow N W F)
    (fuel : W → task F → Nat) (n : N) : body W F :=
  fun w t => (exec code (fuel w t) n w t).getD (t.__status, t, w)

/-! ## `example-small.cpp`: the tasks `first` and `second` -/

/-- Lines written to standard output by the two tasks:
`printf("async 1 run # %d\n", ++n)` and `printf("async 2 running\n")`. -/
inductive small_msg where
  | async_1_run (n : Int)
  | async_2_running
deriving DecidableEq, Repr

/-- The program state outside the two task objects of `example-small.cpp`:
`static bool first_flag = true, second_flag = false;` and standard output. -/
structure small_world where
  first_flag : Bool
  second_flag : Bool
  out : List small_msg
deriving DecidableEq, Repr

/-- State of the file-scope variables when the program starts. -/
def small_world.start : small_world := ⟨true, false, []⟩

/-- Members of `TASK(first)`: `int n = 0;`.  The member is an integer here, and
`++n` adds 1: this is what the code does as long as `n` is below `INT_MAX`
(`Platform.INT_MAX`); at `INT_MAX` the `++n` overflows, which C++ leaves
undefined, and the sum is then a value no `int` holds. -/
structure first where
  n : Int
deriving DecidableEq, Repr

/-- Members of `TASK(second)`: none. -/
structure second where
deriving DecidableEq, Repr

/-- Places of the bodies of `first` and `second`: the `AWAIT` at the top of the
`while (true)` loop and the statements after it. -/
inductive small_node where
  | await
  | after_await
deriving DecidableEq, Repr

/-- Marker of the `AWAIT` of `first` (its line). -/
def first.AWAIT_LINE : status := 19

/-- Marker of the `AWAIT` of `second` (its line). -/
def second.AWAIT_LINE : status := 44

/-- Code of `first`:
`while (true) { AWAIT(second_flag); printf("async 1 run # %d\n", ++n);
second_flag = false; first_flag = true; }`. -/
def first.code : small_node → small_world → task first → flow small_node small_world first
  | small_node.await, w, t =>
    if is_incomplete_bool w.second_flag then flow.ret first.AWAIT_LINE w t
    else flow.goto small_node.after_await w t
  | small_node.after_await, w, t =>
    flow.goto small_node.await
      { w with out := w.out ++ [small_msg.async_1_run (t.impl.n + 1)],
               second_flag := false, first_flag := true }
      { t with impl := ⟨t.impl.n + 1⟩ }

/-- Code of `second`:
`while (true) { AWAIT(first_flag); printf("async 2 running\n");
first_flag = false; second_flag = true; }`. -/
def second.code : small_node → small_world → task second → flow small_node small_world second
  | small_node.await, w, t =>
    if is_incomplete_bool w.first_flag then flow.ret second.AWAIT_LINE w t
    else flow.goto small_node.after_await w t
  | small_node.after_await, w, t =>
    flow.goto small_node.await
      { w with out := w.out ++ [small_msg.async_2_running],
               first_flag := false, second_flag := true }
      t

/-- Body `run()` of `first`: `case 0:` and the `case` label of the `AWAIT` both
lead to the `AWAIT` at the top of the loop. -/
def first.run : body small_world first :=
  TASK_BEGIN_END (run_from first.code (fun _ _ => 3) small_node.await)
    (fun m => if m = first.AWAIT_LINE
      then some (run_from first.code (fun _ _ => 3) small_node.await) else none)

/-- Body `run()` of `second`. -/
def second.run : body small_world second :=
  TASK_BEGIN_END (run_from second.code (fun _ _ => 3) small_node.await)
    (fun m => if m = second.AWAIT_LINE
      then some (run_from second.code (fun _ _ => 3) small_node.await) else none)

/-- State of `example_small`: the objects `first n1; second n2;` and the rest of
the program state. -/
structure small_state where
  n1 : task first
  n2 : task second
  w : small_world
deriving DecidableEq, Repr

/-- State of `example_small` when it enters its loop. -/
def small_state.start : small_state :=
  ⟨task.new timer.new ⟨0⟩, task.new timer.new ⟨⟩, small_world.start⟩

/-- The call `n1();` of the loop of `example_small`. -/
def small_state.step_n1 (s : small_state) : small_state :=
  let r := task.operator_call first.run s.w s.n1
  { s with n1 := r.2.1, w := r.2.2 }

/-- The call `n2();` of the loop of `example_small`. -/
def small_state.step_n2 (s : small_state) : small_state :=
  let r := task.operator_call second.run s.w s.n2
  { s with n2 := r.2.1, w := r.2.2 }

/-- State after `i` iterations of `while (--i >= 0) { n1(); n2(); }`. -/
def example_small : Nat → small_state → small_state
  | 0, s => s
  | i + 1, s => example_small i s.step_n1.step_n2

/-- Whether a line of output was written by `first`. -/
def small_msg.from_first : small_msg → Bool
  | small_msg.async_1_run _ => true
  | small_msg.async_2_running => false

/-- Successive calls of `operator()` on one object, the `i`-th in the world
`ws[i]`: between two calls the rest of the program may change the world in any
way. -/
def task.call_in {W F : Type} (run : body W F) : List W → task F → task F
  | [], t => t
  | w :: ws, t => task.call_in run ws (task.operator_call run w t).2.1

/-! ## The task list with polls that call `add_task`, and with `task<TIMPL>` jobs -/

/-- A poll during which the polled task `a` calls `add_task(x)` on the task list
that is polling it, and which otherwise acts as `p`; polls of other handles do
not touch the task list. -/
def with_add_task {H S : Type} [DecidableEq H] (a x : H) (p : H → S → Bool × S) : job H S :=
  fun t st =>
    if t = a then
      let r := p t st.2
      (r.1, (st.1.add_task x, r.2))
    else no_add_task p t st

/-- Members of a task that has a sub-task `T` among its members, next to its
other members `own`. -/
structure with_subtask (F G : Type) where
  own : F
  T : task G
deriving DecidableEq, Repr

/-- The `AWAIT(T)` inside `RUN_TASK(T)` at line `L`, followed by the code `rest`:
`case L: if (async::is_incomplete(T)) return status(L);`. -/
def AWAIT_task {W F G : Type} (L : status) (sub : body W G)
    (rest : body W (with_subtask F G)) : body W (with_subtask F G) :=
  fun w t =>
    let r := is_incomplete_task sub w t.impl.T
    let t1 : task (with_subtask F G) := { t with impl := { t.impl with T := r.2.1 } }
    if r.1 then (L, t1, r.2.2) else rest r.2.2 t1

/-- The statement `RUN_TASK(T, ...)` at line `L`, followed by the code `rest`:
`do { T.restart(); T.init(...); AWAIT(T); } while(false)`.  `init` is the
`init()` of the class of `T` applied to the arguments. -/
def RUN_TASK {W F G : Type} (L : status) (sub : body W G) (init : task G → task G)
    (rest : body W (with_subtask F G)) : body W (with_subtask F G) :=
  fun w t =>
    AWAIT_task L sub rest w { t with impl := { t.impl with T := init t.impl.T.restart } }

/-- Body of a task that starts with `RUN_TASK(T, ...)` at line `L` and goes on
with `rest`, whose own suspension points are `resume`:
`TASK_BEGIN RUN_TASK(T, ...); rest TASK_END`. -/
def run_task_body {W F G : Type} (L : status) (sub : body W G) (init : task G → task G)
    (rest : body W (with_subtask F G))
    (resume : status → Option (body W (with_subtask F G))) : body W (with_subtask F G) :=
  TASK_BEGIN_END (RUN_TASK L sub init rest)
    (fun m => if m = L then some (AWAIT_task L sub rest) else resume m)

/-! ## `clock_time()` on POSIX -/

/-- The `#else` branch of `clock_time()`:
`gettimeofday(&tv, &tz); return unsigned(tv.tv_sec * 1000 + tv.tv_usec / 1000);`
for a reading `tv_sec`, `tv_usec` taken after the epoch.  The sum is a `long`
(assumed not to overflow), the cast reduces it to `unsigned`, and the widening
to the `unsigned long` returned keeps the value. -/
def clock_time_posix (P : Platform) (tv_sec tv_usec : Nat) : Nat :=
  (tv_sec * 1000 + tv_usec / 1000) % P.UINT_RANGE

/-- The polls of the spawning example: the task of handle 0 calls `add_task(1)`
and reports done; the task of handle 1 would report done as well. -/
def spawn_once : Nat → Unit → Bool × Unit :=
  fun _ y => (true, y)

/-- A sub-task body for the `RUN_TASK` example: it counts its member down and
stays suspended (marker 7) until the count is used up; then it is DONE. -/
def countdown_body : body Unit Nat :=
  fun w t =>
    if t.impl ≤ 1 then (DONE, { t with impl := 0 }, w)
    else (7, { t with impl := t.impl - 1 }, w)

/-- Code after the `RUN_TASK` of the example: the structural end of the outer
body, `TASK_END`. -/
def after_run_task : body Unit (with_subtask Unit Nat) :=
  fun w t => (DONE, { t with __status := DONE }, w)

/-! ## `example-task-list.cpp`: the tasks `n1` and `n2` -/

/-- The program state outside a task object of `n1` or `n2`: `now`, the value
`clock_time()` returns during the current call of the task (one call is taken
to see one value of the clock), and standard output: the value `c` printed by
each `printf("n1 c=%d\n", c)`, together with the tick at which it was
printed. -/
structure dyn_world where
  now : Nat
  out : List (Nat × Int)
deriving DecidableEq, Repr

/-- Members of `TASK(n1)` and `TASK(n2)`: `int c;`.  The loop stops at `c = -1`,
so `--c` never overflows. -/
structure n1 where
  c : Int
deriving DecidableEq, Repr

/-- Places of the body of `n1`: the test of the `for`, the `AWAIT` inside
`SLEEP`, and the statements after the `SLEEP`. -/
inductive sleep_node where
  | for_cond
  | await
  | after_await
deriving DecidableEq, Repr

/-- Code of `n1` (`ms = 100`, `L = 69`) and of `n2` (`ms = 113`, `L = 86`):
`for (; c >= 0; --c) { SLEEP(ms); printf("n1 c=%d\n", c); }`, with
`SLEEP(ms)` being `__sleep_timer.start(ms); case L: if (is_incomplete(__sleep_timer)) return status(L);`.
Leaving the loop reaches `TASK_END`: `default: return (__status = DONE);`. -/
def sleep_loop (P : Platform) (ms : Nat) (L : status) :
    sleep_node → dyn_world → task n1 → flow sleep_node dyn_world n1
  | sleep_node.for_cond, w, t =>
    if t.impl.c ≥ 0 then
      flow.goto sleep_node.await w
        { t with __sleep_timer := timer.start P w.now ms t.__sleep_timer }
    else flow.ret DONE w { t with __status := DONE }
  | sleep_node.await, w, t =>
    if is_incomplete_timer w.now t.__sleep_timer then flow.ret L w t
    else flow.goto sleep_node.after_await w t
  | sleep_node.after_await, w, t =>
    flow.goto sleep_node.for_cond
      { w with out := w.out ++ [(w.now, t.impl.c)] }
      { t with impl := ⟨t.impl.c - 1⟩ }

/-- Bound on the pieces of code one call of `n1` runs: three for each value
`c` still has to take, and the final test. -/
def sleep_loop_fuel (_w : dyn_world) (t : task n1) : Nat :=
  3 * (t.impl.c + 1).toNat + 3

/-- Marker of the `SLEEP` of `n1` (its line). -/
def n1.SLEEP_LINE : status := 69

/-- Body `run()` of `n1`: `case 0:` leads to the test of the `for`, the `case`
label of the `SLEEP` to its `AWAIT`. -/
def n1.run (P : Platform) : body dyn_world n1 :=
  TASK_BEGIN_END (run_from (sleep_loop P 100 n1.SLEEP_LINE) sleep_loop_fuel sleep_node.for_cond)
    (fun m => if m = n1.SLEEP_LINE
      then some (run_from (sleep_loop P 100 n1.SLEEP_LINE) sleep_loop_fuel sleep_node.await)
      else none)

/-- Marker of the `SLEEP` of `n2` (its line). -/
def n2.SLEEP_LINE : status := 86

/-- Body `run()` of `n2`. -/
def n2.run (P : Platform) : body dyn_world n1 :=
  TASK_BEGIN_END (run_from (sleep_loop P 113 n2.SLEEP_LINE) sleep_loop_fuel sleep_node.for_cond)
    (fun m => if m = n2.SLEEP_LINE
      then some (run_from (sleep_loop P 113 n2.SLEEP_LINE) sleep_loop_fuel sleep_node.await)
      else none)

/-- Body `run()` of a task whose code is the loop `sleep_loop P ms L`: `case 0:`
leads to the test of the `for`, the `case` label of the `SLEEP` (marker `L`) to
its `AWAIT`.  `n1.run` is the case `ms = 100`, `L = 69` and `n2.run` the case
`ms = 113`, `L = 86`. -/
def sleep_loop.run (P : Platform) (ms : Nat) (L : status) : body dyn_world n1 :=
  TASK_BEGIN_END (run_from (sleep_loop P ms L) sleep_loop_fuel sleep_node.for_cond)
    (fun m => if m = L
      then some (run_from (sleep_loop P ms L) sleep_loop_fuel sleep_node.await)
      else none)

/-- The `AWAIT(__sleep_timer)` inside `SLEEP(ms)` at line `L`, followed by the
code `rest`: `case L: if (async::is_incomplete(__sleep_timer)) return status(L);`.
`now w` is the value `clock_time()` returns in the world `w`. -/
def AWAIT_sleep_timer {W F : Type} (now : W → Nat) (L : status) (rest : body W F) :
    body W F :=
  fun w t => if is_incomplete_timer (now w) t.__sleep_timer then (L, t, w) else rest w t

/-- The statement `SLEEP(ms)` at line `L`, followed by the code `rest`:
`__sleep_timer.start(ms); AWAIT(__sleep_timer)`. -/
def SLEEP {W F : Type} (P : Platform) (now : W → Nat) (ms : Nat) (L : status)
    (rest : body W F) : body W F :=
  fun w t =>
    AWAIT_sleep_timer now L rest w
      { t with __sleep_timer := timer.start P (now w) ms t.__sleep_timer }

/-- Body of a task that starts with `SLEEP(ms)` at line `L` and goes on with
`rest`, whose own suspension points are `resume`:
`TASK_BEGIN SLEEP(ms); rest TASK_END`. -/
def sleep_body {W F : Type} (P : Platform) (now : W → Nat) (ms : Nat) (L : status)
    (rest : body W F) (resume : status → Option (body W F)) : body W F :=
  TASK_BEGIN_END (SLEEP P now ms L rest)
    (fun m => if m = L then some (AWAIT_sleep_timer now L rest) else resume m)

/-- Code after the `SLEEP` of the example: it prints the member and reaches the
structural end of the body, `TASK_END`. -/
def after_sleep : body dyn_world n1 :=
  fun w t => (DONE, { t with __status := DONE }, { w with out := w.out ++ [(w.now, t.impl.c)] })

/-- Constructor `n1(int count) : c(count) {}`. -/
def n1.new (count : Int) : task n1 := task.new timer.new ⟨count⟩

/-- One call of `operator()` on an `n1` object at clock tick `q`. -/
def n1.poll_at (P : Platform) (q : Nat) (s : task n1 × dyn_world) : task n1 × dyn_world :=
  (task.operator_call (n1.run P) { s.2 with now := q } s.1).2

/-- Successive calls of `operator()` on an `n1` object, at the clock ticks of a
list. -/
def n1.polls_at (P : Platform) : List Nat → task n1 × dyn_world → task n1 × dyn_world
  | [], s => s
  | q :: qs, s => n1.polls_at P qs (n1.poll_at P q s)

/-- The values `hi, hi - 1, ..., lo + 1`, highest first. -/
def countdown_values (hi lo : Int) : List Int :=
  (List.range (hi - lo).toNat).map (fun (i : Nat) => hi - (i : Int))

/-- What holds of an `n1` object constructed with count `c0` and of the output,
after any calls of the object: the values printed are `c0, c0 - 1, ...` down to
`c + 1`, any two of them were printed at least 100 ticks apart, and the object
is either not started (nothing printed yet), or suspended at its `SLEEP` with a deadline at least 100
ticks after every line printed, or DONE with `c = -1`. -/
def n1.sleeping (c0 : Int) (s : task n1 × dyn_world) : Prop :=
  s.2.out.map Prod.snd = countdown_values c0 s.1.impl.c ∧
  s.2.out.Pairwise (fun a b => a.1 + 100 ≤ b.1) ∧
  -1 ≤ s.1.impl.c ∧ s.1.impl.c ≤ c0 ∧
  ((s.1.__status = INIT ∧ 0 ≤ s.1.impl.c ∧ s.2.out = []) ∨
    (s.1.__status = n1.SLEEP_LINE ∧ 0 ≤ s.1.impl.c ∧
      ∀ e ∈ s.2.out, e.1 + 100 ≤ s.1.__sleep_timer.until_) ∨
    (s.1.__status = DONE ∧ s.1.impl.c = -1))

/-- Poll of a handle of `example_dyn_task`: handle 0 is the object made by
`FIRE_TASK(n1, 12)`, any other handle the object made by `FIRE_TASK(n2, 23)`;
`t->operator()()` runs `task::operator()` on the object.  The clock is taken to
have advanced by `dt` ticks since the previous poll. -/
def dyn_poll (P : Platform) (dt : Nat) :
    Nat → (Nat → task n1) × dyn_world → Bool × ((Nat → task n1) × dyn_world) :=
  fun h st =>
    let r := task.operator_call (if h = 0 then n1.run P else n2.run P)
      { st.2 with now := (st.2.now + dt) % P.ULONG_RANGE } (st.1 h)
    (r.1, (Function.update st.1 h r.2.1, r.2.2))

/-- The objects of `example_dyn_task`, `n1(12)` behind handle 0 and `n2(23)`
behind handle 1, with the clock at 0 and nothing printed. -/
def dyn_objects : (Nat → task n1) × dyn_world :=
  (fun h => if h = 0 then n1.new 12 else n1.new 23, ⟨0, []⟩)

/-- Poll counts of `example_dyn_task` when 120 ticks pass between two polls:
`n1(12)` is DONE on its 14th poll and `n2(23)` on its 25th. -/
def dyn_counts : Nat → Nat :=
  fun h => if h = 0 then 14 else 25

/-! ## `example-codelock.cpp`: the task `codelock_thread` -/

/-- Lines written to standard output by `press_key` and by `codelock_thread`. -/
inductive codelock_msg where
  | key_pressed (k : Char)
  | timer_expired
  | incorrect_key (k : Char)
  | correct_key (k : Char)
  | correct_code
  | locked_again
  | unlocked
deriving DecidableEq, Repr

/-- The program state outside the `codelock_thread` object: `now`, the value
`clock_time()` returns during the current call of the task (one call is taken
to see one value of the clock), the file-scope variables
`static char key, key_pressed_flag;` and `codelock_timer`, and standard
output. -/
structure codelock_world where
  now : Nat
  key : Char
  key_pressed_flag : Nat
  codelock_timer : timer
  out : List codelock_msg
deriving DecidableEq, Repr

/-- The array `static const char code[4] = {'1', '4', '2', '3'};`. -/
def code : List Char := ['1', '4', '2', '3']

/-- Function `press_key(char k)`:
`printf("--- Key '%c' pressed\n", k); key = k; key_pressed_flag = 1;`. -/
def press_key (k : Char) (w : codelock_world) : codelock_world :=
  { w with out := w.out ++ [codelock_msg.key_pressed k], key := k, key_pressed_flag := 1 }

/-- Function `key_pressed()`:
`if(key_pressed_flag != 0) { key_pressed_flag = 0; return true; } return false;`. -/
def key_pressed (w : codelock_world) : Bool × codelock_world :=
  if w.key_pressed_flag ≠ 0 then (true, { w with key_pressed_flag := 0 }) else (false, w)

/-- The condition `key_pressed() || codelock_timer.is_expired()`: the timer is
asked only when `key_pressed()` returns false. -/
def key_pressed_or_expired (w : codelock_world) : Bool × codelock_world :=
  let r := key_pressed w
  if r.1 then (true, r.2) else (r.2.codelock_timer.is_expired r.2.now, r.2)

/-- Members of `TASK(codelock_thread)`: `int keys;` (it is assigned 0 before it
is first read and only counts up to 4, so a natural number here). -/
structure codelock_thread where
  keys : Nat
deriving DecidableEq, Repr

/-- Places of the body of `codelock_thread`. -/
inductive codelock_node where
  | while_top
  | for_cond
  | await_first
  | start_timer
  | await_next
  | timer_check
  | key_check
  | for_incr
  | after_for
  | await_final
  | final_check
deriving DecidableEq, Repr

/-- Marker of `AWAIT(key_pressed())` (its line). -/
def codelock_thread.AWAIT_FIRST : status := 135

/-- Marker of the `AWAIT(key_pressed() || codelock_timer.is_expired())` inside
the `for` loop (its line). -/
def codelock_thread.AWAIT_NEXT : status := 152

/-- Marker of the `AWAIT(key_pressed() || codelock_timer.is_expired())` of the
final wait (its line). -/
def codelock_thread.AWAIT_FINAL : status := 199

/-- Code of `codelock_thread`, place by place:
* `while_top`: `while(1) { for(keys = 0;`
* `for_cond`: `keys < sizeof(code);` then `if(keys == 0)`
* `await_first`: `AWAIT(key_pressed());`
* `start_timer`: `codelock_timer.start(1000);`
* `await_next`: `AWAIT(key_pressed() || codelock_timer.is_expired());`
* `timer_check`: `if(codelock_timer.is_expired()) { printf(...); break; }`
* `key_check`: `if(key != code[keys]) { printf(...); break; } else { printf(...); }`
  (`code[keys]` is read only with `keys < 4` in the states the task reaches; an
  index out of range counts as a different key here)
* `for_incr`: `++keys`
* `after_for`: `if(keys == sizeof(code)) { printf(...); codelock_timer.start(500);`
* `await_final`: `AWAIT(key_pressed() || codelock_timer.is_expired());`
* `final_check`: `if(!codelock_timer.is_expired()) { printf(...); } else { printf(...); TASK_STOP; }`. -/
def codelock_thread.code (P : Platform) :
    codelock_node → codelock_world → task codelock_thread →
      flow codelock_node codelock_world codelock_thread
  | codelock_node.while_top, w, t =>
    flow.goto codelock_node.for_cond w { t with impl := ⟨0⟩ }
  | codelock_node.for_cond, w, t =>
    if t.impl.keys < async.code.length then
      if t.impl.keys = 0 then flow.goto codelock_node.await_first w t
      else flow.goto codelock_node.start_timer w t
    else flow.goto codelock_node.after_for w t
  | codelock_node.await_first, w, t =>
    if is_incomplete_bool (key_pressed w).1 then
      flow.ret codelock_thread.AWAIT_FIRST (key_pressed w).2 t
    else flow.goto codelock_node.key_check (key_pressed w).2 t
  | codelock_node.start_timer, w, t =>
    flow.goto codelock_node.await_next
      { w with codelock_timer := timer.start P w.now 1000 w.codelock_timer } t
  | codelock_node.await_next, w, t =>
    if is_incomplete_bool (key_pressed_or_expired w).1 then
      flow.ret codelock_thread.AWAIT_NEXT (key_pressed_or_expired w).2 t
    else flow.goto codelock_node.timer_check (key_pressed_or_expired w).2 t
  | codelock_node.timer_check, w, t =>
    if w.codelock_timer.is_expired w.now then
      flow.goto codelock_node.after_for
        { w with out := w.out ++ [codelock_msg.timer_expired] } t
    else flow.goto codelock_node.key_check w t
  | codelock_node.key_check, w, t =>
    if some w.key ≠ async.code[t.impl.keys]? then
      flow.goto codelock_node.after_for
        { w with out := w.out ++ [codelock_msg.incorrect_key w.key] } t
    else
      flow.goto codelock_node.for_incr
        { w with out := w.out ++ [codelock_msg.correct_key w.key] } t
  | codelock_node.for_incr, w, t =>
    flow.goto codelock_node.for_cond w { t with impl := ⟨t.impl.keys + 1⟩ }
  | codelock_node.after_for, w, t =>
    if t.impl.keys = async.code.length then
      flow.goto codelock_node.await_final
        { w with out := w.out ++ [codelock_msg.correct_code],
                 codelock_timer := timer.start P w.now 500 w.codelock_timer } t
    else flow.goto codelock_node.while_top w t
  | codelock_node.await_final, w, t =>
    if is_incomplete_bool (key_pressed_or_expired w).1 then
      flow.ret codelock_thread.AWAIT_FINAL (key_pressed_or_expired w).2 t
    else flow.goto codelock_node.final_check (key_pressed_or_expired w).2 t
  | codelock_node.final_check, w, t =>
    if !w.codelock_timer.is_expired w.now then
      flow.goto codelock_node.while_top
        { w with out := w.out ++ [codelock_msg.locked_again] } t
    else
      flow.ret DONE { w with out := w.out ++ [codelock_msg.unlocked] }
        { t with __status := DONE }

/-- Bound on the pieces of code one call of `codelock_thread` runs. -/
def codelock_thread.fuel (_w : codelock_world) (_t : task codelock_thread) : Nat := 16

/-- Body `run()` of `codelock_thread`: `case 0:` leads to the top of the
`while(1)`, the three `case` labels to their `AWAIT`. -/
def codelock_thread.run (P : Platform) : body codelock_world codelock_thread :=
  TASK_BEGIN_END
    (run_from (codelock_thread.code P) codelock_thread.fuel codelock_node.while_top)
    (fun m =>
      if m = codelock_thread.AWAIT_FIRST then
        some (run_from (codelock_thread.code P) codelock_thread.fuel codelock_node.await_first)
      else if m = codelock_thread.AWAIT_NEXT then
        some (run_from (codelock_thread.code P) codelock_thread.fuel codelock_node.await_next)
      else if m = codelock_thread.AWAIT_FINAL then
        some (run_from (codelock_thread.code P) codelock_thread.fuel codelock_node.await_final)
      else none)

/-- What happens between two calls of `codelock_thread`: the clock reaches the
value the next call will see, and a key may be pressed (`press_key`). -/
structure codelock_event where
  now : Nat
  key : Option Char
deriving DecidableEq, Repr

/-- The world as the next call of `codelock_thread` finds it. -/
def codelock_event.apply (e : codelock_event) (w : codelock_world) : codelock_world :=
  match e.key with
  | some k => press_key k { w with now := e.now }
  | none => { w with now := e.now }

/-- One call `codelock()` after the event `e`. -/
def codelock_poll (P : Platform) (e : codelock_event)
    (s : task codelock_thread × codelock_world) : task codelock_thread × codelock_world :=
  (task.operator_call (codelock_thread.run P) (e.apply s.2) s.1).2

/-- Successive calls `codelock()`, each after the event of the list. -/
def codelock_polls (P : Platform) :
    List codelock_event → task codelock_thread × codelock_world →
      task codelock_thread × codelock_world
  | [], s => s
  | e :: es, s => codelock_polls P es (codelock_poll P e s)

/-- The object `codelock_thread codelock;` as constructed (`keys0` is the value
the uninitialised member `keys` happens to have) and the file-scope variables
as the program starts: zero-initialised `key` and `key_pressed_flag`, a timer
never started, nothing printed. -/
def codelock_start (keys0 : Nat) : task codelock_thread × codelock_world :=
  (task.new timer.new ⟨keys0⟩, ⟨0, Char.ofNat 0, 0, timer.new, []⟩)

/-- Events without a key press, at the ticks of a list. -/
def idle_at (ticks : List Nat) : List codelock_event :=
  ticks.map (fun q => ⟨q, none⟩)

/-- The lines of the output written by `codelock_thread` itself (those of
`press_key` left out). -/
def lock_out (w : codelock_world) : List codelock_msg :=
  w.out.filter (fun m => match m with
    | codelock_msg.key_pressed _ => false
    | _ => true)

/-- The task waits for a first key (or is not started) and no key press is
pending. -/
def codelock_waits_first (s : task codelock_thread × codelock_world) : Prop :=
  (s.1.__status = INIT ∨ (s.1.__status = codelock_thread.AWAIT_FIRST ∧ s.1.impl.keys = 0)) ∧
  s.2.key_pressed_flag = 0

/-- The task waits for the key at position `i` with the deadline `u` on
`codelock_timer`, and no key press is pending. -/
def codelock_waits_next (i u : Nat) (s : task codelock_thread × codelock_world) : Prop :=
  s.1.__status = codelock_thread.AWAIT_NEXT ∧ s.1.impl.keys = i ∧
  s.2.key_pressed_flag = 0 ∧ s.2.codelock_timer.until_ = u

/-- The task is in its final wait, with a deadline of at most `u` and no key
press pending, or it is DONE. -/
def codelock_final_wait (u : Nat) (s : task codelock_thread × codelock_world) : Prop :=
  (s.1.__status = codelock_thread.AWAIT_FINAL ∧ s.2.key_pressed_flag = 0 ∧
    s.2.codelock_timer.until_ ≤ u) ∨
  s.1.__status = DONE

/-! ## Auxiliary facts -/

theorem Platform.UINT_RANGE_pos (P : Platform) : 0 < P.UINT_RANGE := by
  unfold Platform.UINT_RANGE
  positivity

theorem Platform.two_dvd_UINT_RANGE (P : Platform) : 2 ∣ P.UINT_RANGE := by
  unfold Platform.UINT_RANGE
  have h : 1 ≤ P.uint_bits := le_trans (by decide) P.uint_min
  obtain ⟨m, hm⟩ := Nat.exists_eq_add_of_le h
  rw [hm, pow_add]
  exact ⟨2 ^ m, by ring⟩

theorem semaphore.poll_blocked : is_incomplete_semaphore ⟨0⟩ = (true, ⟨0⟩) := by
  simp [is_incomplete_semaphore, semaphore.is_incomplete]

theorem semaphore.poll_available (c : Nat) :
    is_incomplete_semaphore ⟨c + 1⟩ = (false, ⟨c⟩) := by
  simp [is_incomplete_semaphore, semaphore.is_incomplete]

theorem semaphore.poll_n_available (j : Nat) :
    ∀ c : Nat, j ≤ c → semaphore.poll_n j ⟨c⟩ = (List.replicate j false, ⟨c - j⟩) := by
  induction j with
  | zero => intro c _; simp [semaphore.poll_n]
  | succ j ih =>
    intro c hc
    obtain ⟨c', rfl⟩ : ∃ c', c = c' + 1 := ⟨c - 1, by omega⟩
    have hj : j ≤ c' := by omega
    simp [semaphore.poll_n, semaphore.poll_available, ih c' hj, List.replicate_succ]

theorem semaphore.signal_n_count (P : Platform) (k : Nat) :
    ∀ c : Nat, c < P.UINT_RANGE →
      semaphore.signal_n P k ⟨c⟩ = ⟨(c + k) % P.UINT_RANGE⟩ := by
  induction k with
  | zero => intro c hc; simp [semaphore.signal_n, Nat.mod_eq_of_lt hc]
  | succ k ih =>
    intro c _
    have hlt : (c + 1) % P.UINT_RANGE < P.UINT_RANGE := Nat.mod_lt _ P.UINT_RANGE_pos
    simp only [semaphore.signal_n, semaphore.signal]
    rw [ih _ hlt]
    congr 1
    rw [Nat.mod_add_mod]
    congr 1
    omega

/-! ## The task state machine -/

/-- C1: a task whose status is DONE is left as it is by `operator()`, any number
of times: the call returns `false`, the object (status, sleep timer, own
members) and the world are unchanged, whatever the body `run()` is, and a body
counting its invocations is never invoked; `restart()` leaves DONE. -/
theorem done_is_absorbing {W F : Type} (run : body W F) (w : W) (t : task F) (n : Nat)
    (h : t.__status = DONE) :
    task.operator_call run w t = (false, t, w) ∧
    task.call_n run n (t, w) = (t, w) ∧
    task.call_n (counted run) n (t, (w, 0)) = (t, (w, 0)) ∧
    t.restart.__status = INIT ∧ t.restart.is_done = false := by
  have step : ∀ {V : Type} (r : body V F) (v : V), task.operator_call r v t = (false, t, v) := by
    intro V r v
    simp [task.operator_call, task.is_done, h]
  have many : ∀ {V : Type} (r : body V F) (v : V) (m : Nat), task.call_n r m (t, v) = (t, v) := by
    intro V r v m
    induction m with
    | zero => rfl
    | succ m ih => simp [task.call_n, step, ih]
  refine ⟨step run w, many run w n, many (counted run) (w, 0) n, rfl, ?_⟩
  simp [task.restart, task.is_done, INIT, DONE]

/-- Instance of `done_is_absorbing`: a DONE task whose body would return marker 5
and count its calls in the world, called three times. -/
theorem done_is_absorbing_witness :
    task.operator_call (fun (w : Nat) (t : task Nat) => ((5 : status), t, w + 1)) 0
        ⟨DONE, timer.new, 7⟩ = (false, ⟨DONE, timer.new, 7⟩, 0) ∧
    task.call_n (fun (w : Nat) (t : task Nat) => ((5 : status), t, w + 1)) 3
        (⟨DONE, timer.new, 7⟩, 0) = (⟨DONE, timer.new, 7⟩, 0) ∧
    task.call_n (counted (fun (w : Nat) (t : task Nat) => ((5 : status), t, w + 1))) 3
        (⟨DONE, timer.new, 7⟩, (0, 0)) = (⟨DONE, timer.new, 7⟩, (0, 0)) ∧
    (task.restart (⟨DONE, timer.new, 7⟩ : task Nat)).__status = INIT ∧
    (task.restart (⟨DONE, timer.new, 7⟩ : task Nat)).is_done = false :=
  done_is_absorbing (fun (w : Nat) (t : task Nat) => ((5 : status), t, w + 1)) 0
    ⟨DONE, timer.new, 7⟩ 3 rfl

/-- C2, refuted as stated: on a task that is already DONE, `operator()` returns
`false` although `is_done()` evaluated right after the call is `true`. -/
theorem step_on_done_returns_false :
    (task.operator_call (fun (w : Unit) (t : task Nat) => (DONE, t, w)) ()
        ⟨DONE, timer.new, 0⟩).1 = false ∧
    (task.operator_call (fun (w : Unit) (t : task Nat) => (DONE, t, w)) ()
        ⟨DONE, timer.new, 0⟩).2.1.is_done = true := by
  simp [task.operator_call, task.is_done]

/-- C2, amended: the value `operator()` returns is `is_done()` evaluated right
after the call when the task was not DONE before the call, and `false` when it
was already DONE (its status then stays DONE). -/
theorem step_returns_done_status {W F : Type} (run : body W F) (w : W) (t : task F) :
    (task.operator_call run w t).1 =
      (!t.is_done && (task.operator_call run w t).2.1.is_done) ∧
    (task.operator_call run w t).2.1.is_done =
      (t.is_done || decide ((run w t).1 = DONE)) := by
  by_cases h : t.__status = DONE
  · simp [task.operator_call, task.is_done, h]
  · simp [task.operator_call, task.is_done, h]

/-- C3: `restart()` sets the status to INIT and keeps the sleep timer and the
members of the deriving class, whatever the state of the task; the call of
`operator()` that follows is the call on a newly constructed object with the
same timer and members, and for a body written with `TASK_BEGIN`/`TASK_END` it
executes the code at `case 0:` (the top of the body) on the restarted
object. -/
theorem restart_then_step {W F : Type} (run top : body W F)
    (resume : status → Option (body W F)) (w : W) (t : task F) :
    t.restart.__status = INIT ∧
    t.restart.__sleep_timer = t.__sleep_timer ∧
    t.restart.impl = t.impl ∧
    task.operator_call run w t.restart =
      task.operator_call run w (task.new t.__sleep_timer t.impl) ∧
    TASK_BEGIN_END top resume w t.restart = top w t.restart ∧
    task.operator_call (TASK_BEGIN_END top resume) w t.restart =
      (decide ((top w t.restart).1 = DONE),
        { (top w t.restart).2.1 with __status := (top w t.restart).1 },
        (top w t.restart).2.2) := by
  refine ⟨rfl, rfl, rfl, rfl, ?_, ?_⟩
  · simp [TASK_BEGIN_END, task.restart, INIT]
  · simp [task.operator_call, TASK_BEGIN_END, task.restart, INIT, task.is_done, DONE]

/-! ## Timer -/

/-- C4, refuted as stated: where `unsigned long` has 32 bits, a timer started at
tick 4294967295 with duration 1 has deadline 0 and reports expired at tick
4294967295, a tick of `[t, t + d)`. -/
theorem timer_deadline_wraps :
    (4294967295 : Nat) < WIN32.ULONG_RANGE ∧ (1 : Nat) < WIN32.UINT_RANGE ∧
    (4294967295 : Nat) ≤ 4294967295 ∧ (4294967295 : Nat) < 4294967295 + 1 ∧
    timer.is_expired 4294967295 (timer.start WIN32 4294967295 1 timer.new) = true := by
  simp [timer.is_expired, timer.start, Platform.ULONG_RANGE, Platform.UINT_RANGE, WIN32]

/-- C4, amended: when `t + d` does not exceed the largest `unsigned long`, a
timer started at tick `t` with duration `d` reports not expired at every tick
of `[t, t + d)` and expired at every tick from `t + d` on. -/
theorem timer_expiry (P : Platform) (t d q : Nat) (tm : timer)
    (hfit : t + d < P.ULONG_RANGE) :
    (t ≤ q → q < t + d → timer.is_expired q (timer.start P t d tm) = false) ∧
    (t + d ≤ q → timer.is_expired q (timer.start P t d tm) = true) := by
  simp only [timer.is_expired, timer.start, Nat.mod_eq_of_lt hfit]
  constructor
  · intro _ h
    simpa using h
  · intro h
    simpa using h

/-- Instance of `timer_expiry`: a timer started at tick 1000 for 100 ticks, queried
at ticks 1050 and 1100. -/
theorem timer_expiry_witness :
    ((1000 ≤ 1050 → 1050 < 1000 + 100 →
        timer.is_expired 1050 (timer.start LP64 1000 100 timer.new) = false) ∧
      (1000 + 100 ≤ 1050 →
        timer.is_expired 1050 (timer.start LP64 1000 100 timer.new) = true)) ∧
    timer.is_expired 1050 (timer.start LP64 1000 100 timer.new) = false ∧
    timer.is_expired 1100 (timer.start LP64 1000 100 timer.new) = true :=
  ⟨timer_expiry LP64 1000 100 1050 timer.new (by decide), by decide, by decide⟩

/-- C5, refuted as stated: a default-constructed timer, never started, reports
expired at tick 0. -/
theorem unarmed_timer_expired_at_zero :
    ¬ (timer.is_expired 0 timer.new = false) := by
  decide

/-- C5, amended: a default-constructed timer on which `start()` has never been
called reports expired at every clock tick. -/
theorem unarmed_timer_always_expired (now : Nat) :
    timer.is_expired now timer.new = true := by
  simp [timer.is_expired, timer.new]

/-! ## Semaphore -/

/-- C6, refuted as stated: with a 32-bit `unsigned`, after 4294967296 calls of
`signal()` on a semaphore of count 0 the count is 0 again and the first poll
reports blocked. -/
theorem semaphore_signals_wrap :
    is_incomplete_semaphore (semaphore.signal_n LP64 4294967296 (semaphore.new 0)) =
      (true, ⟨0⟩) := by
  have h0 : (0 : Nat) < LP64.UINT_RANGE := LP64.UINT_RANGE_pos
  rw [semaphore.new, semaphore.signal_n_count LP64 4294967296 0 h0]
  have hm : (0 + 4294967296) % LP64.UINT_RANGE = 0 := by
    norm_num [Platform.UINT_RANGE, LP64]
  rw [hm]
  exact semaphore.poll_blocked

/-- C6, amended: for every `k` that an `unsigned int` can hold, after `k` calls
of `signal()` on a semaphore of count 0, each of the next `k` polls succeeds and
takes one unit (after `j ≤ k` polls, all successful, the count is `k - j`), the
poll after them reports blocked and leaves the count at 0, and after one more
`signal()` exactly one more poll succeeds. -/
theorem semaphore_signal_then_poll (P : Platform) (k j : Nat)
    (hk : k < P.UINT_RANGE) (hj : j ≤ k) :
    semaphore.poll_n j (semaphore.signal_n P k (semaphore.new 0)) =
      (List.replicate j false, ⟨k - j⟩) ∧
    semaphore.poll_n (k + 1) (semaphore.signal_n P k (semaphore.new 0)) =
      (List.replicate k false ++ [true], ⟨0⟩) ∧
    semaphore.poll_n 2
        (semaphore.signal P
          (semaphore.poll_n (k + 1) (semaphore.signal_n P k (semaphore.new 0))).2) =
      ([false, true], ⟨0⟩) := by
  have hs : semaphore.signal_n P k (semaphore.new 0) = ⟨k⟩ := by
    rw [semaphore.new, semaphore.signal_n_count P k 0 P.UINT_RANGE_pos]
    simp [Nat.mod_eq_of_lt hk]
  have hsplit : ∀ (n : Nat) (c : semaphore),
      semaphore.poll_n (n + 1) c =
        ((semaphore.poll_n n c).1 ++ [(is_incomplete_semaphore (semaphore.poll_n n c).2).1],
          (is_incomplete_semaphore (semaphore.poll_n n c).2).2) := by
    intro n
    induction n with
    | zero => intro c; simp [semaphore.poll_n]
    | succ n ih =>
      intro c
      rw [semaphore.poll_n, ih]
      simp [semaphore.poll_n]
  have hall : semaphore.poll_n (k + 1) (⟨k⟩ : semaphore) =
      (List.replicate k false ++ [true], ⟨0⟩) := by
    rw [hsplit, semaphore.poll_n_available k k le_rfl]
    simp [semaphore.poll_blocked]
  have hone : (1 : Nat) % P.UINT_RANGE = 1 := by
    apply Nat.mod_eq_of_lt
    have := P.uint_min
    unfold Platform.UINT_RANGE
    calc 1 < 2 ^ 16 := by norm_num
      _ ≤ 2 ^ P.uint_bits := Nat.pow_le_pow_right (by norm_num) this
  rw [hs]
  refine ⟨semaphore.poll_n_available j k hj, hall, ?_⟩
  rw [hall]
  simp [semaphore.signal, hone, semaphore.poll_n, is_incomplete_semaphore,
    semaphore.is_incomplete]

/-- Instance of `semaphore_signal_then_poll`: three signals, then polls. -/
theorem semaphore_signal_then_poll_witness :
    (3 : Nat) < LP64.UINT_RANGE ∧ (2 : Nat) ≤ 3 ∧
    (semaphore.poll_n 2 (semaphore.signal_n LP64 3 (semaphore.new 0)) =
      (List.replicate 2 false, ⟨3 - 2⟩) ∧
    semaphore.poll_n (3 + 1) (semaphore.signal_n LP64 3 (semaphore.new 0)) =
      (List.replicate 3 false ++ [true], ⟨0⟩) ∧
    semaphore.poll_n 2
        (semaphore.signal LP64
          (semaphore.poll_n (3 + 1) (semaphore.signal_n LP64 3 (semaphore.new 0))).2) =
      ([false, true], ⟨0⟩)) :=
  ⟨by decide, by decide, semaphore_signal_then_poll LP64 3 2 (by decide) (by decide)⟩

/-- C7, refuted as stated: with a 32-bit `unsigned`, `signal()` on a semaphore
whose count is the maximum 4294967295 leaves the count at 0, not at
4294967296, and the poll right after it reports blocked. -/
theorem semaphore_signal_at_max_wraps :
    (4294967295 : Nat) < LP64.UINT_RANGE ∧
    (semaphore.signal LP64 ⟨4294967295⟩)._count = 0 ∧
    is_incomplete_semaphore (semaphore.signal LP64 ⟨4294967295⟩) = (true, ⟨0⟩) := by
  simp [semaphore.signal, is_incomplete_semaphore, semaphore.is_incomplete,
    Platform.UINT_RANGE, LP64]

/-- C7, amended: for every count `c` below the maximum of `unsigned int`,
`signal()` leaves the count at `c + 1`, and the poll right after it succeeds
and returns the count to `c`. -/
theorem semaphore_signal_below_max (P : Platform) (c : Nat) (hc : c + 1 < P.UINT_RANGE) :
    (semaphore.signal P ⟨c⟩)._count = c + 1 ∧
    is_incomplete_semaphore (semaphore.signal P ⟨c⟩) = (false, ⟨c⟩) := by
  simp [semaphore.signal, Nat.mod_eq_of_lt hc, is_incomplete_semaphore,
    semaphore.is_incomplete]

/-- Instance of `semaphore_signal_below_max`: the largest count a 32-bit
`unsigned` can still be incremented from. -/
theorem semaphore_signal_below_max_witness :
    (4294967294 : Nat) + 1 < LP64.UINT_RANGE ∧
    (semaphore.signal LP64 ⟨4294967294⟩)._count = 4294967294 + 1 ∧
    is_incomplete_semaphore (semaphore.signal LP64 ⟨4294967294⟩) = (false, ⟨4294967294⟩) :=
  ⟨by decide, semaphore_signal_below_max LP64 4294967294 (by decide)⟩

/-- C8: `reset(n)` overwrites the count: for every prior count `c` and every
`n` (both `unsigned int`) the semaphore after `reset(n)` is the one of count
`n`, the same for every prior count; the next `n` polls succeed and the one
after them reports blocked; and `reset(n)` gives the same semaphore as `n`
calls of `signal()` only when `c = 0`. -/
theorem semaphore_reset_overwrites (P : Platform) (c c' n : Nat)
    (hc : c < P.UINT_RANGE) (hn : n < P.UINT_RANGE) :
    semaphore.reset n ⟨c⟩ = ⟨n⟩ ∧
    semaphore.reset n ⟨c⟩ = semaphore.reset n ⟨c'⟩ ∧
    semaphore.poll_n n (semaphore.reset n ⟨c⟩) = (List.replicate n false, ⟨0⟩) ∧
    is_incomplete_semaphore (semaphore.poll_n n (semaphore.reset n ⟨c⟩)).2 = (true, ⟨0⟩) ∧
    (semaphore.reset n ⟨c⟩ = semaphore.signal_n P n ⟨c⟩ ↔ c = 0) := by
  have hp : semaphore.poll_n n (semaphore.reset n ⟨c⟩) = (List.replicate n false, ⟨0⟩) := by
    rw [semaphore.reset, semaphore.poll_n_available n n le_rfl]
    simp
  refine ⟨rfl, rfl, hp, ?_, ?_⟩
  · rw [hp]
    exact semaphore.poll_blocked
  · rw [semaphore.signal_n_count P n c hc, semaphore.reset]
    constructor
    · intro h
      have h1 : n = (c + n) % P.UINT_RANGE := by
        simpa using congrArg semaphore._count h
      by_cases hlt : c + n < P.UINT_RANGE
      · rw [Nat.mod_eq_of_lt hlt] at h1
        omega
      · have hge : P.UINT_RANGE ≤ c + n := Nat.le_of_not_lt hlt
        have h2 : (c + n) % P.UINT_RANGE = c + n - P.UINT_RANGE := by
          rw [Nat.mod_eq_sub_mod hge]
          apply Nat.mod_eq_of_lt
          omega
        omega
    · intro h
      subst h
      simp [Nat.mod_eq_of_lt hn]

/-- Instance of `semaphore_reset_overwrites`: `reset(2)` on a count of 5. -/
theorem semaphore_reset_overwrites_witness :
    (5 : Nat) < LP64.UINT_RANGE ∧ (2 : Nat) < LP64.UINT_RANGE ∧
    (semaphore.reset 2 ⟨5⟩ = ⟨2⟩ ∧
    semaphore.reset 2 ⟨5⟩ = semaphore.reset 2 ⟨9⟩ ∧
    semaphore.poll_n 2 (semaphore.reset 2 ⟨5⟩) = (List.replicate 2 false, ⟨0⟩) ∧
    is_incomplete_semaphore (semaphore.poll_n 2 (semaphore.reset 2 ⟨5⟩)).2 = (true, ⟨0⟩) ∧
    (semaphore.reset 2 ⟨5⟩ = semaphore.signal_n LP64 2 ⟨5⟩ ↔ 5 = 0)) :=
  ⟨by decide, by decide, semaphore_reset_overwrites LP64 5 9 2 (by decide) (by decide)⟩

/-! ## Task list: one round -/

theorem task_list.active_index_eq {H : Type} (tl : task_list H) :
    tl.active_index = tl.half % 2 := by
  simp [task_list.active_index, Nat.and_one_is_mod]

theorem task_list.passive_index_eq {H : Type} (P : Platform) (tl : task_list H) :
    tl.passive_index P = (tl.half + 1) % 2 := by
  simp [task_list.passive_index, Nat.and_one_is_mod,
    Nat.mod_mod_of_dvd _ P.two_dvd_UINT_RANGE]

theorem task_list.lists_set_half {H : Type} (tl : task_list H) (i : Nat) (l : List H) :
    (tl.lists_set i l).half = tl.half := by
  unfold task_list.lists_set
  split <;> rfl

theorem task_list.lists_get_set {H : Type} (tl : task_list H) (i j : Nat) (l : List H) :
    (tl.lists_set i l).lists_get j =
      if (i = 0 ↔ j = 0) then l else tl.lists_get j := by
  unfold task_list.lists_set task_list.lists_get
  by_cases hi : i = 0 <;> by_cases hj : j = 0 <;> simp [hi, hj]

theorem task_list.lists_set_set {H : Type} (tl : task_list H) (i : Nat) (a b : List H) :
    (tl.lists_set i a).lists_set i b = tl.lists_set i b := by
  unfold task_list.lists_set
  by_cases hi : i = 0 <;> simp [hi]

theorem task_list.lists_set_get {H : Type} (tl : task_list H) (i : Nat) :
    tl.lists_set i (tl.lists_get i) = tl := by
  unfold task_list.lists_set task_list.lists_get
  by_cases hi : i = 0 <;> simp [hi]

theorem task_list.passive_index_set {H : Type} (P : Platform) (tl : task_list H) (i : Nat)
    (l : List H) : (tl.lists_set i l).passive_index P = tl.passive_index P := by
  simp [task_list.passive_index, task_list.lists_set_half]

theorem not_done_cons {H : Type} (t : H) (b : Bool) (tr : List (H × Bool)) :
    not_done ((t, b) :: tr) = if b then not_done tr else t :: not_done tr := by
  cases b <;> simp [not_done]

theorem task_list.poll_each_no_add {H S : Type} (P : Platform) (p : H → S → Bool × S)
    (l : List H) : ∀ (tl : task_list H) (s : S),
    task_list.poll_each P (no_add_task p) l (tl, s) =
      (tl.lists_set (tl.passive_index P)
          (tl.passive_list P ++ not_done (poll_trace p l s).1),
        (poll_trace p l s).2) := by
  induction l with
  | nil =>
    intro tl s
    simp [task_list.poll_each, poll_trace, not_done, task_list.passive_list,
      task_list.lists_set_get]
  | cons t rest ih =>
    intro tl s
    by_cases hd : (p t s).1 = true
    · simp [task_list.poll_each, no_add_task, poll_trace, hd, ih, not_done_cons]
    · simp only [Bool.not_eq_true] at hd
      simp [task_list.poll_each, no_add_task, poll_trace, hd, ih, not_done_cons,
        task_list.passive_list, task_list.passive_index_set, task_list.lists_set_set,
        task_list.lists_get_set]

theorem task_list.round_no_add_eq {H S : Type} (P : Platform) (p : H → S → Bool × S)
    (tl : task_list H) (s : S) :
    task_list.round P (no_add_task p) (tl, s) =
      ({ half := (tl.half + 1) % P.UINT_RANGE,
         lists := (tl.lists_set (tl.passive_index P)
            (not_done (poll_trace p tl.active_list s).1)).lists },
        (poll_trace p tl.active_list s).2) := by
  have hact : (tl.lists_set (tl.passive_index P) []).active_list = tl.active_list := by
    simp only [task_list.active_list, task_list.active_index_eq, task_list.lists_set_half,
      task_list.lists_get_set, task_list.passive_index_eq]
    have : ¬ ((tl.half + 1) % 2 = 0 ↔ tl.half % 2 = 0) := by omega
    simp [this]
  have hpas : (tl.lists_set (tl.passive_index P) []).passive_list P = [] := by
    simp [task_list.passive_list, task_list.passive_index_set, task_list.lists_get_set]
  simp only [task_list.round, task_list.poll_each_no_add, hact, hpas,
    task_list.passive_index_set, task_list.lists_set_set, List.nil_append,
    task_list.lists_set_half]

theorem task_list.round_no_add {H S : Type} (P : Platform) (p : H → S → Bool × S)
    (tl : task_list H) (s : S) :
    (task_list.round P (no_add_task p) (tl, s)).1.active_list =
        not_done (poll_trace p tl.active_list s).1 ∧
      (task_list.round P (no_add_task p) (tl, s)).2 = (poll_trace p tl.active_list s).2 := by
  have hact : (tl.lists_set (tl.passive_index P) []).active_list = tl.active_list := by
    simp only [task_list.active_list, task_list.active_index_eq, task_list.lists_set_half,
      task_list.lists_get_set, task_list.passive_index_eq]
    have : ¬ ((tl.half + 1) % 2 = 0 ↔ tl.half % 2 = 0) := by omega
    simp [this]
  have hpas : (tl.lists_set (tl.passive_index P) []).passive_list P = [] := by
    simp [task_list.passive_list, task_list.passive_index_set, task_list.lists_get_set]
  simp only [task_list.round, task_list.poll_each_no_add, hact, hpas,
    task_list.passive_index_set, task_list.lists_set_set, List.nil_append]
  refine ⟨?_, trivial⟩
  simp only [task_list.active_list, task_list.active_index_eq, task_list.lists_set_half]
  rw [Nat.mod_mod_of_dvd _ P.two_dvd_UINT_RANGE, ← task_list.passive_index_eq P tl]
  unfold task_list.lists_get task_list.lists_set
  by_cases h0 : tl.passive_index P = 0 <;> simp [h0]

theorem heartbit_eq_round {H S : Type} (P : Platform) (poll : job H S)
    (t : task (task_list H)) (s : S)
    (hst : t.__status = INIT ∨ t.__status = task_list.YIELD_LINE) :
    heartbit P poll (t, s) =
      ({ t with __status := task_list.YIELD_LINE,
                impl := (task_list.round P poll (t.impl, s)).1 },
        (task_list.round P poll (t.impl, s)).2) := by
  rcases hst with h | h
  · simp [heartbit, task.operator_call, task.is_done, task_list.run, TASK_BEGIN_END,
      task_list.loop, h, INIT, DONE, task_list.YIELD_LINE]
  · simp [heartbit, task.operator_call, task.is_done, task_list.run, TASK_BEGIN_END,
      task_list.loop, h, DONE, task_list.YIELD_LINE]

theorem poll_trace_handles {H S : Type} (p : H → S → Bool × S) (l : List H) :
    ∀ s : S, (poll_trace p l s).1.map Prod.fst = l := by
  induction l with
  | nil => intro s; rfl
  | cons t rest ih => intro s; simp [poll_trace, ih]

theorem poll_trace_logged {H S : Type} (p : H → S → Bool × S) (l : List H) :
    ∀ (s : S) (log : List (H × Bool)),
      poll_trace (logged p) l (s, log) =
        ((poll_trace p l s).1, ((poll_trace p l s).2, log ++ (poll_trace p l s).1)) := by
  induction l with
  | nil => intro s log; simp [poll_trace]
  | cons t rest ih => intro s log; simp [poll_trace, logged, ih]

theorem poll_trace_never_done {H S : Type} (l : List H) :
    ∀ s : S, not_done (poll_trace (fun (_ : H) (x : S) => (false, x)) l s).1 = l := by
  induction l with
  | nil => intro s; rfl
  | cons t rest ih => intro s; simp [poll_trace, not_done_cons, ih]

theorem active_tasks_eq {H S : Type} (P : Platform) (st : task (task_list H) × S) :
    active_tasks P st = st.1.impl.active_list.length % P.UINT_RANGE := rfl

theorem heartbit_never_done {S : Type} (P : Platform) (l : List Nat) (x : S) :
    (heartbit P (no_add_task (fun (_ : Nat) (y : S) => (false, y)))
        (⟨INIT, timer.new, ⟨0, (l, [])⟩⟩, x)).1.impl.active_list = l := by
  rw [heartbit_eq_round _ _ _ _ (Or.inl rfl)]
  have h := (task_list.round_no_add P (fun (_ : Nat) (y : S) => (false, y))
    ⟨0, (l, [])⟩ x).1
  rw [poll_trace_never_done] at h
  rw [h]
  simp [task_list.active_list, task_list.active_index, task_list.lists_get]

/-- C9, refuted as stated: on a build with a 32-bit `unsigned`, after one
round over 4294967296 handles of a task that never reports done the active
sequence still has 4294967296 handles, and `active_tasks()` returns 0. -/
theorem active_tasks_truncates :
    (heartbit LP64 (no_add_task (fun (_ : Nat) (y : Unit) => (false, y)))
        (⟨INIT, timer.new, ⟨0, (List.replicate 4294967296 0, [])⟩⟩, ())).1.impl.active_list.length
      = 4294967296 ∧
    active_tasks LP64
      (heartbit LP64 (no_add_task (fun (_ : Nat) (y : Unit) => (false, y)))
        (⟨INIT, timer.new, ⟨0, (List.replicate 4294967296 0, [])⟩⟩, ())) = 0 := by
  have hlen : (List.replicate 4294967296 (0 : Nat)).length = 4294967296 :=
    List.length_replicate _ _
  have hmod : 4294967296 % LP64.UINT_RANGE = 0 := by
    norm_num [Platform.UINT_RANGE, LP64]
  refine ⟨?_, ?_⟩
  · rw [heartbit_never_done, hlen]
  · rw [active_tasks_eq, heartbit_never_done, hlen, hmod]

/-- C9, amended: one call of `heartbit()` on a task list whose polled tasks do
not call `add_task` polls every handle of the active sequence of the round's
start exactly once, in the order of the sequence (the record of the polls made
lists these handles); afterwards the active sequence is the subsequence, in the
same order, of the handles whose poll reported not done, and `active_tasks()`
is its length reduced to `unsigned`, which is its length when that fits. The
record does not change what the round does. -/
theorem heartbit_polls_each_once {H S : Type} (P : Platform) (p : H → S → Bool × S)
    (t : task (task_list H)) (s : S)
    (hst : t.__status = INIT ∨ t.__status = task_list.YIELD_LINE) :
    (heartbit P (no_add_task (logged p)) (t, (s, []))).2.2.map Prod.fst
      = t.impl.active_list ∧
    (heartbit P (no_add_task (logged p)) (t, (s, []))).1.impl.active_list
      = not_done (heartbit P (no_add_task (logged p)) (t, (s, []))).2.2 ∧
    active_tasks P (heartbit P (no_add_task (logged p)) (t, (s, [])))
      = (not_done (heartbit P (no_add_task (logged p)) (t, (s, []))).2.2).length
          % P.UINT_RANGE ∧
    ((not_done (heartbit P (no_add_task (logged p)) (t, (s, []))).2.2).length < P.UINT_RANGE →
      active_tasks P (heartbit P (no_add_task (logged p)) (t, (s, [])))
        = (not_done (heartbit P (no_add_task (logged p)) (t, (s, []))).2.2).length) ∧
    heartbit P (no_add_task p) (t, s)
      = ((heartbit P (no_add_task (logged p)) (t, (s, []))).1,
          (heartbit P (no_add_task (logged p)) (t, (s, []))).2.1) := by
  have hL := task_list.round_no_add P (logged p) t.impl (s, [])
  have hU := task_list.round_no_add P p t.impl s
  rw [poll_trace_logged] at hL
  simp only [List.nil_append] at hL
  have hlog : (heartbit P (no_add_task (logged p)) (t, (s, []))).2.2
      = (poll_trace p t.impl.active_list s).1 := by
    rw [heartbit_eq_round _ _ _ _ hst, hL.2]
  have hact : (heartbit P (no_add_task (logged p)) (t, (s, []))).1.impl.active_list
      = not_done (poll_trace p t.impl.active_list s).1 := by
    rw [heartbit_eq_round _ _ _ _ hst]
    exact hL.1
  have hcnt : active_tasks P (heartbit P (no_add_task (logged p)) (t, (s, [])))
      = (not_done (poll_trace p t.impl.active_list s).1).length % P.UINT_RANGE := by
    unfold active_tasks task_list.active_tasks
    rw [hact]
  refine ⟨?_, ?_, ?_, ?_, ?_⟩
  · rw [hlog, poll_trace_handles]
  · rw [hact, hlog]
  · rw [hcnt, hlog]
  · intro hlt
    rw [hlog] at hlt
    rw [hcnt, hlog, Nat.mod_eq_of_lt hlt]
  · rw [heartbit_eq_round _ _ _ _ hst, heartbit_eq_round _ _ _ _ hst,
      task_list.round_no_add_eq, task_list.round_no_add_eq, poll_trace_logged]

/-- Instance of `heartbit_polls_each_once`: the first round of `three_tasks`, in
which handle 1 reports done and handles 0 and 2 survive. -/
theorem heartbit_polls_each_once_witness :
    (three_tasks.__status = INIT ∨
      three_tasks.__status = task_list.YIELD_LINE) ∧
    ((heartbit LP64 (no_add_task (logged countdown_poll))
        (three_tasks, (three_counts, []))).2.2.map Prod.fst
      = three_tasks.impl.active_list ∧
    (heartbit LP64 (no_add_task (logged countdown_poll))
        (three_tasks, (three_counts, []))).1.impl.active_list
      = not_done (heartbit LP64 (no_add_task (logged countdown_poll))
          (three_tasks, (three_counts, []))).2.2 ∧
    active_tasks LP64 (heartbit LP64 (no_add_task (logged countdown_poll))
        (three_tasks, (three_counts, [])))
      = (not_done (heartbit LP64 (no_add_task (logged countdown_poll))
          (three_tasks, (three_counts, []))).2.2).length % LP64.UINT_RANGE ∧
    ((not_done (heartbit LP64 (no_add_task (logged countdown_poll))
          (three_tasks, (three_counts, []))).2.2).length < LP64.UINT_RANGE →
      active_tasks LP64 (heartbit LP64 (no_add_task (logged countdown_poll))
          (three_tasks, (three_counts, [])))
        = (not_done (heartbit LP64 (no_add_task (logged countdown_poll))
            (three_tasks, (three_counts, []))).2.2).length) ∧
    heartbit LP64 (no_add_task countdown_poll) (three_tasks, three_counts)
      = ((heartbit LP64 (no_add_task (logged countdown_poll))
            (three_tasks, (three_counts, []))).1,
          (heartbit LP64 (no_add_task (logged countdown_poll))
            (three_tasks, (three_counts, []))).2.1)) ∧
    (heartbit LP64 (no_add_task (logged countdown_poll))
        (three_tasks, (three_counts, []))).2.2 = [(0, false), (1, true), (2, false)] ∧
    (heartbit LP64 (no_add_task (logged countdown_poll))
        (three_tasks, (three_counts, []))).1.impl.active_list = [0, 2] ∧
    active_tasks LP64 (heartbit LP64 (no_add_task (logged countdown_poll))
        (three_tasks, (three_counts, []))) = 2 :=
  ⟨Or.inl rfl,
    heartbit_polls_each_once LP64 countdown_poll three_tasks three_counts (Or.inl rfl),
    by decide, by decide, by decide⟩

/-! ## Task list: running to completion -/

theorem mem_not_done {H : Type} (tr : List (H × Bool)) (t : H) :
    t ∈ not_done tr ↔ (t, false) ∈ tr := by
  simp [not_done]

theorem not_done_sublist {H : Type} (tr : List (H × Bool)) :
    (not_done tr).Sublist (tr.map Prod.fst) :=
  List.Sublist.map Prod.fst (List.filter_sublist tr)

theorem poll_trace_not_done_nodup {H S : Type} (p : H → S → Bool × S) (l : List H) (s : S)
    (hnd : l.Nodup) : (not_done (poll_trace p l s).1).Nodup := by
  have h := not_done_sublist (poll_trace p l s).1
  rw [poll_trace_handles] at h
  exact List.Nodup.sublist h hnd

theorem le_max_polls {H : Type} (k : H → Nat) (l : List H) :
    ∀ t ∈ l, k t ≤ max_polls k l := by
  induction l with
  | nil => intro t ht; simp at ht
  | cons u rest ih =>
    intro t ht
    simp only [max_polls]
    rcases List.mem_cons.mp ht with h | h
    · subst h
      exact le_max_left _ _
    · exact le_trans (ih t h) (le_max_right _ _)

theorem add_task_all {H S : Type} (ts : List H) :
    ∀ (st : status) (tm : timer) (acc : List H) (s : S),
      ts.foldl add_task ((⟨st, tm, ⟨0, (acc, [])⟩⟩ : task (task_list H)), s) =
        (⟨st, tm, ⟨0, (acc ++ ts, [])⟩⟩, s) := by
  induction ts with
  | nil => intro st tm acc s; simp
  | cons t rest ih =>
    intro st tm acc s
    simp only [List.foldl_cons]
    have h1 : add_task ((⟨st, tm, ⟨0, (acc, [])⟩⟩ : task (task_list H)), s) t =
        (⟨st, tm, ⟨0, (acc ++ [t], [])⟩⟩, s) := by
      simp [add_task, task_list.add_task, task_list.active_list, task_list.active_index,
        task_list.lists_get, task_list.lists_set]
    rw [h1, ih]
    simp

theorem heartbit_n_logged {H S : Type} (P : Platform) (p : H → S → Bool × S) (n : Nat) :
    ∀ (t : task (task_list H)) (s : S) (log : List (H × Bool)),
      (t.__status = INIT ∨ t.__status = task_list.YIELD_LINE) →
      heartbit_n P (no_add_task p) n (t, s) =
        ((heartbit_n P (no_add_task (logged p)) n (t, (s, log))).1,
          (heartbit_n P (no_add_task (logged p)) n (t, (s, log))).2.1) := by
  induction n with
  | zero => intro t s log _; rfl
  | succ n ih =>
    intro t s log hst
    simp only [heartbit_n]
    rw [heartbit_eq_round _ _ _ _ hst, heartbit_eq_round _ _ _ _ hst,
      task_list.round_no_add_eq, task_list.round_no_add_eq, poll_trace_logged]
    exact ih _ _ _ (Or.inr rfl)

theorem polls_of_append {H : Type} [DecidableEq H] (t : H) (a b : List (H × Bool)) :
    polls_of t (a ++ b) = polls_of t a ++ polls_of t b := by
  simp [polls_of, List.filter_append]

theorem polls_of_not_done {H : Type} [DecidableEq H] (t : H) (tr : List (H × Bool)) :
    (tr.map Prod.fst).Nodup → (t, false) ∈ tr → polls_of t tr = [false] := by
  induction tr with
  | nil => intro _ h; simp at h
  | cons e rest ih =>
    intro hnd hmem
    simp only [List.map_cons, List.nodup_cons] at hnd
    rcases List.mem_cons.mp hmem with h | h
    · subst h
      have hrest : polls_of t rest = [] := by
        simp only [polls_of, List.map_eq_nil_iff, List.filter_eq_nil_iff, decide_eq_true_eq]
        intro x hx hxt
        exact hnd.1 (List.mem_map.mpr ⟨x, hx, hxt⟩)
      have hcons : polls_of t ((t, false) :: rest) = false :: polls_of t rest := by
        simp [polls_of]
      rw [hcons, hrest]
    · have hne : e.1 ≠ t := by
        intro he
        apply hnd.1
        rw [he]
        exact List.mem_map.mpr ⟨(t, false), h, rfl⟩
      have hcons : polls_of t (e :: rest) = polls_of t rest := by
        simp [polls_of, hne]
      rw [hcons]
      exact ih hnd.2 h

theorem heartbit_n_polls {H S : Type} [DecidableEq H] (P : Platform) (p : H → S → Bool × S)
    (n : Nat) :
    ∀ (t : task (task_list H)) (s : S) (log : List (H × Bool)) (m : Nat),
      (t.__status = INIT ∨ t.__status = task_list.YIELD_LINE) →
      t.impl.active_list.Nodup →
      (∀ u ∈ t.impl.active_list, polls_of u log = List.replicate m false) →
      ∀ u ∈ (heartbit_n P (no_add_task (logged p)) n (t, (s, log))).1.impl.active_list,
        polls_of u (heartbit_n P (no_add_task (logged p)) n (t, (s, log))).2.2
          = List.replicate (m + n) false := by
  induction n with
  | zero =>
    intro t s log m _ _ hlog u hu
    exact hlog u hu
  | succ n ih =>
    intro t s log m hst hnd hlog u hu
    simp only [heartbit_n] at hu ⊢
    rw [heartbit_eq_round _ _ _ _ hst, task_list.round_no_add_eq, poll_trace_logged] at hu ⊢
    have hact := (task_list.round_no_add P (logged p) t.impl (s, log)).1
    rw [task_list.round_no_add_eq, poll_trace_logged] at hact
    have hnd1 := poll_trace_not_done_nodup p t.impl.active_list s hnd
    have hstep : ∀ v ∈ not_done (poll_trace p t.impl.active_list s).1,
        polls_of v (log ++ (poll_trace p t.impl.active_list s).1)
          = List.replicate (m + 1) false := by
      intro v hv
      have hv1 : (v, false) ∈ (poll_trace p t.impl.active_list s).1 :=
        (mem_not_done _ v).mp hv
      have hv2 : v ∈ t.impl.active_list := by
        have h := List.mem_map_of_mem Prod.fst hv1
        rw [poll_trace_handles] at h
        exact h
      have hnd2 : ((poll_trace p t.impl.active_list s).1.map Prod.fst).Nodup := by
        rw [poll_trace_handles]
        exact hnd
      rw [polls_of_append, hlog v hv2, polls_of_not_done v _ hnd2 hv1,
        List.replicate_succ']
    have h := ih _ _ _ (m + 1) (Or.inr rfl) (by rw [hact]; exact hnd1)
      (by rw [hact]; exact hstep) u hu
    rw [h]
    congr 1
    omega

theorem done_on_poll_replicate (k n : Nat) (hk : 1 ≤ k) (hn : k ≤ n) :
    ¬ done_on_poll k (List.replicate n false) := by
  intro h
  unfold done_on_poll at h
  have hlen : (List.replicate (k - 1) false ++ [true]).length ≤ n := by
    simp only [List.length_append, List.length_replicate, List.length_singleton]
    omega
  rw [List.length_replicate, List.take_of_length_le hlen] at h
  have hc := congrArg (List.count true) h
  simp [List.count_replicate, List.take_replicate, List.count_append] at hc

/-- C10: tasks added to a new task list before it is driven, none calling
`add_task`, where the task of handle `t` becomes DONE on its `k t`-th poll
(`k t ≥ 1`; read on the record of the polls made in the rounds considered):
after any number `n` of rounds at least the largest `k t` the active sequence
is empty and `active_tasks()` is 0.  The record does not change what the rounds
do. -/
theorem scheduler_drains {H S : Type} [DecidableEq H] (P : Platform) (p : H → S → Bool × S)
    (k : H → Nat) (ts : List H) (s : S) (n : Nat)
    (hnodup : ts.Nodup) (hpos : ∀ t ∈ ts, 1 ≤ k t)
    (hdone : ∀ t ∈ ts, done_on_poll (k t) (polls_of t
      (heartbit_n P (no_add_task (logged p)) n
        (ts.foldl add_task (task_list_instance H, (s, [])))).2.2))
    (hn : max_polls k ts ≤ n) :
    (heartbit_n P (no_add_task (logged p)) n
        (ts.foldl add_task (task_list_instance H, (s, [])))).1.impl.active_list = [] ∧
    active_tasks P (heartbit_n P (no_add_task (logged p)) n
        (ts.foldl add_task (task_list_instance H, (s, [])))) = 0 ∧
    heartbit_n P (no_add_task p) n (ts.foldl add_task (task_list_instance H, s)) =
      ((heartbit_n P (no_add_task (logged p)) n
          (ts.foldl add_task (task_list_instance H, (s, [])))).1,
        (heartbit_n P (no_add_task (logged p)) n
          (ts.foldl add_task (task_list_instance H, (s, [])))).2.1) := by
  have hstart : ∀ {V : Type} (v : V), ts.foldl add_task (task_list_instance H, v) =
      (⟨INIT, timer.new, ⟨0, (ts, [])⟩⟩, v) := by
    intro V v
    have h := add_task_all ts INIT timer.new ([] : List H) v
    simpa [task_list_instance, task.new, task.restart] using h
  have hactive : (⟨INIT, timer.new, ⟨0, (ts, [])⟩⟩ : task (task_list H)).impl.active_list = ts := by
    simp [task_list.active_list, task_list.active_index, task_list.lists_get]
  rw [hstart] at hdone
  rw [hstart, hstart]
  have hempty : (heartbit_n P (no_add_task (logged p)) n
      ((⟨INIT, timer.new, ⟨0, (ts, [])⟩⟩ : task (task_list H)),
        ((s, []) : S × List (H × Bool)))).1.impl.active_list = [] := by
    apply List.eq_nil_iff_forall_not_mem.mpr
    intro u hu
    have hpolls := heartbit_n_polls P p n ⟨INIT, timer.new, ⟨0, (ts, [])⟩⟩ s [] 0
      (Or.inl rfl) (by rw [hactive]; exact hnodup) (by intro v _; rfl) u hu
    have hmem : ∀ m : Nat, ∀ (t : task (task_list H)) (st : S × List (H × Bool)),
        (t.__status = INIT ∨ t.__status = task_list.YIELD_LINE) →
        ∀ v ∈ (heartbit_n P (no_add_task (logged p)) m (t, st)).1.impl.active_list,
          v ∈ t.impl.active_list := by
      intro m
      induction m with
      | zero => intro t st _ v hv; exact hv
      | succ m ih =>
        intro t st hst v hv
        simp only [heartbit_n] at hv
        rw [heartbit_eq_round _ _ _ _ hst] at hv
        have h1 := ih _ _ (Or.inr rfl) v hv
        have hact := (task_list.round_no_add P (logged p) t.impl st).1
        simp only at h1
        rw [hact] at h1
        have h2 := List.Sublist.subset (not_done_sublist _) h1
        rw [poll_trace_handles] at h2
        exact h2
    have hu2 : u ∈ ts := by
      have h := hmem n ⟨INIT, timer.new, ⟨0, (ts, [])⟩⟩ (s, []) (Or.inl rfl) u hu
      rw [hactive] at h
      exact h
    have hd := hdone u hu2
    rw [hpolls, Nat.zero_add] at hd
    exact done_on_poll_replicate (k u) n (hpos u hu2)
      (le_trans (le_max_polls k ts u hu2) hn) hd
  refine ⟨hempty, ?_, ?_⟩
  · rw [active_tasks_eq, hempty]
    simp
  · exact heartbit_n_logged P p n _ s [] (Or.inl rfl)

set_option maxRecDepth 1000000 in
/-- Instance of `scheduler_drains`: `example_dyn_task`, the objects `n1(12)` and
`n2(23)` with 120 ticks of the clock between two polls; `n1(12)` is DONE on its
14th poll, `n2(23)` on its 25th, and after 25 rounds no task is active. -/
theorem scheduler_drains_witness :
    [0, 1].Nodup ∧ (∀ t ∈ [0, 1], 1 ≤ dyn_counts t) ∧
    (∀ t ∈ [0, 1], done_on_poll (dyn_counts t) (polls_of t
      (heartbit_n LP64 (no_add_task (logged (dyn_poll LP64 120))) 25
        ([0, 1].foldl add_task (task_list_instance Nat, (dyn_objects, [])))).2.2)) ∧
    max_polls dyn_counts [0, 1] ≤ 25 ∧
    ((heartbit_n LP64 (no_add_task (logged (dyn_poll LP64 120))) 25
        ([0, 1].foldl add_task (task_list_instance Nat, (dyn_objects, [])))).1.impl.active_list
      = [] ∧
    active_tasks LP64 (heartbit_n LP64 (no_add_task (logged (dyn_poll LP64 120))) 25
        ([0, 1].foldl add_task (task_list_instance Nat, (dyn_objects, [])))) = 0 ∧
    heartbit_n LP64 (no_add_task (dyn_poll LP64 120)) 25
        ([0, 1].foldl add_task (task_list_instance Nat, dyn_objects)) =
      ((heartbit_n LP64 (no_add_task (logged (dyn_poll LP64 120))) 25
          ([0, 1].foldl add_task (task_list_instance Nat, (dyn_objects, [])))).1,
        (heartbit_n LP64 (no_add_task (logged (dyn_poll LP64 120))) 25
          ([0, 1].foldl add_task (task_list_instance Nat, (dyn_objects, [])))).2.1)) :=
  ⟨by decide, by decide, by unfold done_on_poll; decide, by decide,
    scheduler_drains LP64 (dyn_poll LP64 120) dyn_counts [0, 1] dyn_objects 25
      (by decide) (by decide) (by unfold done_on_poll; decide) (by decide)⟩

theorem first_step_blocked (w : small_world) (t : task first)
    (hst : t.__status = INIT ∨ t.__status = first.AWAIT_LINE) (hf : w.second_flag = false) :
    task.operator_call first.run w t = (false, { t with __status := first.AWAIT_LINE }, w) := by
  rcases hst with h | h <;>
    simp [task.operator_call, task.is_done, first.run, TASK_BEGIN_END, run_from, exec,
      first.code, is_incomplete_bool, hf, h, INIT, DONE, first.AWAIT_LINE]

theorem first_step_passes (w : small_world) (t : task first)
    (hst : t.__status = INIT ∨ t.__status = first.AWAIT_LINE) (hf : w.second_flag = true) :
    task.operator_call first.run w t =
      (false, ⟨first.AWAIT_LINE, t.__sleep_timer, ⟨t.impl.n + 1⟩⟩,
        ⟨true, false, w.out ++ [small_msg.async_1_run (t.impl.n + 1)]⟩) := by
  rcases hst with h | h <;>
    simp [task.operator_call, task.is_done, first.run, TASK_BEGIN_END, run_from, exec,
      first.code, is_incomplete_bool, hf, h, INIT, DONE, first.AWAIT_LINE]

theorem second_step_blocked (w : small_world) (t : task second)
    (hst : t.__status = INIT ∨ t.__status = second.AWAIT_LINE) (hf : w.first_flag = false) :
    task.operator_call second.run w t = (false, { t with __status := second.AWAIT_LINE }, w) := by
  rcases hst with h | h <;>
    simp [task.operator_call, task.is_done, second.run, TASK_BEGIN_END, run_from, exec,
      second.code, is_incomplete_bool, hf, h, INIT, DONE, second.AWAIT_LINE]

theorem second_step_passes (w : small_world) (t : task second)
    (hst : t.__status = INIT ∨ t.__status = second.AWAIT_LINE) (hf : w.first_flag = true) :
    task.operator_call second.run w t =
      (false, { t with __status := second.AWAIT_LINE },
        ⟨false, true, w.out ++ [small_msg.async_2_running]⟩) := by
  rcases hst with h | h <;>
    simp [task.operator_call, task.is_done, second.run, TASK_BEGIN_END, run_from, exec,
      second.code, is_incomplete_bool, hf, h, INIT, DONE, second.AWAIT_LINE]

theorem first_exec_total (w : small_world) (t : task first) (n : small_node) :
    (exec first.code 3 n w t).isSome = true := by
  cases n <;> cases hf : w.second_flag <;>
    simp [exec, first.code, is_incomplete_bool, hf]

theorem second_exec_total (w : small_world) (t : task second) (n : small_node) :
    (exec second.code 3 n w t).isSome = true := by
  cases n <;> cases hf : w.first_flag <;>
    simp [exec, second.code, is_incomplete_bool, hf]

/-! ## `example-small.cpp` -/

theorem first.call_in_status (ws : List small_world) :
    ∀ t : task first, (t.__status = INIT ∨ t.__status = first.AWAIT_LINE) →
      (ws = [] ∨ (task.call_in first.run ws t).__status = first.AWAIT_LINE) := by
  induction ws with
  | nil => intro t _; exact Or.inl rfl
  | cons w ws ih =>
    intro t hst
    right
    have hstep : (task.operator_call first.run w t).2.1.__status = first.AWAIT_LINE := by
      cases hf : w.second_flag
      · rw [first_step_blocked w t hst hf]
      · rw [first_step_passes w t hst hf]
    rcases ih _ (Or.inr hstep) with h | h
    · subst h
      simpa [task.call_in] using hstep
    · simpa [task.call_in] using h

theorem first.call_in_n (ws : List small_world) :
    ∀ t : task first, (t.__status = INIT ∨ t.__status = first.AWAIT_LINE) →
      (task.call_in first.run ws t).impl.n ≤ t.impl.n + ws.length := by
  induction ws with
  | nil => intro t _; simp [task.call_in]
  | cons w ws ih =>
    intro t hst
    simp only [task.call_in, List.length_cons, Nat.cast_add, Nat.cast_one]
    cases hf : w.second_flag
    · rw [first_step_blocked w t hst hf]
      have h := ih { t with __status := first.AWAIT_LINE } (Or.inr rfl)
      simp only at h ⊢
      omega
    · rw [first_step_passes w t hst hf]
      have h := ih ⟨first.AWAIT_LINE, t.__sleep_timer, ⟨t.impl.n + 1⟩⟩ (Or.inr rfl)
      simp only at h ⊢
      omega

/-- C14, refuted as stated: with a 32-bit `int`, a step of `first` at
`n = INT_MAX = 2147483647` taken while `second_flag` is true executes `++n`,
and `n + 1 = 2147483648` is above `INT_MAX`: no `int` is `n` incremented by
exactly 1 (the increment overflows). -/
theorem first_increment_overflows :
    (⟨first.AWAIT_LINE, timer.new, ⟨2147483647⟩⟩ : task first).impl.n = LP64.INT_MAX ∧
    (task.operator_call first.run ⟨false, true, []⟩
      ⟨first.AWAIT_LINE, timer.new, ⟨2147483647⟩⟩).2.1.impl.n = 2147483648 ∧
    ¬ ((task.operator_call first.run ⟨false, true, []⟩
      ⟨first.AWAIT_LINE, timer.new, ⟨2147483647⟩⟩).2.1.impl.n ≤ LP64.INT_MAX) := by
  decide

/-- C14, amended: a step of `first` (not yet started, or suspended at its `AWAIT`)
taken while `second_flag` is false returns not done, leaves the status at the
marker of the `AWAIT` and changes neither `n` nor the flags nor the output; a
step taken while `second_flag` is true, with `n` below `INT_MAX`, increments `n`
by 1 (the new value is an `int`), sets `second_flag = false` and
`first_flag = true`, and suspends at the same marker in the same invocation;
whatever the flags are at each call, as long as the calls cannot take `n` above
`INT_MAX`, no call makes `first` DONE and `n` stays an `int`. -/
theorem first_await_semantics (P : Platform) (w : small_world) (t : task first)
    (ws : List small_world)
    (hst : t.__status = INIT ∨ t.__status = first.AWAIT_LINE) :
    (w.second_flag = false →
      task.operator_call first.run w t =
        (false, { t with __status := first.AWAIT_LINE }, w)) ∧
    (w.second_flag = true → t.impl.n < P.INT_MAX →
      task.operator_call first.run w t =
        (false, ⟨first.AWAIT_LINE, t.__sleep_timer, ⟨t.impl.n + 1⟩⟩,
          ⟨true, false, w.out ++ [small_msg.async_1_run (t.impl.n + 1)]⟩) ∧
      (task.operator_call first.run w t).2.1.impl.n ≤ P.INT_MAX) ∧
    (t.impl.n + ws.length ≤ P.INT_MAX →
      (task.call_in first.run ws t).is_done = false ∧
      (task.call_in first.run ws t).impl.n ≤ P.INT_MAX) ∧
    ((ws.length : Int) ≤ P.INT_MAX →
      (task.call_in first.run ws (task.new timer.new ⟨0⟩)).is_done = false ∧
      (task.call_in first.run ws (task.new timer.new ⟨0⟩)).impl.n ≤ P.INT_MAX) := by
  have hnd : ∀ u : task first, (u.__status = INIT ∨ u.__status = first.AWAIT_LINE) →
      (task.call_in first.run ws u).is_done = false := by
    intro u hu
    rcases first.call_in_status ws u hu with h | h
    · subst h
      rcases hu with h0 | h0 <;>
        simp [task.call_in, task.is_done, h0, INIT, DONE, first.AWAIT_LINE]
    · simp [task.is_done, h, DONE, first.AWAIT_LINE]
  refine ⟨first_step_blocked w t hst, ?_, ?_, ?_⟩
  · intro hf hn
    rw [first_step_passes w t hst hf]
    refine ⟨rfl, ?_⟩
    simp only
    omega
  · intro hn
    exact ⟨hnd t hst, le_trans (first.call_in_n ws t hst) hn⟩
  · intro hn
    refine ⟨hnd _ (Or.inl rfl), le_trans (first.call_in_n ws _ (Or.inl rfl)) ?_⟩
    simpa [task.new, task.restart] using hn

/-- Instance of `first_await_semantics`: `first` suspended at its `AWAIT` with
`n = 4`, stepped with `second_flag` true and then three more times. -/
theorem first_await_semantics_witness :
    ((⟨first.AWAIT_LINE, timer.new, ⟨4⟩⟩ : task first).__status = INIT ∨
      (⟨first.AWAIT_LINE, timer.new, ⟨4⟩⟩ : task first).__status = first.AWAIT_LINE) ∧
    (4 : Int) < LP64.INT_MAX ∧ (4 : Int) + (3 : Nat) ≤ LP64.INT_MAX ∧
    (task.operator_call first.run ⟨false, true, []⟩ ⟨first.AWAIT_LINE, timer.new, ⟨4⟩⟩ =
      (false, ⟨first.AWAIT_LINE, timer.new, ⟨5⟩⟩,
        ⟨true, false, [small_msg.async_1_run 5]⟩) ∧
      (task.operator_call first.run ⟨false, true, []⟩
        ⟨first.AWAIT_LINE, timer.new, ⟨4⟩⟩).2.1.impl.n ≤ LP64.INT_MAX) ∧
    ((task.call_in first.run [⟨false, true, []⟩, ⟨true, false, []⟩, ⟨true, true, []⟩]
      (⟨first.AWAIT_LINE, timer.new, ⟨4⟩⟩ : task first)).is_done = false ∧
    (task.call_in first.run [⟨false, true, []⟩, ⟨true, false, []⟩, ⟨true, true, []⟩]
      (⟨first.AWAIT_LINE, timer.new, ⟨4⟩⟩ : task first)).impl.n ≤ LP64.INT_MAX) :=
  ⟨Or.inr rfl, by decide, by decide,
    (first_await_semantics LP64 ⟨false, true, []⟩ ⟨first.AWAIT_LINE, timer.new, ⟨4⟩⟩
      [⟨false, true, []⟩, ⟨true, false, []⟩, ⟨true, true, []⟩] (Or.inr rfl)).2.1 rfl
        (by decide),
    (first_await_semantics LP64 ⟨false, true, []⟩ ⟨first.AWAIT_LINE, timer.new, ⟨4⟩⟩
      [⟨false, true, []⟩, ⟨true, false, []⟩, ⟨true, true, []⟩] (Or.inr rfl)).2.2.1
        (by decide)⟩

theorem example_small_succ (i : Nat) :
    ∀ s : small_state, example_small (i + 1) s = (example_small i s).step_n1.step_n2 := by
  induction i with
  | zero => intro s; rfl
  | succ i ih =>
    intro s
    rw [example_small, ih]
    rfl

theorem example_small_invariant (i : Nat) :
    (example_small (i + 1) small_state.start).n1 = ⟨first.AWAIT_LINE, timer.new, ⟨i⟩⟩ ∧
    (example_small (i + 1) small_state.start).n2 = ⟨second.AWAIT_LINE, timer.new, ⟨⟩⟩ ∧
    (example_small (i + 1) small_state.start).w.first_flag = false ∧
    (example_small (i + 1) small_state.start).w.second_flag = true ∧
    (example_small (i + 1) small_state.start).w.out.count small_msg.async_2_running = i + 1 ∧
    ((example_small (i + 1) small_state.start).w.out.filter small_msg.from_first).length = i := by
  induction i with
  | zero => decide
  | succ i ih =>
    obtain ⟨h1, h2, h3, h4, h5, h6⟩ := ih
    rw [example_small_succ]
    generalize example_small (i + 1) small_state.start = s at h1 h2 h3 h4 h5 h6
    obtain ⟨n1, n2, w⟩ := s
    simp only at h1 h2 h3 h4 h5 h6
    subst h1 h2
    have e1 := first_step_passes w ⟨first.AWAIT_LINE, timer.new, ⟨i⟩⟩ (Or.inr rfl) h4
    simp only [small_state.step_n1, small_state.step_n2, e1]
    have e2 := second_step_passes ⟨true, false, w.out ++ [small_msg.async_1_run ((i : Int) + 1)]⟩
      ⟨second.AWAIT_LINE, timer.new, ⟨⟩⟩ (Or.inr rfl) rfl
    simp only [e2]
    refine ⟨?_, ?_, ?_, ?_, ?_, ?_⟩
    · trivial
    · trivial
    · trivial
    · trivial
    · simp [List.count_append, h5]
    · simp [List.filter_append, small_msg.from_first, h6]

/-- C20: from `first_flag = true`, `second_flag = false` and newly constructed
tasks, after `i + 1` iterations of the loop `n1(); n2();` of `example_small` the
body of `first` has run `i` times (`n = i`, and `i` lines of output are its
own), the body of `second` has run `i + 1` times, `first_flag` is false and
`second_flag` true, and both tasks are suspended at their `AWAIT`, not DONE;
after every call of either task (and before the first) exactly one of the two
flags is true. -/
theorem ping_pong_alternation (i j : Nat) :
    (example_small (i + 1) small_state.start).n1.impl.n = i ∧
    ((example_small (i + 1) small_state.start).w.out.filter small_msg.from_first).length = i ∧
    (example_small (i + 1) small_state.start).w.out.count small_msg.async_2_running = i + 1 ∧
    (example_small (i + 1) small_state.start).w.first_flag = false ∧
    (example_small (i + 1) small_state.start).w.second_flag = true ∧
    (example_small (i + 1) small_state.start).n1.__status = first.AWAIT_LINE ∧
    (example_small (i + 1) small_state.start).n2.__status = second.AWAIT_LINE ∧
    (example_small (i + 1) small_state.start).n1.is_done = false ∧
    (example_small (i + 1) small_state.start).n2.is_done = false ∧
    ((example_small j small_state.start).w.first_flag !=
      (example_small j small_state.start).w.second_flag) = true ∧
    ((example_small j small_state.start).step_n1.w.first_flag !=
      (example_small j small_state.start).step_n1.w.second_flag) = true := by
  obtain ⟨h1, h2, h3, h4, h5, h6⟩ := example_small_invariant i
  refine ⟨by rw [h1], h6, h5, h3, h4, by rw [h1], by rw [h2], ?_, ?_, ?_, ?_⟩
  · rw [h1]; simp [task.is_done, first.AWAIT_LINE, DONE]
  · rw [h2]; simp [task.is_done, second.AWAIT_LINE, DONE]
  · cases j with
    | zero => decide
    | succ j =>
      obtain ⟨_, _, g3, g4, _, _⟩ := example_small_invariant j
      rw [g3, g4]; rfl
  · cases j with
    | zero => decide
    | succ j =>
      obtain ⟨g1, _, _, g4, _, _⟩ := example_small_invariant j
      generalize example_small (j + 1) small_state.start = s at g1 g4
      obtain ⟨n1, n2, w⟩ := s
      simp only at g1 g4
      subst g1
      have e1 := first_step_passes w ⟨first.AWAIT_LINE, timer.new, ⟨j⟩⟩ (Or.inr rfl) g4
      simp [small_state.step_n1, e1]

/-! ## `clock_time()` on POSIX -/

/-- C18, refuted as stated: with a 32-bit `unsigned`, the reading
(4294967 s, 295000 us) gives 4294967295 and the later reading
(4294967 s, 296000 us) gives 0, which is smaller and is not
`sec * 1000 + usec / 1000 = 4294967296`. -/
theorem clock_time_posix_wraps :
    (295000 : Nat) < 1000000 ∧ (296000 : Nat) < 1000000 ∧ (295000 : Nat) ≤ 296000 ∧
    clock_time_posix LP64 4294967 295000 = 4294967295 ∧
    clock_time_posix LP64 4294967 296000 = 0 ∧
    ¬ (clock_time_posix LP64 4294967 295000 ≤ clock_time_posix LP64 4294967 296000) ∧
    clock_time_posix LP64 4294967 296000 ≠ 4294967 * 1000 + 296000 / 1000 := by
  simp [clock_time_posix, Platform.UINT_RANGE, LP64]

/-- C18, amended: the hosted `clock_time()` is the millisecond count
`sec * 1000 + usec / 1000` of the reading reduced modulo `2 ^ w`, `w` the width
of `unsigned`; over two readings in order (`usec < 1000000`) whose millisecond
counts lie in the same period of `2 ^ w` milliseconds it is non-decreasing. -/
theorem clock_time_posix_spec (P : Platform) (sec1 usec1 sec2 usec2 : Nat)
    (h1 : usec1 < 1000000)
    (hle : sec1 < sec2 ∨ (sec1 = sec2 ∧ usec1 ≤ usec2))
    (hper : (sec1 * 1000 + usec1 / 1000) / P.UINT_RANGE
      = (sec2 * 1000 + usec2 / 1000) / P.UINT_RANGE) :
    clock_time_posix P sec1 usec1 = (sec1 * 1000 + usec1 / 1000) % P.UINT_RANGE ∧
    clock_time_posix P sec2 usec2 = (sec2 * 1000 + usec2 / 1000) % P.UINT_RANGE ∧
    clock_time_posix P sec1 usec1 ≤ clock_time_posix P sec2 usec2 := by
  refine ⟨rfl, rfl, ?_⟩
  unfold clock_time_posix
  have hms : sec1 * 1000 + usec1 / 1000 ≤ sec2 * 1000 + usec2 / 1000 := by
    rcases hle with h | ⟨h, hu⟩
    · have : usec1 / 1000 < 1000 := by omega
      omega
    · subst h
      have : usec1 / 1000 ≤ usec2 / 1000 := Nat.div_le_div_right hu
      omega
  have e1 := Nat.div_add_mod (sec1 * 1000 + usec1 / 1000) P.UINT_RANGE
  have e2 := Nat.div_add_mod (sec2 * 1000 + usec2 / 1000) P.UINT_RANGE
  rw [hper] at e1
  omega

/-- Instance of `clock_time_posix_spec`: two readings one second apart in
November 2023. -/
theorem clock_time_posix_spec_witness :
    (500000 : Nat) < 1000000 ∧
    ((1700000000 : Nat) < 1700000001 ∨ ((1700000000 : Nat) = 1700000001 ∧ (500000 : Nat) ≤ 2000)) ∧
    (1700000000 * 1000 + 500000 / 1000) / LP64.UINT_RANGE
      = (1700000001 * 1000 + 2000 / 1000) / LP64.UINT_RANGE ∧
    (clock_time_posix LP64 1700000000 500000
        = (1700000000 * 1000 + 500000 / 1000) % LP64.UINT_RANGE ∧
      clock_time_posix LP64 1700000001 2000
        = (1700000001 * 1000 + 2000 / 1000) % LP64.UINT_RANGE ∧
      clock_time_posix LP64 1700000000 500000 ≤ clock_time_posix LP64 1700000001 2000) :=
  ⟨by decide, Or.inl (by decide), by decide,
    clock_time_posix_spec LP64 1700000000 500000 1700000001 2000 (by decide)
      (Or.inl (by decide)) (by decide)⟩

/-! ## Task list: the round counter -/

theorem task_list.poll_each_half {H S : Type} (P : Platform) (poll : job H S)
    (hhalf : ∀ t st, (poll t st).2.1.half = st.1.half) (l : List H) :
    ∀ st : task_list H × S, (task_list.poll_each P poll l st).1.half = st.1.half := by
  induction l with
  | nil => intro st; rfl
  | cons t rest ih =>
    intro st
    simp only [task_list.poll_each]
    split
    · rw [ih, hhalf]
    · rw [ih]
      simp only [task_list.lists_set_half]
      rw [hhalf]

theorem task_list.round_half {H S : Type} (P : Platform) (poll : job H S)
    (hhalf : ∀ t st, (poll t st).2.1.half = st.1.half) (st : task_list H × S) :
    (task_list.round P poll st).1.half = (st.1.half + 1) % P.UINT_RANGE := by
  simp only [task_list.round]
  rw [task_list.poll_each_half P poll hhalf]
  simp only [task_list.lists_set_half]

theorem heartbit_n_succ {H S : Type} (P : Platform) (poll : job H S) (n : Nat) :
    ∀ st : task (task_list H) × S,
      heartbit_n P poll (n + 1) st = heartbit P poll (heartbit_n P poll n st) := by
  induction n with
  | zero => intro st; rfl
  | succ n ih =>
    intro st
    rw [heartbit_n, ih]
    rfl

theorem heartbit_n_half {H S : Type} (P : Platform) (poll : job H S)
    (hhalf : ∀ t st, (poll t st).2.1.half = st.1.half)
    (t : task (task_list H)) (s : S)
    (hst : t.__status = INIT ∨ t.__status = task_list.YIELD_LINE)
    (hh : t.impl.half < P.UINT_RANGE) (n : Nat) :
    ((heartbit_n P poll n (t, s)).1.__status = INIT ∨
      (heartbit_n P poll n (t, s)).1.__status = task_list.YIELD_LINE) ∧
    (0 < n → (heartbit_n P poll n (t, s)).1.__status = task_list.YIELD_LINE) ∧
    (heartbit_n P poll n (t, s)).1.impl.half = (t.impl.half + n) % P.UINT_RANGE := by
  induction n with
  | zero =>
    refine ⟨hst, fun h => absurd h (lt_irrefl 0), ?_⟩
    simp [heartbit_n, Nat.mod_eq_of_lt hh]
  | succ n ih =>
    obtain ⟨h1, _, h3⟩ := ih
    rw [heartbit_n_succ]
    generalize heartbit_n P poll n (t, s) = st at h1 h3
    obtain ⟨u, v⟩ := st
    rw [heartbit_eq_round _ _ _ _ h1]
    refine ⟨Or.inr rfl, fun _ => rfl, ?_⟩
    show (task_list.round P poll (u.impl, v)).1.half = _
    rw [task_list.round_half P poll hhalf]
    simp only at h3
    rw [h3, Nat.mod_add_mod]
    rfl

theorem no_add_task_half {H S : Type} (p : H → S → Bool × S) (t : H)
    (st : task_list H × S) : (no_add_task p t st).2.1.half = st.1.half := rfl

/-- C15, refuted as stated: with a 32-bit `unsigned`, after 4294967296 calls of
`heartbit()` on the empty task list the counter `half` is 0, its value before
the first call, not 4294967296 more. -/
theorem half_wraps :
    (heartbit_n LP64 (no_add_task (fun (_ : Nat) (y : Unit) => (false, y))) 4294967296
        (task_list_instance Nat, ())).1.impl.half = (task_list_instance Nat).impl.half ∧
    (heartbit_n LP64 (no_add_task (fun (_ : Nat) (y : Unit) => (false, y))) 4294967296
        (task_list_instance Nat, ())).1.impl.half ≠
      (task_list_instance Nat).impl.half + 4294967296 := by
  have h := (heartbit_n_half LP64 (no_add_task (fun (_ : Nat) (y : Unit) => (false, y)))
    (no_add_task_half _) (task_list_instance Nat) () (Or.inl rfl) LP64.UINT_RANGE_pos
    4294967296).2.2
  have h0 : (task_list_instance Nat).impl.half = 0 := rfl
  have hm : (0 + 4294967296) % LP64.UINT_RANGE = 0 := by
    norm_num [Platform.UINT_RANGE, LP64]
  rw [h0, hm] at h
  rw [h, h0]
  exact ⟨rfl, by norm_num⟩

/-- C15, amended: whatever the managed tasks do when polled (they may call
`add_task`; they cannot reach `half`), after `n` calls of `heartbit()` the task
list is not DONE, `half` has been incremented `n` times as an `unsigned` (it is
its first value plus `n` modulo `2 ^ w`) so that the roles of the two lists have
been exchanged `n` times, and the next call of `operator()` returns not done and
leaves the task suspended at the `YIELD`. -/
theorem heartbit_one_round_per_call {H S : Type} (P : Platform) (poll : job H S)
    (t : task (task_list H)) (s : S) (n : Nat)
    (hhalf : ∀ u st, (poll u st).2.1.half = st.1.half)
    (hst : t.__status = INIT ∨ t.__status = task_list.YIELD_LINE)
    (hh : t.impl.half < P.UINT_RANGE) :
    (heartbit_n P poll n (t, s)).1.is_done = false ∧
    (heartbit_n P poll n (t, s)).1.impl.half = (t.impl.half + n) % P.UINT_RANGE ∧
    (heartbit_n P poll n (t, s)).1.impl.active_index = (t.impl.active_index + n) % 2 ∧
    (task.operator_call (task_list.run P poll) (heartbit_n P poll n (t, s)).2
        (heartbit_n P poll n (t, s)).1).1 = false ∧
    (task.operator_call (task_list.run P poll) (heartbit_n P poll n (t, s)).2
        (heartbit_n P poll n (t, s)).1).2.1.__status = task_list.YIELD_LINE ∧
    (0 < n → (heartbit_n P poll n (t, s)).1.__status = task_list.YIELD_LINE) := by
  obtain ⟨h1, h2, h3⟩ := heartbit_n_half P poll hhalf t s hst hh n
  have hnd : (heartbit_n P poll n (t, s)).1.is_done = false := by
    rcases h1 with h | h <;> simp [task.is_done, h, INIT, DONE, task_list.YIELD_LINE]
  have hcall : ∀ u : task (task_list H), ∀ v : S,
      (u.__status = INIT ∨ u.__status = task_list.YIELD_LINE) →
      (task.operator_call (task_list.run P poll) v u).1 = false ∧
      (task.operator_call (task_list.run P poll) v u).2.1.__status = task_list.YIELD_LINE := by
    intro u v hu
    rcases hu with h | h <;>
      simp [task.operator_call, task.is_done, task_list.run, TASK_BEGIN_END,
        task_list.loop, h, INIT, DONE, task_list.YIELD_LINE]
  refine ⟨hnd, h3, ?_, (hcall _ _ h1).1, (hcall _ _ h1).2, h2⟩
  rw [task_list.active_index_eq, task_list.active_index_eq, h3,
    Nat.mod_mod_of_dvd _ P.two_dvd_UINT_RANGE]
  omega

/-- Instance of `heartbit_one_round_per_call`: five rounds of `three_tasks`. -/
theorem heartbit_one_round_per_call_witness :
    (∀ u st, (no_add_task countdown_poll u st).2.1.half = st.1.half) ∧
    (three_tasks.__status = INIT ∨ three_tasks.__status = task_list.YIELD_LINE) ∧
    three_tasks.impl.half < LP64.UINT_RANGE ∧
    ((heartbit_n LP64 (no_add_task countdown_poll) 5 (three_tasks, three_counts)).1.is_done
        = false ∧
      (heartbit_n LP64 (no_add_task countdown_poll) 5 (three_tasks, three_counts)).1.impl.half
        = (three_tasks.impl.half + 5) % LP64.UINT_RANGE ∧
      (heartbit_n LP64 (no_add_task countdown_poll) 5
          (three_tasks, three_counts)).1.impl.active_index
        = (three_tasks.impl.active_index + 5) % 2 ∧
      (task.operator_call (task_list.run LP64 (no_add_task countdown_poll))
          (heartbit_n LP64 (no_add_task countdown_poll) 5 (three_tasks, three_counts)).2
          (heartbit_n LP64 (no_add_task countdown_poll) 5 (three_tasks, three_counts)).1).1
        = false ∧
      (task.operator_call (task_list.run LP64 (no_add_task countdown_poll))
          (heartbit_n LP64 (no_add_task countdown_poll) 5 (three_tasks, three_counts)).2
          (heartbit_n LP64 (no_add_task countdown_poll) 5
            (three_tasks, three_counts)).1).2.1.__status
        = task_list.YIELD_LINE ∧
      (0 < 5 → (heartbit_n LP64 (no_add_task countdown_poll) 5
          (three_tasks, three_counts)).1.__status = task_list.YIELD_LINE)) ∧
    (heartbit_n LP64 (no_add_task countdown_poll) 5 (three_tasks, three_counts)).1.impl.half
      = 5 :=
  ⟨no_add_task_half countdown_poll, Or.inl rfl, by decide,
    heartbit_one_round_per_call LP64 (no_add_task countdown_poll) three_tasks three_counts 5
      (no_add_task_half countdown_poll) (Or.inl rfl) (by decide),
    by decide⟩

/-! ## Task list: a task that is DONE when it is added -/

theorem task_list.add_task_half {H : Type} (tl : task_list H) (x : H) :
    (tl.add_task x).half = tl.half := by
  simp [task_list.add_task, task_list.lists_set_half]

theorem task_list.add_task_passive {H : Type} (P : Platform) (tl : task_list H) (x : H) :
    (tl.add_task x).passive_list P = tl.passive_list P := by
  simp only [task_list.passive_list, task_list.passive_index, task_list.add_task_half]
  simp only [task_list.add_task, task_list.lists_get_set, task_list.active_index_eq,
    Nat.and_one_is_mod, Nat.mod_mod_of_dvd _ P.two_dvd_UINT_RANGE]
  have : ¬ (tl.half % 2 = 0 ↔ (tl.half + 1) % 2 = 0) := by omega
  simp [this]

theorem task_list.passive_after_push {H : Type} (P : Platform) (tl : task_list H) (t : H) :
    (tl.lists_set (tl.passive_index P) (tl.passive_list P ++ [t])).passive_list P
      = tl.passive_list P ++ [t] := by
  simp [task_list.passive_list, task_list.passive_index_set, task_list.lists_get_set]

theorem task_list.poll_each_spawn {H S : Type} [DecidableEq H] (P : Platform) (a x : H)
    (p : H → S → Bool × S) (l : List H) :
    ∀ (tl : task_list H) (s : S) (log : List (H × Bool)),
      x ∉ l → x ∉ tl.passive_list P → (∀ e ∈ log, e.1 ≠ x) →
      (task_list.poll_each P (with_add_task a x (logged p)) l (tl, (s, log))).1.half
          = tl.half ∧
        x ∉ (task_list.poll_each P (with_add_task a x (logged p)) l
          (tl, (s, log))).1.passive_list P ∧
        ∀ e ∈ (task_list.poll_each P (with_add_task a x (logged p)) l
          (tl, (s, log))).2.2, e.1 ≠ x := by
  induction l with
  | nil => intro tl s log _ hp hlog; exact ⟨rfl, hp, hlog⟩
  | cons t rest ih =>
    intro tl s log hx hp hlog
    have htx : t ≠ x := fun h => hx (h ▸ List.mem_cons_self _ _)
    have hrest : x ∉ rest := fun h => hx (List.mem_cons_of_mem _ h)
    have hlog1 : ∀ e ∈ log ++ [(t, (p t s).1)], e.1 ≠ x := by
      intro e he
      rcases List.mem_append.mp he with h | h
      · exact hlog e h
      · rw [List.mem_singleton.mp h]
        exact htx
    have key : ∀ tl1 : task_list H, tl1.half = tl.half → x ∉ tl1.passive_list P →
        (task_list.poll_each P (with_add_task a x (logged p)) rest
            (if (p t s).1 = true then (tl1, ((p t s).2, log ++ [(t, (p t s).1)]))
              else (tl1.lists_set (tl1.passive_index P) (tl1.passive_list P ++ [t]),
                ((p t s).2, log ++ [(t, (p t s).1)])))).1.half = tl.half ∧
        x ∉ (task_list.poll_each P (with_add_task a x (logged p)) rest
            (if (p t s).1 = true then (tl1, ((p t s).2, log ++ [(t, (p t s).1)]))
              else (tl1.lists_set (tl1.passive_index P) (tl1.passive_list P ++ [t]),
                ((p t s).2, log ++ [(t, (p t s).1)])))).1.passive_list P ∧
        ∀ e ∈ (task_list.poll_each P (with_add_task a x (logged p)) rest
            (if (p t s).1 = true then (tl1, ((p t s).2, log ++ [(t, (p t s).1)]))
              else (tl1.lists_set (tl1.passive_index P) (tl1.passive_list P ++ [t]),
                ((p t s).2, log ++ [(t, (p t s).1)])))).2.2, e.1 ≠ x := by
      intro tl1 hh1 hp1
      by_cases hd : (p t s).1 = true
      · rw [if_pos hd]
        obtain ⟨g1, g2, g3⟩ := ih tl1 _ _ hrest hp1 hlog1
        exact ⟨g1.trans hh1, g2, g3⟩
      · rw [if_neg hd]
        have hp2 : x ∉ (tl1.lists_set (tl1.passive_index P)
            (tl1.passive_list P ++ [t])).passive_list P := by
          rw [task_list.passive_after_push]
          intro h
          rcases List.mem_append.mp h with h | h
          · exact hp1 h
          · exact htx (List.mem_singleton.mp h).symm
        obtain ⟨g1, g2, g3⟩ := ih _ _ _ hrest hp2 hlog1
        exact ⟨by rw [g1, task_list.lists_set_half, hh1], g2, g3⟩
    have step : task_list.poll_each P (with_add_task a x (logged p)) (t :: rest)
        (tl, (s, log)) =
        task_list.poll_each P (with_add_task a x (logged p)) rest
          (if (p t s).1 = true
            then ((if t = a then tl.add_task x else tl), ((p t s).2, log ++ [(t, (p t s).1)]))
            else ((if t = a then tl.add_task x else tl).lists_set
                ((if t = a then tl.add_task x else tl).passive_index P)
                ((if t = a then tl.add_task x else tl).passive_list P ++ [t]),
              ((p t s).2, log ++ [(t, (p t s).1)]))) := by
      by_cases hta : t = a
      · simp only [task_list.poll_each, with_add_task, logged, if_pos hta]
        split <;> rfl
      · simp only [task_list.poll_each, with_add_task, no_add_task, logged, if_neg hta]
        split <;> rfl
    rw [step]
    by_cases hta : t = a
    · simp only [if_pos hta]
      exact key (tl.add_task x) (task_list.add_task_half tl x)
        (by rw [task_list.add_task_passive]; exact hp)
    · simp only [if_neg hta]
      exact key tl rfl hp

theorem task_list.active_after_clear {H : Type} (P : Platform) (tl : task_list H) :
    (tl.lists_set (tl.passive_index P) []).active_list = tl.active_list ∧
    (tl.lists_set (tl.passive_index P) []).passive_list P = [] := by
  constructor
  · simp only [task_list.active_list, task_list.active_index_eq, task_list.lists_set_half,
      task_list.lists_get_set, task_list.passive_index_eq]
    have : ¬ ((tl.half + 1) % 2 = 0 ↔ tl.half % 2 = 0) := by omega
    simp [this]
  · simp [task_list.passive_list, task_list.passive_index_set, task_list.lists_get_set]

theorem task_list.active_after_swap {H : Type} (P : Platform) (tl : task_list H) :
    ({ tl with half := (tl.half + 1) % P.UINT_RANGE } : task_list H).active_list
      = tl.passive_list P := rfl

theorem heartbit_spawn {H S : Type} [DecidableEq H] (P : Platform) (a x : H)
    (p : H → S → Bool × S) (u : task (task_list H)) (s : S) (log : List (H × Bool))
    (hst : u.__status = INIT ∨ u.__status = task_list.YIELD_LINE)
    (hx : x ∉ u.impl.active_list) (hlog : ∀ e ∈ log, e.1 ≠ x) :
    ((heartbit P (with_add_task a x (logged p)) (u, (s, log))).1.__status = INIT ∨
      (heartbit P (with_add_task a x (logged p)) (u, (s, log))).1.__status
        = task_list.YIELD_LINE) ∧
    x ∉ (heartbit P (with_add_task a x (logged p)) (u, (s, log))).1.impl.active_list ∧
    ∀ e ∈ (heartbit P (with_add_task a x (logged p)) (u, (s, log))).2.2, e.1 ≠ x := by
  rw [heartbit_eq_round _ _ _ _ hst]
  obtain ⟨hc1, hc2⟩ := task_list.active_after_clear P u.impl
  have h := task_list.poll_each_spawn P a x p u.impl.active_list
    (u.impl.lists_set (u.impl.passive_index P) []) s log hx (by rw [hc2]; simp) hlog
  refine ⟨Or.inr rfl, ?_, ?_⟩
  · show x ∉ (task_list.round P (with_add_task a x (logged p)) (u.impl, (s, log))).1.active_list
    simp only [task_list.round, hc1]
    rw [task_list.active_after_swap]
    exact h.2.1
  · show ∀ e ∈ (task_list.round P (with_add_task a x (logged p)) (u.impl, (s, log))).2.2, _
    simp only [task_list.round, hc1]
    exact h.2.2

/-- C11, the code on a handle added during a round: when the task of handle `a`
calls `add_task(x)` each time it is polled, with `x` a handle that was not added
before the task list is driven, then after every number of rounds no poll of
`x` has been made and `x` is not in the active sequence. -/
theorem added_while_polled_is_never_polled {H S : Type} [DecidableEq H] (P : Platform)
    (a x : H) (p : H → S → Bool × S) (ts : List H) (s : S) (n : Nat) (hx : x ∉ ts) :
    (∀ e ∈ (heartbit_n P (with_add_task a x (logged p)) n
        (ts.foldl add_task (task_list_instance H, (s, [])))).2.2, e.1 ≠ x) ∧
    x ∉ (heartbit_n P (with_add_task a x (logged p)) n
        (ts.foldl add_task (task_list_instance H, (s, [])))).1.impl.active_list := by
  have hstart : ts.foldl add_task (task_list_instance H, ((s, []) : S × List (H × Bool))) =
      (⟨INIT, timer.new, ⟨0, (ts, [])⟩⟩, (s, [])) := by
    have h := add_task_all ts INIT timer.new ([] : List H) ((s, []) : S × List (H × Bool))
    simpa [task_list_instance, task.new, task.restart] using h
  have hactive : (⟨INIT, timer.new, ⟨0, (ts, [])⟩⟩ : task (task_list H)).impl.active_list = ts := by
    simp [task_list.active_list, task_list.active_index, task_list.lists_get]
  rw [hstart]
  have inv : ((heartbit_n P (with_add_task a x (logged p)) n
        ((⟨INIT, timer.new, ⟨0, (ts, [])⟩⟩ : task (task_list H)), (s, []))).1.__status = INIT ∨
      (heartbit_n P (with_add_task a x (logged p)) n
        ((⟨INIT, timer.new, ⟨0, (ts, [])⟩⟩ : task (task_list H)), (s, []))).1.__status
          = task_list.YIELD_LINE) ∧
      x ∉ (heartbit_n P (with_add_task a x (logged p)) n
        ((⟨INIT, timer.new, ⟨0, (ts, [])⟩⟩ : task (task_list H)), (s, []))).1.impl.active_list ∧
      ∀ e ∈ (heartbit_n P (with_add_task a x (logged p)) n
        ((⟨INIT, timer.new, ⟨0, (ts, [])⟩⟩ : task (task_list H)), (s, []))).2.2, e.1 ≠ x := by
    induction n with
    | zero =>
      refine ⟨Or.inl rfl, ?_, ?_⟩
      · show x ∉ (⟨INIT, timer.new, ⟨0, (ts, [])⟩⟩ : task (task_list H)).impl.active_list
        rw [hactive]
        exact hx
      · intro e he
        simp [heartbit_n] at he
    | succ n ih =>
      obtain ⟨h1, h2, h3⟩ := ih
      rw [heartbit_n_succ]
      generalize heartbit_n P (with_add_task a x (logged p)) n
        ((⟨INIT, timer.new, ⟨0, (ts, [])⟩⟩ : task (task_list H)), (s, [])) = st at h1 h2 h3
      obtain ⟨u, v, log⟩ := st
      exact heartbit_spawn P a x p u v log h1 h2 h3
  exact ⟨inv.2.2, inv.2.1⟩

/-- Instance of `added_while_polled_is_never_polled`: the task of handle 0 calls
`add_task(1)` and reports done.  After the first round handle 1 sits in the
sequence that has become passive and `active_tasks()` is 0; the second round
clears that sequence; only handle 0 has ever been polled. -/
theorem added_while_polled_is_never_polled_witness :
    (1 : Nat) ∉ [0] ∧
    ((∀ e ∈ (heartbit_n LP64 (with_add_task 0 1 (logged spawn_once)) 2
        ([0].foldl add_task (task_list_instance Nat, ((), [])))).2.2, e.1 ≠ 1) ∧
      (1 : Nat) ∉ (heartbit_n LP64 (with_add_task 0 1 (logged spawn_once)) 2
        ([0].foldl add_task (task_list_instance Nat, ((), [])))).1.impl.active_list) ∧
    (heartbit_n LP64 (with_add_task 0 1 (logged spawn_once)) 1
        ([0].foldl add_task (task_list_instance Nat, ((), [])))).1.impl.lists = ([0, 1], []) ∧
    (heartbit_n LP64 (with_add_task 0 1 (logged spawn_once)) 1
        ([0].foldl add_task (task_list_instance Nat, ((), [])))).1.impl.half = 1 ∧
    active_tasks LP64 (heartbit_n LP64 (with_add_task 0 1 (logged spawn_once)) 1
        ([0].foldl add_task (task_list_instance Nat, ((), [])))) = 0 ∧
    (heartbit_n LP64 (with_add_task 0 1 (logged spawn_once)) 2
        ([0].foldl add_task (task_list_instance Nat, ((), [])))).1.impl.lists = ([], []) ∧
    (heartbit_n LP64 (with_add_task 0 1 (logged spawn_once)) 2
        ([0].foldl add_task (task_list_instance Nat, ((), [])))).2.2 = [(0, true)] :=
  ⟨by decide,
    added_while_polled_is_never_polled LP64 0 1 spawn_once [0] () 2 (by decide),
    by decide, by decide, by decide, by decide, by decide⟩

/-! ## `RUN_TASK` -/

theorem task.call_n_succ {W F : Type} (run : body W F) (n : Nat) :
    ∀ s : task F × W, task.call_n run (n + 1) s =
      (task.operator_call run (task.call_n run n s).2 (task.call_n run n s).1).2 := by
  induction n with
  | zero => intro s; rfl
  | succ n ih =>
    intro s
    rw [task.call_n, ih]
    rfl

theorem run_task_first_call {W F G : Type} (L : status) (sub : body W G)
    (init : task G → task G) (rest : body W (with_subtask F G))
    (resume : status → Option (body W (with_subtask F G)))
    (tm : timer) (own : F) (T : task G) (w : W) (hL : 0 < L) :
    task.operator_call (run_task_body L sub init rest resume) w ⟨INIT, tm, ⟨own, T⟩⟩ =
      if (task.call_n sub 1 (init T.restart, w)).1.is_done = true then
        (decide ((rest (task.call_n sub 1 (init T.restart, w)).2
            ⟨INIT, tm, ⟨own, (task.call_n sub 1 (init T.restart, w)).1⟩⟩).1 = DONE),
          { (rest (task.call_n sub 1 (init T.restart, w)).2
              ⟨INIT, tm, ⟨own, (task.call_n sub 1 (init T.restart, w)).1⟩⟩).2.1 with
            __status := (rest (task.call_n sub 1 (init T.restart, w)).2
              ⟨INIT, tm, ⟨own, (task.call_n sub 1 (init T.restart, w)).1⟩⟩).1 },
          (rest (task.call_n sub 1 (init T.restart, w)).2
            ⟨INIT, tm, ⟨own, (task.call_n sub 1 (init T.restart, w)).1⟩⟩).2.2)
      else
        (false, ⟨L, tm, ⟨own, (task.call_n sub 1 (init T.restart, w)).1⟩⟩,
          (task.call_n sub 1 (init T.restart, w)).2) := by
  by_cases hd : (task.call_n sub 1 (init T.restart, w)).1.is_done = true
  · rw [if_pos hd]
    simp only [task.call_n] at hd ⊢
    simp [task.operator_call, run_task_body, TASK_BEGIN_END, RUN_TASK, AWAIT_task,
      is_incomplete_task, task.is_done, INIT, DONE] at hd ⊢
    simp [hd]
  · rw [if_neg hd]
    simp only [task.call_n] at hd ⊢
    simp [task.operator_call, run_task_body, TASK_BEGIN_END, RUN_TASK, AWAIT_task,
      is_incomplete_task, task.is_done, INIT, DONE] at hd ⊢
    simp [hd]
    intro h
    rw [h] at hL
    exact absurd hL (by decide)

theorem run_task_resume_call {W F G : Type} (L : status) (sub : body W G)
    (init : task G → task G) (rest : body W (with_subtask F G))
    (resume : status → Option (body W (with_subtask F G)))
    (tm : timer) (own : F) (T : task G) (w : W) (hL : 0 < L) :
    task.operator_call (run_task_body L sub init rest resume) w ⟨L, tm, ⟨own, T⟩⟩ =
      if (task.operator_call sub w T).2.1.is_done = true then
        (decide ((rest (task.operator_call sub w T).2.2
            ⟨L, tm, ⟨own, (task.operator_call sub w T).2.1⟩⟩).1 = DONE),
          { (rest (task.operator_call sub w T).2.2
              ⟨L, tm, ⟨own, (task.operator_call sub w T).2.1⟩⟩).2.1 with
            __status := (rest (task.operator_call sub w T).2.2
              ⟨L, tm, ⟨own, (task.operator_call sub w T).2.1⟩⟩).1 },
          (rest (task.operator_call sub w T).2.2
            ⟨L, tm, ⟨own, (task.operator_call sub w T).2.1⟩⟩).2.2)
      else
        (false, ⟨L, tm, ⟨own, (task.operator_call sub w T).2.1⟩⟩,
          (task.operator_call sub w T).2.2) := by
  have h0 : L ≠ 0 := fun h => by rw [h] at hL; exact absurd hL (by decide)
  have h1 : L ≠ -1 := fun h => by rw [h] at hL; exact absurd hL (by decide)
  by_cases hd : (task.operator_call sub w T).2.1.is_done = true
  · rw [if_pos hd]
    simp [task.operator_call, run_task_body, TASK_BEGIN_END, AWAIT_task,
      is_incomplete_task, task.is_done, DONE, h0, h1] at hd ⊢
    simp [hd]
  · rw [if_neg hd]
    simp [task.operator_call, run_task_body, TASK_BEGIN_END, AWAIT_task,
      is_incomplete_task, task.is_done, DONE, h0, h1] at hd ⊢
    simp [hd, h1]

theorem run_task_suspended {W F G : Type} (L : status) (sub : body W G)
    (init : task G → task G) (rest : body W (with_subtask F G))
    (resume : status → Option (body W (with_subtask F G)))
    (tm : timer) (own : F) (T : task G) (w : W) (k : Nat) (hL : 0 < L)
    (hnot : ∀ i, 1 ≤ i → i < k → (task.call_n sub i (init T.restart, w)).1.is_done = false)
    (j : Nat) (hj : 1 ≤ j) (hjk : j < k) :
    task.call_n (run_task_body L sub init rest resume) j (⟨INIT, tm, ⟨own, T⟩⟩, w) =
      (⟨L, tm, ⟨own, (task.call_n sub j (init T.restart, w)).1⟩⟩,
        (task.call_n sub j (init T.restart, w)).2) := by
  induction j with
  | zero => exact absurd hj (by decide)
  | succ j ih =>
    rw [task.call_n_succ]
    cases j with
    | zero =>
      have hd := hnot 1 le_rfl hjk
      simp only [task.call_n]
      rw [run_task_first_call L sub init rest resume tm own T w hL, if_neg (by simp [hd])]
      rfl
    | succ j =>
      rw [ih (by omega) (by omega)]
      have hd := hnot (j + 1 + 1) (by omega) hjk
      rw [task.call_n_succ] at hd
      simp only
      rw [run_task_resume_call L sub init rest resume tm own _ _ hL, if_neg (by simp [hd]),
        task.call_n_succ sub (j + 1)]

/-- C17: an outer task reaching `RUN_TASK(T)` (at line `L`) on its first call,
with `T` needing exactly `k ≥ 1` polls after `restart()` and `init()` to be DONE:
after each of its first `j < k` calls the outer task is suspended at marker `L`
and `T` is in the state that `j` polls from the restarted, initialised `T` give
(one restart, one poll of `T` per outer call); the outer call in which `T`
receives its `k`-th poll runs the code after the `RUN_TASK` in that same call;
and `is_incomplete(T)` polls `T` once and returns whether it is then not
DONE. -/
theorem run_task_polls_once_per_call {W F G : Type} (L : status) (sub : body W G)
    (init : task G → task G) (rest : body W (with_subtask F G))
    (resume : status → Option (body W (with_subtask F G)))
    (tm : timer) (own : F) (T : task G) (w : W) (k j : Nat) (hL : 0 < L) (hk : 1 ≤ k)
    (hnot : ∀ i, i < k → (task.call_n sub i (init T.restart, w)).1.is_done = false)
    (hdone : (task.call_n sub k (init T.restart, w)).1.is_done = true) :
    (1 ≤ j → j < k →
      task.call_n (run_task_body L sub init rest resume) j (⟨INIT, tm, ⟨own, T⟩⟩, w) =
        (⟨L, tm, ⟨own, (task.call_n sub j (init T.restart, w)).1⟩⟩,
          (task.call_n sub j (init T.restart, w)).2)) ∧
    task.operator_call (run_task_body L sub init rest resume)
        (task.call_n (run_task_body L sub init rest resume) (k - 1)
          (⟨INIT, tm, ⟨own, T⟩⟩, w)).2
        (task.call_n (run_task_body L sub init rest resume) (k - 1)
          (⟨INIT, tm, ⟨own, T⟩⟩, w)).1 =
      (decide ((rest (task.call_n sub k (init T.restart, w)).2
          ⟨if k = 1 then INIT else L, tm,
            ⟨own, (task.call_n sub k (init T.restart, w)).1⟩⟩).1 = DONE),
        { (rest (task.call_n sub k (init T.restart, w)).2
            ⟨if k = 1 then INIT else L, tm,
              ⟨own, (task.call_n sub k (init T.restart, w)).1⟩⟩).2.1 with
          __status := (rest (task.call_n sub k (init T.restart, w)).2
            ⟨if k = 1 then INIT else L, tm,
              ⟨own, (task.call_n sub k (init T.restart, w)).1⟩⟩).1 },
        (rest (task.call_n sub k (init T.restart, w)).2
          ⟨if k = 1 then INIT else L, tm,
            ⟨own, (task.call_n sub k (init T.restart, w)).1⟩⟩).2.2) ∧
    (∀ (v : W) (U : task G), is_incomplete_task sub v U =
      (!(task.operator_call sub v U).2.1.is_done, (task.operator_call sub v U).2.1,
        (task.operator_call sub v U).2.2)) := by
  have hnot1 : ∀ i, 1 ≤ i → i < k →
      (task.call_n sub i (init T.restart, w)).1.is_done = false := fun i _ h => hnot i h
  refine ⟨fun hj hjk =>
    run_task_suspended L sub init rest resume tm own T w k hL hnot1 j hj hjk, ?_, fun _ _ => rfl⟩
  obtain ⟨m, rfl⟩ : ∃ m, k = m + 1 := ⟨k - 1, by omega⟩
  cases m with
  | zero =>
    simp only [Nat.zero_add, Nat.sub_self, task.call_n, if_true] at hdone ⊢
    rw [run_task_first_call L sub init rest resume tm own T w hL]
    simp only [task.call_n]
    rw [if_pos hdone]
  | succ m =>
    have hs := run_task_suspended L sub init rest resume tm own T w (m + 1 + 1) hL hnot1
      (m + 1) (by omega) (by omega)
    simp only [Nat.add_sub_cancel]
    rw [hs]
    simp only
    rw [task.call_n_succ sub (m + 1)] at hdone ⊢
    rw [run_task_resume_call L sub init rest resume tm own _ _ hL, if_pos hdone]
    simp

/-- Instance of `run_task_polls_once_per_call`: a sub-task needing 3 polls, run
by `RUN_TASK` at line 10; the outer task is suspended after its second call
and DONE after its third. -/
theorem run_task_polls_once_per_call_witness :
    (0 : status) < 10 ∧ 1 ≤ 3 ∧
    (∀ i, i < 3 →
      (task.call_n countdown_body i (task.init (task.restart ⟨7, timer.new, 3⟩), ())).1.is_done
        = false) ∧
    (task.call_n countdown_body 3 (task.init (task.restart ⟨7, timer.new, 3⟩), ())).1.is_done
      = true ∧
    task.call_n (run_task_body 10 countdown_body task.init after_run_task (fun _ => none)) 2
        (⟨INIT, timer.new, ⟨(), ⟨7, timer.new, 3⟩⟩⟩, ()) =
      (⟨10, timer.new, ⟨(), ⟨7, timer.new, 1⟩⟩⟩, ()) ∧
    task.call_n (run_task_body 10 countdown_body task.init after_run_task (fun _ => none)) 3
        (⟨INIT, timer.new, ⟨(), ⟨7, timer.new, 3⟩⟩⟩, ()) =
      (⟨DONE, timer.new, ⟨(), ⟨DONE, timer.new, 0⟩⟩⟩, ()) :=
  ⟨by decide, by decide, by decide, by decide,
    ((run_task_polls_once_per_call 10 countdown_body task.init after_run_task (fun _ => none)
      timer.new () ⟨7, timer.new, 3⟩ () 3 2 (by decide) (by decide) (by decide)
      (by decide)).1 (by decide) (by decide)).trans (by decide),
    by decide⟩

/-! ## Execution of bodies with loops -/

theorem exec_mono {N W F : Type} (code : N → W → task F → flow N W F) (k : Nat) :
    ∀ (n : N) (w : W) (t : task F) (r : run_result W F),
      exec code k n w t = some r → ∀ d, exec code (k + d) n w t = some r := by
  induction k with
  | zero => intro n w t r h; simp [exec] at h
  | succ k ih =>
    intro n w t r h d
    have hk : k + 1 + d = (k + d) + 1 := by omega
    rw [hk]
    simp only [exec] at h ⊢
    cases hc : code n w t with
    | goto n1 w1 t1 =>
      rw [hc] at h
      simp only at h ⊢
      exact ih n1 w1 t1 r h d
    | ret st w1 t1 =>
      rw [hc] at h
      simpa using h

theorem run_from_eq {N W F : Type} (code : N → W → task F → flow N W F)
    (fuel : W → task F → Nat) (n : N) (w : W) (t : task F) (k : Nat) (r : run_result W F)
    (h : exec code k n w t = some r) (hk : k ≤ fuel w t) :
    run_from code fuel n w t = r := by
  obtain ⟨d, hd⟩ := Nat.exists_eq_add_of_le hk
  simp [run_from, hd, exec_mono code k n w t r h d]

/-! ## `n1`: the `SLEEP` loop -/

theorem sleep_loop_fuel_ge (w : dyn_world) (t : task n1) : 3 ≤ sleep_loop_fuel w t := by
  unfold sleep_loop_fuel
  omega

theorem sleep_loop_fuel_ge_of_nonneg (w : dyn_world) (t : task n1) (hc : 0 ≤ t.impl.c) :
    6 ≤ sleep_loop_fuel w t := by
  unfold sleep_loop_fuel
  omega

theorem sleep_loop_blocked (P : Platform) (ms : Nat) (L : status) (w : dyn_world) (t : task n1)
    (h : w.now < t.__sleep_timer.until_) :
    exec (sleep_loop P ms L) 1 sleep_node.await w t = some (L, t, w) := by
  simp [exec, sleep_loop, is_incomplete_timer, timer.is_expired, h]

theorem sleep_loop_arm (P : Platform) (ms : Nat) (L : status) (w : dyn_world) (t : task n1)
    (hc : 0 ≤ t.impl.c) (hms : 0 < ms) (hfit : w.now + ms < P.ULONG_RANGE) :
    exec (sleep_loop P ms L) 2 sleep_node.for_cond w t =
      some (L, { t with __sleep_timer := ⟨w.now + ms⟩ }, w) := by
  have hms0 : ms ≠ 0 := by omega
  simp [exec, sleep_loop, is_incomplete_timer, timer.is_expired, timer.start,
    Nat.mod_eq_of_lt hfit, hc, hms0]

theorem sleep_loop_exit (P : Platform) (ms : Nat) (L : status) (w : dyn_world) (t : task n1)
    (hc : t.impl.c < 0) :
    exec (sleep_loop P ms L) 1 sleep_node.for_cond w t =
      some (DONE, { t with __status := DONE }, w) := by
  have hc0 : ¬ (0 ≤ t.impl.c) := by omega
  simp [exec, sleep_loop, hc0]

theorem sleep_loop_pass (P : Platform) (ms : Nat) (L : status) (w : dyn_world) (t : task n1)
    (hc : 0 ≤ t.impl.c) (hms : 0 < ms) (hfit : w.now + ms < P.ULONG_RANGE)
    (h : t.__sleep_timer.until_ ≤ w.now) :
    exec (sleep_loop P ms L) 4 sleep_node.await w t =
      some (if 1 ≤ t.impl.c
        then (L, ⟨t.__status, ⟨w.now + ms⟩, ⟨t.impl.c - 1⟩⟩,
          { w with out := w.out ++ [(w.now, t.impl.c)] })
        else (DONE, ⟨DONE, t.__sleep_timer, ⟨t.impl.c - 1⟩⟩,
          { w with out := w.out ++ [(w.now, t.impl.c)] })) := by
  have hms0 : ms ≠ 0 := by omega
  by_cases h1 : 1 ≤ t.impl.c
  · have h2 : 0 ≤ t.impl.c - 1 := by omega
    simp [exec, sleep_loop, is_incomplete_timer, timer.is_expired, timer.start,
      Nat.mod_eq_of_lt hfit, h, h1, h2, hms0]
  · have h2 : ¬ (0 ≤ t.impl.c - 1) := by omega
    simp [exec, sleep_loop, is_incomplete_timer, timer.is_expired, h, h1, h2]

theorem n1.call_first (P : Platform) (w : dyn_world) (t : task n1)
    (hst : t.__status = INIT) (hc : 0 ≤ t.impl.c) (hfit : w.now + 100 < P.ULONG_RANGE) :
    task.operator_call (n1.run P) w t =
      (false, ⟨n1.SLEEP_LINE, ⟨w.now + 100⟩, t.impl⟩, w) := by
  have h := run_from_eq (sleep_loop P 100 n1.SLEEP_LINE) sleep_loop_fuel sleep_node.for_cond
    w t 2 _ (sleep_loop_arm P 100 n1.SLEEP_LINE w t hc (by decide) hfit)
    (le_trans (by decide) (sleep_loop_fuel_ge w t))
  simp only [n1.SLEEP_LINE] at h
  simp [task.operator_call, task.is_done, n1.run, TASK_BEGIN_END, hst, INIT, DONE, h,
    n1.SLEEP_LINE]

theorem n1.call_blocked (P : Platform) (w : dyn_world) (t : task n1)
    (hst : t.__status = n1.SLEEP_LINE) (h : w.now < t.__sleep_timer.until_) :
    task.operator_call (n1.run P) w t = (false, t, w) := by
  have h := run_from_eq (sleep_loop P 100 n1.SLEEP_LINE) sleep_loop_fuel sleep_node.await
    w t 1 _ (sleep_loop_blocked P 100 n1.SLEEP_LINE w t h)
    (le_trans (by decide) (sleep_loop_fuel_ge w t))
  obtain ⟨st, tm, f⟩ := t
  simp only at hst
  subst hst
  simp only [n1.SLEEP_LINE] at h
  simp [task.operator_call, task.is_done, n1.run, TASK_BEGIN_END, DONE, h, n1.SLEEP_LINE]

theorem n1.call_pass (P : Platform) (w : dyn_world) (t : task n1)
    (hst : t.__status = n1.SLEEP_LINE) (hc : 0 ≤ t.impl.c)
    (hfit : w.now + 100 < P.ULONG_RANGE) (h : t.__sleep_timer.until_ ≤ w.now) :
    task.operator_call (n1.run P) w t =
      if 1 ≤ t.impl.c
      then (false, ⟨n1.SLEEP_LINE, ⟨w.now + 100⟩, ⟨t.impl.c - 1⟩⟩,
        { w with out := w.out ++ [(w.now, t.impl.c)] })
      else (true, ⟨DONE, t.__sleep_timer, ⟨t.impl.c - 1⟩⟩,
        { w with out := w.out ++ [(w.now, t.impl.c)] }) := by
  have h := run_from_eq (sleep_loop P 100 n1.SLEEP_LINE) sleep_loop_fuel sleep_node.await
    w t 4 _ (sleep_loop_pass P 100 n1.SLEEP_LINE w t hc (by decide) hfit h)
    (le_trans (by decide) (sleep_loop_fuel_ge_of_nonneg w t hc))
  simp only [n1.SLEEP_LINE] at hst
  by_cases h1 : 1 ≤ t.impl.c
  · simp only [if_pos h1, n1.SLEEP_LINE] at h ⊢
    simp [task.operator_call, task.is_done, n1.run, TASK_BEGIN_END, hst, DONE, h,
      n1.SLEEP_LINE]
  · simp only [if_neg h1, n1.SLEEP_LINE] at h ⊢
    simp [task.operator_call, task.is_done, n1.run, TASK_BEGIN_END, hst, DONE, h,
      n1.SLEEP_LINE]

theorem sleep_loop_total (P : Platform) (ms : Nat) (L : status) (m : Nat) :
    ∀ (w : dyn_world) (t : task n1), (t.impl.c + 1).toNat = m →
      (exec (sleep_loop P ms L) (3 * m + 1) sleep_node.for_cond w t).isSome = true ∧
      (exec (sleep_loop P ms L) (3 * m + 3) sleep_node.await w t).isSome = true ∧
      (exec (sleep_loop P ms L) (3 * m + 2) sleep_node.after_await w t).isSome = true := by
  induction m with
  | zero =>
    intro w t hm
    have hc : ¬ (0 ≤ t.impl.c) := by omega
    have hc1 : ¬ (0 ≤ t.impl.c - 1) := by omega
    refine ⟨?_, ?_, ?_⟩
    · simp [exec, sleep_loop, hc]
    · by_cases hi : is_incomplete_timer w.now t.__sleep_timer = true <;>
        simp [exec, sleep_loop, hi, hc1]
    · simp [exec, sleep_loop, hc1]
  | succ m ih =>
    intro w t hm
    have hc : 0 ≤ t.impl.c := by omega
    have hm1 : (t.impl.c - 1 + 1).toNat = m := by omega
    have hafter : ∀ (v : dyn_world) (u : task n1), u.impl.c = t.impl.c →
        (exec (sleep_loop P ms L) (3 * m + 1 + 1) sleep_node.after_await v u).isSome
          = true := by
      intro v u hu
      have := (ih { v with out := v.out ++ [(v.now, u.impl.c)] }
        { u with impl := ⟨u.impl.c - 1⟩ } (by simpa [hu] using hm1)).1
      simpa [exec, sleep_loop] using this
    have hawait : ∀ (v : dyn_world) (u : task n1), u.impl.c = t.impl.c →
        (exec (sleep_loop P ms L) (3 * m + 2 + 1) sleep_node.await v u).isSome = true := by
      intro v u hu
      by_cases hi : is_incomplete_timer v.now u.__sleep_timer = true
      · simp [exec, sleep_loop, hi]
      · have := hafter v u hu
        simp only [exec, sleep_loop, hi] at this ⊢
        simpa using this
    refine ⟨?_, ?_, ?_⟩
    · have := hawait w { t with __sleep_timer := timer.start P w.now ms t.__sleep_timer } rfl
      have e : 3 * (m + 1) + 1 = (3 * m + 2 + 1) + 1 := by omega
      rw [e]
      simp only [exec, sleep_loop, hc]
      simpa using this
    · have := hawait w t rfl
      have e : 3 * (m + 1) + 3 = (3 * m + 2 + 1) + 3 := by omega
      obtain ⟨r, hr⟩ := Option.isSome_iff_exists.mp this
      rw [e, exec_mono _ _ _ _ _ r hr 3]
      rfl
    · have := hafter w t rfl
      have e : 3 * (m + 1) + 2 = (3 * m + 1 + 1) + 3 := by omega
      obtain ⟨r, hr⟩ := Option.isSome_iff_exists.mp this
      rw [e, exec_mono _ _ _ _ _ r hr 3]
      rfl

theorem sleep_loop_exec_total (P : Platform) (ms : Nat) (L : status) (n : sleep_node)
    (w : dyn_world) (t : task n1) :
    (exec (sleep_loop P ms L) (sleep_loop_fuel w t) n w t).isSome = true := by
  obtain ⟨h1, h2, h3⟩ := sleep_loop_total P ms L (t.impl.c + 1).toNat w t rfl
  have lift : ∀ k, k ≤ 3 * (t.impl.c + 1).toNat + 3 →
      (exec (sleep_loop P ms L) k n w t).isSome = true →
      (exec (sleep_loop P ms L) (sleep_loop_fuel w t) n w t).isSome = true := by
    intro k hk hs
    obtain ⟨r, hr⟩ := Option.isSome_iff_exists.mp hs
    obtain ⟨d, hd⟩ := Nat.exists_eq_add_of_le hk
    unfold sleep_loop_fuel
    rw [hd, exec_mono _ _ _ _ _ r hr d]
    rfl
  cases n with
  | for_cond => exact lift _ (by omega) h1
  | await => exact lift _ (by omega) h2
  | after_await => exact lift _ (by omega) h3

theorem countdown_values_self (hi : Int) : countdown_values hi hi = [] := by
  simp [countdown_values]

theorem countdown_values_step (hi c : Int) (h : c ≤ hi) :
    countdown_values hi (c - 1) = countdown_values hi c ++ [c] := by
  unfold countdown_values
  have e : (hi - (c - 1)).toNat = (hi - c).toNat + 1 := by omega
  rw [e, List.range_succ, List.map_append]
  have e2 : hi - (((hi - c).toNat : Nat) : Int) = c := by
    rw [Int.toNat_of_nonneg (by omega)]
    omega
  simp only [List.map_cons, List.map_nil, e2]

theorem countdown_values_length (hi c : Int) :
    (countdown_values hi c).length = (hi - c).toNat := by
  simp [countdown_values]

theorem n1.poll_at_sleeping (P : Platform) (c0 : Int) (q : Nat) (s : task n1 × dyn_world)
    (hq : q + 100 < P.ULONG_RANGE) (hs : n1.sleeping c0 s) :
    n1.sleeping c0 (n1.poll_at P q s) := by
  obtain ⟨t, w⟩ := s
  obtain ⟨hout, hpw, hlo, hhi, hcase⟩ := hs
  simp only at hout hpw hlo hhi hcase
  rcases hcase with ⟨hst, hc, hnil⟩ | ⟨hst, hc, hdl⟩ | ⟨hst, hc⟩
  · have e := n1.call_first P { w with now := q } t hst hc hq
    simp only [n1.poll_at, e]
    refine ⟨hout, hpw, hlo, hhi, Or.inr (Or.inl ⟨rfl, hc, ?_⟩)⟩
    intro x hx
    rw [hnil] at hx
    simp at hx
  · by_cases hb : q < t.__sleep_timer.until_
    · have e := n1.call_blocked P { w with now := q } t hst hb
      simp only [n1.poll_at, e]
      exact ⟨hout, hpw, hlo, hhi, Or.inr (Or.inl ⟨hst, hc, hdl⟩)⟩
    · have hb2 : t.__sleep_timer.until_ ≤ q := Nat.le_of_not_lt hb
      have e := n1.call_pass P { w with now := q } t hst hc hq hb2
      simp only [n1.poll_at, e]
      have hout2 : (w.out ++ [(q, t.impl.c)]).map Prod.snd
          = countdown_values c0 (t.impl.c - 1) := by
        rw [countdown_values_step c0 _ hhi, List.map_append, hout]
        rfl
      have hpw2 : (w.out ++ [(q, t.impl.c)]).Pairwise (fun a b => a.1 + 100 ≤ b.1) := by
        rw [List.pairwise_append]
        refine ⟨hpw, List.pairwise_singleton _ _, ?_⟩
        intro a ha b hb3
        rw [List.mem_singleton.mp hb3]
        exact le_trans (hdl a ha) hb2
      by_cases h1 : 1 ≤ t.impl.c
      · simp only [if_pos h1]
        refine ⟨hout2, hpw2, by simp only; omega, by simp only; omega,
          Or.inr (Or.inl ⟨rfl, by simp only; omega, ?_⟩)⟩
        intro x hx
        rcases List.mem_append.mp hx with h | h
        · have := hdl x h
          simp only
          omega
        · rw [List.mem_singleton.mp h]
      · simp only [if_neg h1]
        refine ⟨hout2, hpw2, by simp only; omega, by simp only; omega,
          Or.inr (Or.inr ⟨rfl, by simp only; omega⟩)⟩
  · have e : task.operator_call (n1.run P) { w with now := q } t
        = (false, t, { w with now := q }) := by
      simp [task.operator_call, task.is_done, hst]
    simp only [n1.poll_at, e]
    exact ⟨hout, hpw, hlo, hhi, Or.inr (Or.inr ⟨hst, hc⟩)⟩

theorem n1.polls_at_sleeping (P : Platform) (c0 : Int) (ticks : List Nat)
    (hticks : ∀ q ∈ ticks, q + 100 < P.ULONG_RANGE) :
    ∀ s : task n1 × dyn_world, n1.sleeping c0 s → n1.sleeping c0 (n1.polls_at P ticks s) := by
  induction ticks with
  | nil => intro s hs; exact hs
  | cons q qs ih =>
    intro s hs
    simp only [n1.polls_at]
    exact ih (fun x hx => hticks x (List.mem_cons_of_mem _ hx)) _
      (n1.poll_at_sleeping P c0 q s (hticks q (List.mem_cons_self _ _)) hs)

theorem n1.new_sleeping (c0 : Int) (w0 : dyn_world) (hc0 : 0 ≤ c0) (hw0 : w0.out = []) :
    n1.sleeping c0 (n1.new c0, w0) := by
  refine ⟨?_, ?_, ?_, ?_, Or.inl ⟨rfl, hc0, hw0⟩⟩
  · simp [hw0, n1.new, task.new, task.restart, countdown_values_self]
  · simp [hw0]
  · show -1 ≤ c0
    omega
  · exact le_refl c0

/-- C16, refuted as stated: where `unsigned long` has 32 bits, `n1(0)` first
called at tick 4294967246 arms its timer with deadline 50, passes the `SLEEP`
in that same call (at a tick below `t + 100`) and is DONE at once. -/
theorem sleep_deadline_wraps :
    (4294967246 : Nat) < 4294967246 + 100 ∧
    task.operator_call (n1.run WIN32) ⟨4294967246, []⟩ (n1.new 0) =
      (true, ⟨DONE, ⟨50⟩, ⟨-1⟩⟩, ⟨4294967246, [(4294967246, 0)]⟩) := by
  decide

theorem status_pos_ne {L : status} (hL : 0 < L) : L ≠ INIT ∧ L ≠ DONE := by
  constructor
  · intro h
    rw [h] at hL
    exact absurd hL (by decide)
  · intro h
    rw [h] at hL
    exact absurd hL (by decide)

theorem sleep_loop_call_first (P : Platform) (ms : Nat) (L : status) (w : dyn_world)
    (t : task n1) (hL : 0 < L) (hms : 0 < ms)
    (hst : t.__status = INIT) (hc : 0 ≤ t.impl.c) (hfit : w.now + ms < P.ULONG_RANGE) :
    task.operator_call (sleep_loop.run P ms L) w t =
      (false, ⟨L, ⟨w.now + ms⟩, t.impl⟩, w) := by
  have h := run_from_eq (sleep_loop P ms L) sleep_loop_fuel sleep_node.for_cond
    w t 2 _ (sleep_loop_arm P ms L w t hc hms hfit)
    (le_trans (by decide) (sleep_loop_fuel_ge w t))
  obtain ⟨h0, h1⟩ := status_pos_ne hL
  simp only [INIT, DONE] at h0 h1
  simp [task.operator_call, task.is_done, sleep_loop.run, TASK_BEGIN_END, hst, INIT, DONE, h,
    h1]

theorem sleep_loop_call_blocked (P : Platform) (ms : Nat) (L : status) (w : dyn_world)
    (t : task n1) (hL : 0 < L)
    (hst : t.__status = L) (h : w.now < t.__sleep_timer.until_) :
    task.operator_call (sleep_loop.run P ms L) w t = (false, t, w) := by
  have h := run_from_eq (sleep_loop P ms L) sleep_loop_fuel sleep_node.await
    w t 1 _ (sleep_loop_blocked P ms L w t h)
    (le_trans (by decide) (sleep_loop_fuel_ge w t))
  obtain ⟨h0, h1⟩ := status_pos_ne hL
  obtain ⟨st, tm, f⟩ := t
  simp only at hst
  subst hst
  simp only [INIT, DONE] at h0 h1
  simp [task.operator_call, task.is_done, sleep_loop.run, TASK_BEGIN_END, DONE, h, h0, h1]

theorem sleep_loop_call_pass (P : Platform) (ms : Nat) (L : status) (w : dyn_world)
    (t : task n1) (hL : 0 < L) (hms : 0 < ms)
    (hst : t.__status = L) (hc : 0 ≤ t.impl.c)
    (hfit : w.now + ms < P.ULONG_RANGE) (h : t.__sleep_timer.until_ ≤ w.now) :
    task.operator_call (sleep_loop.run P ms L) w t =
      if 1 ≤ t.impl.c
      then (false, ⟨L, ⟨w.now + ms⟩, ⟨t.impl.c - 1⟩⟩,
        { w with out := w.out ++ [(w.now, t.impl.c)] })
      else (true, ⟨DONE, t.__sleep_timer, ⟨t.impl.c - 1⟩⟩,
        { w with out := w.out ++ [(w.now, t.impl.c)] }) := by
  have h := run_from_eq (sleep_loop P ms L) sleep_loop_fuel sleep_node.await
    w t 4 _ (sleep_loop_pass P ms L w t hc hms hfit h)
    (le_trans (by decide) (sleep_loop_fuel_ge_of_nonneg w t hc))
  obtain ⟨h0, h1⟩ := status_pos_ne hL
  simp only [INIT, DONE] at h0 h1
  by_cases hc1 : 1 ≤ t.impl.c
  · simp only [if_pos hc1] at h ⊢
    simp [task.operator_call, task.is_done, sleep_loop.run, TASK_BEGIN_END, hst, DONE, h,
      h0, h1]
  · simp only [if_neg hc1] at h ⊢
    simp [task.operator_call, task.is_done, sleep_loop.run, TASK_BEGIN_END, hst, DONE, h,
      h0, h1]

theorem SLEEP_reached {W F : Type} (P : Platform) (now : W → Nat) (ms : Nat) (L : status)
    (rest : body W F) (w : W) (t : task F) (hfit : now w + ms < P.ULONG_RANGE) :
    SLEEP P now ms L rest w t =
      if 0 < ms then (L, { t with __sleep_timer := ⟨now w + ms⟩ }, w)
      else rest w { t with __sleep_timer := ⟨now w + ms⟩ } := by
  by_cases hms : 0 < ms
  · have hms0 : ms ≠ 0 := by omega
    simp [SLEEP, AWAIT_sleep_timer, is_incomplete_timer, timer.is_expired, timer.start,
      Nat.mod_eq_of_lt hfit, hms, hms0]
  · have hms0 : ms = 0 := by omega
    subst hms0
    have hfit0 : now w < P.ULONG_RANGE := by omega
    simp [SLEEP, AWAIT_sleep_timer, is_incomplete_timer, timer.is_expired, timer.start,
      Nat.mod_eq_of_lt hfit0]

theorem sleep_body_first {W F : Type} (P : Platform) (now : W → Nat) (ms : Nat) (L : status)
    (rest : body W F) (resume : status → Option (body W F)) (w : W) (t : task F)
    (hL : 0 < L) (hms : 0 < ms) (hfit : now w + ms < P.ULONG_RANGE)
    (hst : t.__status = INIT) :
    task.operator_call (sleep_body P now ms L rest resume) w t =
      (false, ⟨L, ⟨now w + ms⟩, t.impl⟩, w) := by
  obtain ⟨h0, h1⟩ := status_pos_ne hL
  simp only [INIT, DONE] at h0 h1
  have hs := SLEEP_reached P now ms L rest w t hfit
  rw [if_pos hms] at hs
  simp [task.operator_call, task.is_done, sleep_body, TASK_BEGIN_END, hst, INIT, DONE, hs, h1]

theorem sleep_body_blocked {W F : Type} (P : Platform) (now : W → Nat) (ms : Nat)
    (L : status) (rest : body W F) (resume : status → Option (body W F)) (w : W)
    (t : task F) (hL : 0 < L) (hst : t.__status = L) (h : now w < t.__sleep_timer.until_) :
    task.operator_call (sleep_body P now ms L rest resume) w t = (false, t, w) := by
  obtain ⟨h0, h1⟩ := status_pos_ne hL
  simp only [INIT, DONE] at h0 h1
  obtain ⟨st, tm, f⟩ := t
  simp only at hst h
  subst hst
  simp [task.operator_call, task.is_done, sleep_body, TASK_BEGIN_END, AWAIT_sleep_timer,
    is_incomplete_timer, timer.is_expired, DONE, h, h0, h1]

theorem sleep_body_pass {W F : Type} (P : Platform) (now : W → Nat) (ms : Nat)
    (L : status) (rest : body W F) (resume : status → Option (body W F)) (w : W)
    (t : task F) (hL : 0 < L) (hst : t.__status = L) (h : t.__sleep_timer.until_ ≤ now w) :
    task.operator_call (sleep_body P now ms L rest resume) w t =
      (decide ((rest w t).1 = DONE), { (rest w t).2.1 with __status := (rest w t).1 },
        (rest w t).2.2) := by
  obtain ⟨h0, h1⟩ := status_pos_ne hL
  simp only [INIT, DONE] at h0 h1
  simp [task.operator_call, task.is_done, sleep_body, TASK_BEGIN_END, AWAIT_sleep_timer,
    is_incomplete_timer, timer.is_expired, DONE, hst, h, h0, h1]

/-- C16, amended: as long as the tick of a call plus `ms` does not exceed the
largest `unsigned long`.  For `SLEEP(ms)` at line `L` followed by any code, with
`ms > 0`: reaching the statement at tick `t` arms the sleep timer with deadline
`t + ms` and returns the marker `L`, so the call that first reaches it leaves the
task suspended at `L`; a later call at a tick below the deadline leaves the
task suspended at `L` with the deadline and everything else unchanged; a call
at a tick at or after the deadline runs the code after the `SLEEP` in that
call, on the timer as it was (it is not armed again).  The loops of `n1`
(`ms = 100`, line 69) and `n2` (`ms = 113`, line 86) are instances of one loop,
for which the same holds: the first call arms and suspends, a call before the
deadline changes nothing, a call at or after it prints and decrements `c`, then
arms the timer anew and suspends, or is DONE when `c` has reached -1.  For
`n1(c0)`, `c0 ≥ 0`, called at any ticks: the values printed are
`c0, c0 - 1, ...` down to `c + 1`, any two lines are at least 100 ticks apart,
and the task is DONE exactly when `c = -1`, after `c0 + 1` decrements. -/
theorem sleep_arms_once {W F : Type} (P : Platform) (now : W → Nat) (ms : Nat) (L : status)
    (rest : body W F) (resume : status → Option (body W F)) (v : W) (u : task F)
    (t : task n1) (w : dyn_world) (c0 : Int) (ticks : List Nat) (w0 : dyn_world)
    (hL : 0 < L) (hms : 0 < ms) (hfitv : now v + ms < P.ULONG_RANGE)
    (hc : 0 ≤ t.impl.c) (hfit : w.now + ms < P.ULONG_RANGE)
    (hc0 : 0 ≤ c0) (hw0 : w0.out = []) (hticks : ∀ q ∈ ticks, q + 100 < P.ULONG_RANGE) :
    SLEEP P now ms L rest v u = (L, { u with __sleep_timer := ⟨now v + ms⟩ }, v) ∧
    (u.__status = INIT →
      task.operator_call (sleep_body P now ms L rest resume) v u =
        (false, ⟨L, ⟨now v + ms⟩, u.impl⟩, v)) ∧
    (u.__status = L → now v < u.__sleep_timer.until_ →
      task.operator_call (sleep_body P now ms L rest resume) v u = (false, u, v)) ∧
    (u.__status = L → u.__sleep_timer.until_ ≤ now v →
      task.operator_call (sleep_body P now ms L rest resume) v u =
        (decide ((rest v u).1 = DONE), { (rest v u).2.1 with __status := (rest v u).1 },
          (rest v u).2.2)) ∧
    n1.run P = sleep_loop.run P 100 n1.SLEEP_LINE ∧
    n2.run P = sleep_loop.run P 113 n2.SLEEP_LINE ∧
    (t.__status = INIT →
      task.operator_call (sleep_loop.run P ms L) w t =
        (false, ⟨L, ⟨w.now + ms⟩, t.impl⟩, w)) ∧
    (t.__status = L → w.now < t.__sleep_timer.until_ →
      task.operator_call (sleep_loop.run P ms L) w t = (false, t, w)) ∧
    (t.__status = L → t.__sleep_timer.until_ ≤ w.now →
      task.operator_call (sleep_loop.run P ms L) w t =
        if 1 ≤ t.impl.c
        then (false, ⟨L, ⟨w.now + ms⟩, ⟨t.impl.c - 1⟩⟩,
          { w with out := w.out ++ [(w.now, t.impl.c)] })
        else (true, ⟨DONE, t.__sleep_timer, ⟨t.impl.c - 1⟩⟩,
          { w with out := w.out ++ [(w.now, t.impl.c)] })) ∧
    (n1.polls_at P ticks (n1.new c0, w0)).2.out.map Prod.snd
      = countdown_values c0 (n1.polls_at P ticks (n1.new c0, w0)).1.impl.c ∧
    (n1.polls_at P ticks (n1.new c0, w0)).2.out.Pairwise (fun a b => a.1 + 100 ≤ b.1) ∧
    -1 ≤ (n1.polls_at P ticks (n1.new c0, w0)).1.impl.c ∧
    (n1.polls_at P ticks (n1.new c0, w0)).1.impl.c ≤ c0 ∧
    ((n1.polls_at P ticks (n1.new c0, w0)).1.is_done = true ↔
      (n1.polls_at P ticks (n1.new c0, w0)).1.impl.c = -1) ∧
    ((n1.polls_at P ticks (n1.new c0, w0)).1.is_done = true →
      (n1.polls_at P ticks (n1.new c0, w0)).2.out.length = (c0 + 1).toNat) := by
  have hs := n1.polls_at_sleeping P c0 ticks hticks _ (n1.new_sleeping c0 w0 hc0 hw0)
  obtain ⟨hout, hpw, hlo, hhi, hcase⟩ := hs
  have hiff : (n1.polls_at P ticks (n1.new c0, w0)).1.is_done = true ↔
      (n1.polls_at P ticks (n1.new c0, w0)).1.impl.c = -1 := by
    rcases hcase with ⟨hst, hcc, _⟩ | ⟨hst, hcc, _⟩ | ⟨hst, hcc⟩
    · simp only [task.is_done, hst, INIT, DONE, decide_eq_true_eq]
      constructor
      · intro h; exact absurd h (by decide)
      · intro h; omega
    · simp only [task.is_done, hst, n1.SLEEP_LINE, DONE, decide_eq_true_eq]
      constructor
      · intro h; exact absurd h (by decide)
      · intro h; omega
    · simp [task.is_done, hst, hcc]
  have hreach := SLEEP_reached P now ms L rest v u hfitv
  rw [if_pos hms] at hreach
  refine ⟨hreach,
    fun hst => sleep_body_first P now ms L rest resume v u hL hms hfitv hst,
    fun hst hb => sleep_body_blocked P now ms L rest resume v u hL hst hb,
    fun hst hb => sleep_body_pass P now ms L rest resume v u hL hst hb,
    rfl, rfl,
    fun hst => sleep_loop_call_first P ms L w t hL hms hst hc hfit,
    fun hst hb => sleep_loop_call_blocked P ms L w t hL hst hb,
    fun hst hb => sleep_loop_call_pass P ms L w t hL hms hst hc hfit hb,
    hout, hpw, hlo, hhi, hiff, ?_⟩
  intro hd
  have hc1 := hiff.mp hd
  have hl := congrArg List.length hout
  rw [List.length_map, countdown_values_length, hc1] at hl
  rw [hl]
  congr 1

/-- Instance of `sleep_arms_once`: the `SLEEP(113)` of `n2` (line 86).  An `n2`
suspended there with deadline 200 and `c = 1`, called at tick 250, prints 1 and
suspends again with deadline 363; a task with the same `SLEEP` followed by
`after_sleep` is armed with deadline 363 when it is first called at tick 250,
and runs `after_sleep` when called at tick 250 with deadline 200.  `n1(2)`
called at ticks 0, 50, 100, 150, 199, 200, 300 and 400 prints 2, 1, 0 at ticks
100, 200 and 300 and is DONE. -/
theorem sleep_arms_once_witness :
    (0 : Int) < n2.SLEEP_LINE ∧ 0 < 113 ∧
    dyn_world.now ⟨250, []⟩ + 113 < LP64.ULONG_RANGE ∧
    (0 : Int) ≤ (⟨n2.SLEEP_LINE, ⟨200⟩, ⟨1⟩⟩ : task n1).impl.c ∧
    (0 : Int) ≤ 2 ∧ (⟨0, []⟩ : dyn_world).out = [] ∧
    (∀ q ∈ [0, 50, 100, 150, 199, 200, 300, 400], q + 100 < LP64.ULONG_RANGE) ∧
    task.operator_call
        (sleep_body LP64 dyn_world.now 113 n2.SLEEP_LINE after_sleep (fun _ => none))
        ⟨250, []⟩ (n1.new 1) =
      (false, ⟨n2.SLEEP_LINE, ⟨363⟩, ⟨1⟩⟩, ⟨250, []⟩) ∧
    task.operator_call
        (sleep_body LP64 dyn_world.now 113 n2.SLEEP_LINE after_sleep (fun _ => none))
        ⟨250, []⟩ ⟨n2.SLEEP_LINE, ⟨200⟩, ⟨1⟩⟩ =
      (true, ⟨DONE, ⟨200⟩, ⟨1⟩⟩, ⟨250, [(250, 1)]⟩) ∧
    task.operator_call (n2.run LP64) ⟨250, []⟩ ⟨n2.SLEEP_LINE, ⟨200⟩, ⟨1⟩⟩ =
      (false, ⟨n2.SLEEP_LINE, ⟨363⟩, ⟨0⟩⟩, ⟨250, [(250, 1)]⟩) ∧
    n1.polls_at LP64 [0, 50, 100, 150, 199, 200, 300, 400] (n1.new 2, ⟨0, []⟩) =
      (⟨DONE, ⟨300⟩, ⟨-1⟩⟩, ⟨400, [(100, 2), (200, 1), (300, 0)]⟩) ∧
    (n1.polls_at LP64 [0, 50, 100, 150, 199, 200, 300, 400] (n1.new 2, ⟨0, []⟩)).2.out.map
        Prod.snd
      = countdown_values 2
          (n1.polls_at LP64 [0, 50, 100, 150, 199, 200, 300, 400]
            (n1.new 2, ⟨0, []⟩)).1.impl.c :=
  ⟨by decide, by decide, by decide, by decide, by decide, rfl, by decide,
    by decide, by decide, by decide, by decide,
    (sleep_arms_once LP64 dyn_world.now 113 n2.SLEEP_LINE after_sleep (fun _ => none)
      ⟨250, []⟩ ⟨n2.SLEEP_LINE, ⟨200⟩, ⟨1⟩⟩ ⟨n2.SLEEP_LINE, ⟨200⟩, ⟨1⟩⟩ ⟨250, []⟩ 2
      [0, 50, 100, 150, 199, 200, 300, 400] ⟨0, []⟩ (by decide) (by decide) (by decide)
      (by decide) (by decide) (by decide) rfl (by decide)).2.2.2.2.2.2.2.2.2.1⟩

/-! ## `codelock_thread`: the calls, case by case -/

theorem codelock.first_blocked (P : Platform) (w : codelock_world) (t : task codelock_thread)
    (hst : t.__status = INIT ∨ (t.__status = codelock_thread.AWAIT_FIRST ∧ t.impl.keys = 0))
    (hf : w.key_pressed_flag = 0) :
    task.operator_call (codelock_thread.run P) w t =
      (false, ⟨codelock_thread.AWAIT_FIRST, t.__sleep_timer, ⟨0⟩⟩, w) := by
  obtain ⟨st, tm, ⟨k⟩⟩ := t
  rcases hst with h | ⟨h, hk⟩
  · simp only at h
    subst h
    simp [task.operator_call, task.is_done, codelock_thread.run, TASK_BEGIN_END, run_from,
      codelock_thread.fuel, exec, codelock_thread.code, code, key_pressed,
      is_incomplete_bool, hf, INIT, DONE, codelock_thread.AWAIT_FIRST]
  · simp only at h hk
    subst h hk
    simp [task.operator_call, task.is_done, codelock_thread.run, TASK_BEGIN_END, run_from,
      codelock_thread.fuel, exec, codelock_thread.code, code, key_pressed,
      is_incomplete_bool, hf, DONE, codelock_thread.AWAIT_FIRST]

theorem codelock.first_right (P : Platform) (w : codelock_world) (t : task codelock_thread)
    (hst : t.__status = INIT ∨ (t.__status = codelock_thread.AWAIT_FIRST ∧ t.impl.keys = 0))
    (hf : w.key_pressed_flag ≠ 0) (hk : w.key = '1') :
    task.operator_call (codelock_thread.run P) w t =
      if w.now < (w.now + 1000) % P.ULONG_RANGE then
        (false, ⟨codelock_thread.AWAIT_NEXT, t.__sleep_timer, ⟨1⟩⟩,
          { w with key_pressed_flag := 0,
                   out := w.out ++ [codelock_msg.correct_key '1'],
                   codelock_timer := ⟨(w.now + 1000) % P.ULONG_RANGE⟩ })
      else
        (false, ⟨codelock_thread.AWAIT_FIRST, t.__sleep_timer, ⟨0⟩⟩,
          { w with key_pressed_flag := 0,
                   out := w.out ++ [codelock_msg.correct_key '1', codelock_msg.timer_expired],
                   codelock_timer := ⟨(w.now + 1000) % P.ULONG_RANGE⟩ }) := by
  obtain ⟨st, tm, ⟨k⟩⟩ := t
  by_cases hw : w.now < (w.now + 1000) % P.ULONG_RANGE
  · rw [if_pos hw]
    rcases hst with h | ⟨h, hk0⟩
    · simp only at h
      subst h
      simp [task.operator_call, task.is_done, codelock_thread.run, TASK_BEGIN_END, run_from,
        codelock_thread.fuel, exec, codelock_thread.code, code, key_pressed,
        key_pressed_or_expired, timer.is_expired, timer.start,
        is_incomplete_bool, hf, hk, hw, INIT, DONE, codelock_thread.AWAIT_FIRST,
        codelock_thread.AWAIT_NEXT]
    · simp only at h hk0
      subst h hk0
      simp [task.operator_call, task.is_done, codelock_thread.run, TASK_BEGIN_END, run_from,
        codelock_thread.fuel, exec, codelock_thread.code, code, key_pressed,
        key_pressed_or_expired, timer.is_expired, timer.start,
        is_incomplete_bool, hf, hk, hw, DONE, codelock_thread.AWAIT_FIRST,
        codelock_thread.AWAIT_NEXT]
  · rw [if_neg hw]
    have hw2 : (w.now + 1000) % P.ULONG_RANGE ≤ w.now := Nat.le_of_not_lt hw
    rcases hst with h | ⟨h, hk0⟩
    · simp only at h
      subst h
      simp [task.operator_call, task.is_done, codelock_thread.run, TASK_BEGIN_END, run_from,
        codelock_thread.fuel, exec, codelock_thread.code, code, key_pressed,
        key_pressed_or_expired, timer.is_expired, timer.start,
        is_incomplete_bool, hf, hk, hw2, INIT, DONE, codelock_thread.AWAIT_FIRST,
        codelock_thread.AWAIT_NEXT]
    · simp only at h hk0
      subst h hk0
      simp [task.operator_call, task.is_done, codelock_thread.run, TASK_BEGIN_END, run_from,
        codelock_thread.fuel, exec, codelock_thread.code, code, key_pressed,
        key_pressed_or_expired, timer.is_expired, timer.start,
        is_incomplete_bool, hf, hk, hw2, DONE, codelock_thread.AWAIT_FIRST,
        codelock_thread.AWAIT_NEXT]

theorem codelock.next_blocked (P : Platform) (w : codelock_world) (t : task codelock_thread)
    (hst : t.__status = codelock_thread.AWAIT_NEXT) (hf : w.key_pressed_flag = 0)
    (hb : w.now < w.codelock_timer.until_) :
    task.operator_call (codelock_thread.run P) w t = (false, t, w) := by
  obtain ⟨st, tm, ⟨k⟩⟩ := t
  simp only at hst
  subst hst
  have hb2 : ¬ (w.codelock_timer.until_ ≤ w.now) := Nat.not_le.mpr hb
  simp [task.operator_call, task.is_done, codelock_thread.run, TASK_BEGIN_END, run_from,
    codelock_thread.fuel, exec, codelock_thread.code, key_pressed,
    key_pressed_or_expired, timer.is_expired, is_incomplete_bool, hf, hb2, DONE,
    codelock_thread.AWAIT_FIRST, codelock_thread.AWAIT_NEXT]

theorem codelock.final_blocked (P : Platform) (w : codelock_world) (t : task codelock_thread)
    (hst : t.__status = codelock_thread.AWAIT_FINAL) (hf : w.key_pressed_flag = 0)
    (hb : w.now < w.codelock_timer.until_) :
    task.operator_call (codelock_thread.run P) w t = (false, t, w) := by
  obtain ⟨st, tm, ⟨k⟩⟩ := t
  simp only at hst
  subst hst
  have hb2 : ¬ (w.codelock_timer.until_ ≤ w.now) := Nat.not_le.mpr hb
  simp [task.operator_call, task.is_done, codelock_thread.run, TASK_BEGIN_END, run_from,
    codelock_thread.fuel, exec, codelock_thread.code, key_pressed,
    key_pressed_or_expired, timer.is_expired, is_incomplete_bool, hf, hb2, DONE,
    codelock_thread.AWAIT_FIRST, codelock_thread.AWAIT_NEXT, codelock_thread.AWAIT_FINAL]

theorem codelock.final_expired (P : Platform) (w : codelock_world) (t : task codelock_thread)
    (hst : t.__status = codelock_thread.AWAIT_FINAL)
    (hb : w.codelock_timer.until_ ≤ w.now) :
    task.operator_call (codelock_thread.run P) w t =
      (true, ⟨DONE, t.__sleep_timer, t.impl⟩,
        { w with key_pressed_flag := 0, out := w.out ++ [codelock_msg.unlocked] }) := by
  obtain ⟨st, tm, ⟨k⟩⟩ := t
  simp only at hst
  subst hst
  obtain ⟨wnow, wkey, wflag, wtimer, wout⟩ := w
  simp only at hb
  by_cases hf : wflag = 0
  · subst hf
    simp [task.operator_call, task.is_done, codelock_thread.run, TASK_BEGIN_END, run_from,
      codelock_thread.fuel, exec, codelock_thread.code, key_pressed,
      key_pressed_or_expired, timer.is_expired, is_incomplete_bool, hb, DONE,
      codelock_thread.AWAIT_FIRST, codelock_thread.AWAIT_NEXT, codelock_thread.AWAIT_FINAL]
  · simp [task.operator_call, task.is_done, codelock_thread.run, TASK_BEGIN_END, run_from,
      codelock_thread.fuel, exec, codelock_thread.code, key_pressed,
      key_pressed_or_expired, timer.is_expired, is_incomplete_bool, hf, hb, DONE,
      codelock_thread.AWAIT_FIRST, codelock_thread.AWAIT_NEXT, codelock_thread.AWAIT_FINAL]

theorem codelock.next_right (P : Platform) (w : codelock_world) (t : task codelock_thread)
    (hst : t.__status = codelock_thread.AWAIT_NEXT) (h1 : 1 ≤ t.impl.keys)
    (h2 : t.impl.keys ≤ 2) (hf : w.key_pressed_flag ≠ 0)
    (hb : w.now < w.codelock_timer.until_) (hk : some w.key = code[t.impl.keys]?) :
    task.operator_call (codelock_thread.run P) w t =
      if w.now < (w.now + 1000) % P.ULONG_RANGE then
        (false, ⟨codelock_thread.AWAIT_NEXT, t.__sleep_timer, ⟨t.impl.keys + 1⟩⟩,
          { w with key_pressed_flag := 0,
                   out := w.out ++ [codelock_msg.correct_key w.key],
                   codelock_timer := ⟨(w.now + 1000) % P.ULONG_RANGE⟩ })
      else
        (false, ⟨codelock_thread.AWAIT_FIRST, t.__sleep_timer, ⟨0⟩⟩,
          { w with key_pressed_flag := 0,
                   out := w.out ++ [codelock_msg.correct_key w.key, codelock_msg.timer_expired],
                   codelock_timer := ⟨(w.now + 1000) % P.ULONG_RANGE⟩ }) := by
  obtain ⟨st, tm, ⟨k⟩⟩ := t
  obtain ⟨wnow, wkey, wflag, wtimer, wout⟩ := w
  simp only at hst h1 h2 hk hf hb
  subst hst
  have hb2 : ¬ (wtimer.until_ ≤ wnow) := Nat.not_le.mpr hb
  have hcases : k = 1 ∨ k = 2 := by omega
  by_cases hw : wnow < (wnow + 1000) % P.ULONG_RANGE
  · simp only [if_pos hw]
    rcases hcases with rfl | rfl
    · have hkey : wkey = '4' := by simpa [code] using hk
      subst hkey
      simp [task.operator_call, task.is_done, codelock_thread.run, TASK_BEGIN_END, run_from,
        codelock_thread.fuel, exec, codelock_thread.code, code, key_pressed,
        key_pressed_or_expired, timer.is_expired, timer.start, is_incomplete_bool, hf, hb2,
        hw, DONE, codelock_thread.AWAIT_FIRST, codelock_thread.AWAIT_NEXT]
    · have hkey : wkey = '2' := by simpa [code] using hk
      subst hkey
      simp [task.operator_call, task.is_done, codelock_thread.run, TASK_BEGIN_END, run_from,
        codelock_thread.fuel, exec, codelock_thread.code, code, key_pressed,
        key_pressed_or_expired, timer.is_expired, timer.start, is_incomplete_bool, hf, hb2,
        hw, DONE, codelock_thread.AWAIT_FIRST, codelock_thread.AWAIT_NEXT]
  · simp only [if_neg hw]
    have hw2 : (wnow + 1000) % P.ULONG_RANGE ≤ wnow := Nat.le_of_not_lt hw
    rcases hcases with rfl | rfl
    · have hkey : wkey = '4' := by simpa [code] using hk
      subst hkey
      simp [task.operator_call, task.is_done, codelock_thread.run, TASK_BEGIN_END, run_from,
        codelock_thread.fuel, exec, codelock_thread.code, code, key_pressed,
        key_pressed_or_expired, timer.is_expired, timer.start, is_incomplete_bool, hf, hb2,
        hw2, DONE, codelock_thread.AWAIT_FIRST, codelock_thread.AWAIT_NEXT]
    · have hkey : wkey = '2' := by simpa [code] using hk
      subst hkey
      simp [task.operator_call, task.is_done, codelock_thread.run, TASK_BEGIN_END, run_from,
        codelock_thread.fuel, exec, codelock_thread.code, code, key_pressed,
        key_pressed_or_expired, timer.is_expired, timer.start, is_incomplete_bool, hf, hb2,
        hw2, DONE, codelock_thread.AWAIT_FIRST, codelock_thread.AWAIT_NEXT]

theorem codelock.last_right (P : Platform) (w : codelock_world) (t : task codelock_thread)
    (hst : t.__status = codelock_thread.AWAIT_NEXT) (h3 : t.impl.keys = 3)
    (hf : w.key_pressed_flag ≠ 0)
    (hb : w.now < w.codelock_timer.until_) (hk : some w.key = code[t.impl.keys]?) :
    task.operator_call (codelock_thread.run P) w t =
      if w.now < (w.now + 500) % P.ULONG_RANGE then
        (false, ⟨codelock_thread.AWAIT_FINAL, t.__sleep_timer, ⟨4⟩⟩,
          { w with key_pressed_flag := 0,
                   out := w.out ++ [codelock_msg.correct_key w.key, codelock_msg.correct_code],
                   codelock_timer := ⟨(w.now + 500) % P.ULONG_RANGE⟩ })
      else
        (true, ⟨DONE, t.__sleep_timer, ⟨4⟩⟩,
          { w with key_pressed_flag := 0,
                   out := w.out ++ [codelock_msg.correct_key w.key, codelock_msg.correct_code,
                     codelock_msg.unlocked],
                   codelock_timer := ⟨(w.now + 500) % P.ULONG_RANGE⟩ }) := by
  obtain ⟨st, tm, ⟨k⟩⟩ := t
  obtain ⟨wnow, wkey, wflag, wtimer, wout⟩ := w
  simp only at hst h3 hk hf hb
  subst hst h3
  have hb2 : ¬ (wtimer.until_ ≤ wnow) := Nat.not_le.mpr hb
  have hkey : wkey = '3' := by simpa [code] using hk
  subst hkey
  by_cases hw : wnow < (wnow + 500) % P.ULONG_RANGE
  · simp only [if_pos hw]
    simp [task.operator_call, task.is_done, codelock_thread.run, TASK_BEGIN_END, run_from,
      codelock_thread.fuel, exec, codelock_thread.code, code, key_pressed,
      key_pressed_or_expired, timer.is_expired, timer.start, is_incomplete_bool, hf, hb2,
      hw, DONE, codelock_thread.AWAIT_FIRST, codelock_thread.AWAIT_NEXT,
      codelock_thread.AWAIT_FINAL]
  · simp only [if_neg hw]
    have hw2 : (wnow + 500) % P.ULONG_RANGE ≤ wnow := Nat.le_of_not_lt hw
    simp [task.operator_call, task.is_done, codelock_thread.run, TASK_BEGIN_END, run_from,
      codelock_thread.fuel, exec, codelock_thread.code, code, key_pressed,
      key_pressed_or_expired, timer.is_expired, timer.start, is_incomplete_bool, hf, hb2,
      hw2, DONE, codelock_thread.AWAIT_FIRST, codelock_thread.AWAIT_NEXT,
      codelock_thread.AWAIT_FINAL]

/-! ## `codelock_thread`: the states it reaches -/

theorem codelock_event.apply_idle (e : codelock_event) (w : codelock_world)
    (h : e.key = none) : e.apply w = { w with now := e.now } := by
  unfold codelock_event.apply
  rw [h]

theorem codelock_event.apply_key (e : codelock_event) (w : codelock_world) (k : Char)
    (h : e.key = some k) :
    (e.apply w).key_pressed_flag ≠ 0 ∧ (e.apply w).key = k := by
  unfold codelock_event.apply
  rw [h]
  simp [press_key]

theorem codelock_polls_append (P : Platform) (es1 es2 : List codelock_event) :
    ∀ s, codelock_polls P (es1 ++ es2) s = codelock_polls P es2 (codelock_polls P es1 s) := by
  induction es1 with
  | nil => intro s; rfl
  | cons e es ih =>
    intro s
    show codelock_polls P (es ++ es2) (codelock_poll P e s) = _
    rw [ih]
    rfl

theorem codelock.idle_first (P : Platform) (l : List Nat) :
    ∀ s, codelock_waits_first s → codelock_waits_first (codelock_polls P (idle_at l) s) := by
  induction l with
  | nil => intro s hs; exact hs
  | cons q l ih =>
    intro s hs
    apply ih
    obtain ⟨hst, hf⟩ := hs
    simp only [codelock_poll, codelock_event.apply]
    rw [codelock.first_blocked P ({ s.2 with now := q } : codelock_world) s.1 hst hf]
    exact ⟨Or.inr ⟨rfl, rfl⟩, hf⟩

theorem codelock.key_first (P : Platform) (a : Nat) (s : task codelock_thread × codelock_world)
    (hs : codelock_waits_first s) (hfit : a + 1000 < P.ULONG_RANGE) :
    codelock_waits_next 1 (a + 1000) (codelock_poll P ⟨a, some '1'⟩ s) := by
  obtain ⟨hst, _⟩ := hs
  simp only [codelock_poll, codelock_event.apply]
  rw [codelock.first_right P (press_key '1' { s.2 with now := a }) s.1 hst
    (by simp [press_key]) (by simp [press_key])]
  have hw : a < (a + 1000) % P.ULONG_RANGE := by
    rw [Nat.mod_eq_of_lt hfit]
    omega
  simp only [press_key]
  rw [if_pos hw]
  exact ⟨rfl, rfl, rfl, Nat.mod_eq_of_lt hfit⟩

theorem codelock.idle_next (P : Platform) (i u : Nat) (l : List Nat) :
    ∀ s, codelock_waits_next i u s → (∀ x ∈ l, x < u) →
      codelock_waits_next i u (codelock_polls P (idle_at l) s) := by
  induction l with
  | nil => intro s hs _; exact hs
  | cons q l ih =>
    intro s hs hl
    apply ih _ _ (fun x hx => hl x (List.mem_cons_of_mem _ hx))
    obtain ⟨hst, hk, hf, hu⟩ := hs
    simp only [codelock_poll, codelock_event.apply]
    rw [codelock.next_blocked P ({ s.2 with now := q } : codelock_world) s.1 hst hf
      (by rw [hu]; exact hl q (List.mem_cons_self _ _))]
    exact ⟨hst, hk, hf, hu⟩

theorem codelock.key_next (P : Platform) (i u a : Nat) (k : Char)
    (s : task codelock_thread × codelock_world)
    (hs : codelock_waits_next i u s) (h1 : 1 ≤ i) (h2 : i ≤ 2) (hk : some k = code[i]?)
    (ha : a < u) (hfit : a + 1000 < P.ULONG_RANGE) :
    codelock_waits_next (i + 1) (a + 1000) (codelock_poll P ⟨a, some k⟩ s) := by
  obtain ⟨hst, hki, _, hu⟩ := hs
  simp only [codelock_poll, codelock_event.apply]
  rw [codelock.next_right P (press_key k { s.2 with now := a }) s.1 hst
    (by rw [hki]; exact h1) (by rw [hki]; exact h2)
    (by simp [press_key]) (by simp only [press_key]; rw [hu]; exact ha)
    (by simp only [press_key]; rw [hki]; exact hk)]
  have hw : a < (a + 1000) % P.ULONG_RANGE := by
    rw [Nat.mod_eq_of_lt hfit]
    omega
  simp only [press_key]
  rw [if_pos hw]
  exact ⟨rfl, by simp only; rw [hki], rfl, Nat.mod_eq_of_lt hfit⟩

theorem codelock.key_last (P : Platform) (u a : Nat)
    (s : task codelock_thread × codelock_world)
    (hs : codelock_waits_next 3 u s) (ha : a < u) :
    codelock_final_wait (a + 500) (codelock_poll P ⟨a, some '3'⟩ s) := by
  obtain ⟨hst, hki, _, hu⟩ := hs
  simp only [codelock_poll, codelock_event.apply]
  rw [codelock.last_right P (press_key '3' { s.2 with now := a }) s.1 hst hki
    (by simp [press_key]) (by simp only [press_key]; rw [hu]; exact ha)
    (by simp only [press_key]; rw [hki]; rfl)]
  simp only [press_key]
  split
  · exact Or.inl ⟨rfl, rfl, Nat.mod_le _ _⟩
  · exact Or.inr rfl

theorem codelock.poll_done (P : Platform) (e : codelock_event)
    (s : task codelock_thread × codelock_world) (hd : s.1.__status = DONE) :
    (codelock_poll P e s).1.__status = DONE := by
  simp [codelock_poll, task.operator_call, task.is_done, hd]

theorem codelock.idle_final (P : Platform) (u : Nat) (l : List Nat) :
    ∀ s, codelock_final_wait u s → codelock_final_wait u (codelock_polls P (idle_at l) s) := by
  induction l with
  | nil => intro s hs; exact hs
  | cons q l ih =>
    intro s hs
    apply ih
    rcases hs with ⟨hst, hf, hu⟩ | hd
    · simp only [codelock_poll, codelock_event.apply]
      by_cases hb : s.2.codelock_timer.until_ ≤ q
      · rw [codelock.final_expired P ({ s.2 with now := q } : codelock_world) s.1 hst hb]
        exact Or.inr rfl
      · rw [codelock.final_blocked P ({ s.2 with now := q } : codelock_world) s.1 hst hf
          (Nat.lt_of_not_le hb)]
        exact Or.inl ⟨hst, hf, hu⟩
    · exact Or.inr (codelock.poll_done P _ s hd)

theorem codelock.final_poll (P : Platform) (u q : Nat)
    (s : task codelock_thread × codelock_world)
    (hs : codelock_final_wait u s) (hq : u ≤ q) :
    (codelock_poll P ⟨q, none⟩ s).1.__status = DONE := by
  rcases hs with ⟨hst, _, hu⟩ | hd
  · simp only [codelock_poll, codelock_event.apply]
    rw [codelock.final_expired P ({ s.2 with now := q } : codelock_world) s.1 hst
      (le_trans hu hq)]
  · exact codelock.poll_done P _ s hd

/-- C12, refuted as stated: where `unsigned long` has 32 bits, with a
non-decreasing clock the keys '1', '4', '2', '3' are seen at ticks 4294965296,
4294965796, 4294966396 and 4294966496 (500, 600 and 100 ticks apart; the first
three are accepted), no key follows and the task is called again 500 ticks
later: it is not DONE.  The timer started when '2' was accepted has the
wrapped deadline 100 and reads expired in that same call. -/
theorem codelock_deadline_wraps :
    [4294965296, 4294965796, 4294966396, 4294966496, 4294966996].Pairwise
      (fun (x y : Nat) => x ≤ y) ∧
    (4294965796 : Nat) < 4294965296 + 1000 ∧ (4294966396 : Nat) < 4294965796 + 1000 ∧
    (4294966496 : Nat) < 4294966396 + 1000 ∧ (4294966496 : Nat) + 500 ≤ 4294966996 ∧
    (codelock_polls WIN32
      [⟨4294965296, some '1'⟩, ⟨4294965796, some '4'⟩, ⟨4294966396, some '2'⟩,
        ⟨4294966496, some '3'⟩, ⟨4294966996, none⟩] (codelock_start 0)).1.is_done = false ∧
    lock_out (codelock_polls WIN32
      [⟨4294965296, some '1'⟩, ⟨4294965796, some '4'⟩, ⟨4294966396, some '2'⟩,
        ⟨4294966496, some '3'⟩, ⟨4294966996, none⟩] (codelock_start 0)).2 =
      [codelock_msg.correct_key '1', codelock_msg.correct_key '4',
        codelock_msg.correct_key '2', codelock_msg.timer_expired,
        codelock_msg.incorrect_key '3'] := by
  decide

/-- C12, amended: from a state in which `codelock_thread` waits for a first key
(or is not started), with a non-decreasing clock: when the keys '1', '4', '2',
'3' are seen in that order at ticks `a1 ≤ a2 ≤ a3 ≤ a4`, each of the last three
less than 1000 ticks after the previous one, with any calls without a key in
between, when the three timers started with 1000 do not wrap (`a1 + 1000`,
`a2 + 1000`, `a3 + 1000` do not exceed the largest `unsigned long`), and when
no key follows until a call at a tick `q ≥ a4 + 500`, the task is DONE after
that call. -/
theorem codelock_accepts (P : Platform) (s : task codelock_thread × codelock_world)
    (i0 i1 i2 i3 i4 : List Nat) (a1 a2 a3 a4 q : Nat)
    (hs : codelock_waits_first s)
    (hclock : (i0 ++ a1 :: (i1 ++ a2 :: (i2 ++ a3 :: (i3 ++ a4 :: (i4 ++ [q]))))).Pairwise
      (fun x y => x ≤ y))
    (h12 : a2 < a1 + 1000) (h23 : a3 < a2 + 1000) (h34 : a4 < a3 + 1000)
    (hq : a4 + 500 ≤ q)
    (hfit1 : a1 + 1000 < P.ULONG_RANGE) (hfit2 : a2 + 1000 < P.ULONG_RANGE)
    (hfit3 : a3 + 1000 < P.ULONG_RANGE) :
    (codelock_polls P
      (idle_at i0 ++ ⟨a1, some '1'⟩ :: (idle_at i1 ++ ⟨a2, some '4'⟩ ::
        (idle_at i2 ++ ⟨a3, some '2'⟩ :: (idle_at i3 ++ ⟨a4, some '3'⟩ ::
          (idle_at i4 ++ [⟨q, none⟩]))))) s).1.is_done = true := by
  have c0 := (List.pairwise_cons.mp (List.pairwise_append.mp hclock).2.1).2
  have c1 := (List.pairwise_cons.mp (List.pairwise_append.mp c0).2.1).2
  have c2 := (List.pairwise_cons.mp (List.pairwise_append.mp c1).2.1).2
  have l1 : ∀ x ∈ i1, x < a1 + 1000 := fun x hx =>
    lt_of_le_of_lt ((List.pairwise_append.mp c0).2.2 x hx a2 (List.mem_cons_self _ _)) h12
  have l2 : ∀ x ∈ i2, x < a2 + 1000 := fun x hx =>
    lt_of_le_of_lt ((List.pairwise_append.mp c1).2.2 x hx a3 (List.mem_cons_self _ _)) h23
  have l3 : ∀ x ∈ i3, x < a3 + 1000 := fun x hx =>
    lt_of_le_of_lt ((List.pairwise_append.mp c2).2.2 x hx a4 (List.mem_cons_self _ _)) h34
  simp only [codelock_polls_append, codelock_polls]
  have p0 := codelock.idle_first P i0 s hs
  have p1 := codelock.key_first P a1 _ p0 hfit1
  have p2 := codelock.idle_next P 1 (a1 + 1000) i1 _ p1 l1
  have p3 := codelock.key_next P 1 (a1 + 1000) a2 '4' _ p2 (le_refl 1) (by decide) rfl h12 hfit2
  have p4 := codelock.idle_next P 2 (a2 + 1000) i2 _ p3 l2
  have p5 := codelock.key_next P 2 (a2 + 1000) a3 '2' _ p4 (by decide) (le_refl 2) rfl h23 hfit3
  have p6 := codelock.idle_next P 3 (a3 + 1000) i3 _ p5 l3
  have p7 := codelock.key_last P (a3 + 1000) a4 _ p6 h34
  have p8 := codelock.idle_final P (a4 + 500) i4 _ p7
  have p9 := codelock.final_poll P (a4 + 500) q _ p8 hq
  simp [task.is_done, p9]

/-- Instance of `codelock_accepts`: the last keys of `input_thread`, '1', '4',
'2', '3' pressed 300, 400 and 500 ticks apart and followed by a wait of 2000
ticks, with calls without a key in between. -/
theorem codelock_accepts_witness :
    codelock_waits_first (codelock_start 0) ∧
    ([7000] ++ 7900 :: ([8000, 8100] ++ 8200 :: ([] ++ 8600 :: ([9000] ++ 9100 ::
      ([9300, 9500] ++ [9600]))))).Pairwise (fun (x y : Nat) => x ≤ y) ∧
    (8200 : Nat) < 7900 + 1000 ∧ (8600 : Nat) < 8200 + 1000 ∧ (9100 : Nat) < 8600 + 1000 ∧
    (9100 : Nat) + 500 ≤ 9600 ∧
    (7900 : Nat) + 1000 < LP64.ULONG_RANGE ∧ (8200 : Nat) + 1000 < LP64.ULONG_RANGE ∧
    (8600 : Nat) + 1000 < LP64.ULONG_RANGE ∧
    (codelock_polls LP64
      (idle_at [7000] ++ ⟨7900, some '1'⟩ :: (idle_at [8000, 8100] ++ ⟨8200, some '4'⟩ ::
        (idle_at [] ++ ⟨8600, some '2'⟩ :: (idle_at [9000] ++ ⟨9100, some '3'⟩ ::
          (idle_at [9300, 9500] ++ [⟨9600, none⟩])))))
      (codelock_start 0)).1.is_done = true :=
  ⟨⟨Or.inl rfl, rfl⟩, by decide, by decide, by decide, by decide, by decide, by decide,
    by decide, by decide,
    codelock_accepts LP64 (codelock_start 0) [7000] [8000, 8100] [] [9000] [9300, 9500]
      7900 8200 8600 9100 9600 ⟨Or.inl rfl, rfl⟩ (by decide) (by decide) (by decide)
      (by decide) (by decide) (by decide) (by decide) (by decide)⟩

/-! ## `codelock_thread`: every call returns within the bound -/

theorem exec_succ {N W F : Type} (code : N → W → task F → flow N W F) (k : Nat) (n : N)
    (w : W) (t : task F) :
    exec code (k + 1) n w t =
      match code n w t with
      | flow.goto n1 w1 t1 => exec code k n1 w1 t1
      | flow.ret st w1 t1 => some (st, t1, w1) := rfl

theorem exec_isSome_mono {N W F : Type} (code : N → W → task F → flow N W F) (k k' : Nat)
    (n : N) (w : W) (t : task F) (h : (exec code k n w t).isSome = true) (hk : k ≤ k') :
    (exec code k' n w t).isSome = true := by
  obtain ⟨r, hr⟩ := Option.isSome_iff_exists.mp h
  obtain ⟨d, rfl⟩ := Nat.exists_eq_add_of_le hk
  rw [exec_mono code k n w t r hr d]
  rfl

theorem codelock.total_await_first (P : Platform) (w : codelock_world)
    (t : task codelock_thread) (hf : w.key_pressed_flag = 0) :
    (exec (codelock_thread.code P) 1 codelock_node.await_first w t).isSome = true := by
  simp [exec, codelock_thread.code, key_pressed, is_incomplete_bool, hf]

theorem codelock.total_while_top (P : Platform) (w : codelock_world)
    (t : task codelock_thread) (hf : w.key_pressed_flag = 0) :
    (exec (codelock_thread.code P) 3 codelock_node.while_top w t).isSome = true := by
  simp [exec, codelock_thread.code, code, key_pressed, is_incomplete_bool, hf]

theorem codelock.total_await_final (P : Platform) (w : codelock_world)
    (t : task codelock_thread) (hf : w.key_pressed_flag = 0) :
    (exec (codelock_thread.code P) 2 codelock_node.await_final w t).isSome = true := by
  by_cases hb : w.codelock_timer.is_expired w.now = true
  · simp [exec, codelock_thread.code, key_pressed, key_pressed_or_expired,
      is_incomplete_bool, hf, hb]
  · simp [exec, codelock_thread.code, key_pressed, key_pressed_or_expired,
      is_incomplete_bool, hf, hb]

theorem codelock.total_after_for (P : Platform) (w : codelock_world)
    (t : task codelock_thread) (hf : w.key_pressed_flag = 0) :
    (exec (codelock_thread.code P) 4 codelock_node.after_for w t).isSome = true := by
  rw [show (4 : Nat) = 3 + 1 from rfl, exec_succ]
  by_cases hk : t.impl.keys = code.length
  · simp only [codelock_thread.code, if_pos hk]
    exact exec_isSome_mono _ 2 3 _ _ _ (codelock.total_await_final P _ t hf) (by decide)
  · simp only [codelock_thread.code, if_neg hk]
    exact codelock.total_while_top P w t hf

theorem codelock.total_await_next (P : Platform) (w : codelock_world)
    (t : task codelock_thread) (hf : w.key_pressed_flag = 0) :
    (exec (codelock_thread.code P) 6 codelock_node.await_next w t).isSome = true := by
  by_cases hb : w.codelock_timer.is_expired w.now = true
  · rw [show (6 : Nat) = 4 + 1 + 1 from rfl, exec_succ]
    have h1 : key_pressed_or_expired w = (true, w) := by
      simp [key_pressed_or_expired, key_pressed, hf, hb]
    have h2 : is_incomplete_bool true = false := rfl
    simp only [codelock_thread.code, h1, h2, Bool.false_eq_true, if_false]
    rw [exec_succ]
    simp only [codelock_thread.code, hb, if_true]
    exact codelock.total_after_for P _ t hf
  · simp [exec, codelock_thread.code, key_pressed, key_pressed_or_expired,
      is_incomplete_bool, hf, hb]

theorem codelock.total_for_cond (P : Platform) (w : codelock_world)
    (t : task codelock_thread) (hf : w.key_pressed_flag = 0) :
    (exec (codelock_thread.code P) 8 codelock_node.for_cond w t).isSome = true := by
  rw [show (8 : Nat) = 6 + 1 + 1 from rfl, exec_succ]
  by_cases h4 : t.impl.keys < code.length
  · by_cases h0 : t.impl.keys = 0
    · simp only [codelock_thread.code, if_pos h4, if_pos h0]
      exact exec_isSome_mono _ 1 7 _ _ _ (codelock.total_await_first P w t hf) (by decide)
    · simp only [codelock_thread.code, if_pos h4, if_neg h0]
      rw [exec_succ]
      simp only [codelock_thread.code]
      exact codelock.total_await_next P _ t hf
  · simp only [codelock_thread.code, if_neg h4]
    exact exec_isSome_mono _ 4 7 _ _ _ (codelock.total_after_for P w t hf) (by decide)

theorem codelock.total_key_check (P : Platform) (w : codelock_world)
    (t : task codelock_thread) (hf : w.key_pressed_flag = 0) :
    (exec (codelock_thread.code P) 10 codelock_node.key_check w t).isSome = true := by
  rw [show (10 : Nat) = 8 + 1 + 1 from rfl, exec_succ]
  by_cases hk : some w.key ≠ code[t.impl.keys]?
  · simp only [codelock_thread.code, if_pos hk]
    exact exec_isSome_mono _ 4 9 _ _ _ (codelock.total_after_for P _ t hf) (by decide)
  · simp only [codelock_thread.code, if_neg hk]
    rw [exec_succ]
    simp only [codelock_thread.code]
    exact codelock.total_for_cond P _ _ hf

theorem codelock.total_final_check (P : Platform) (w : codelock_world)
    (t : task codelock_thread) (hf : w.key_pressed_flag = 0) :
    (exec (codelock_thread.code P) 4 codelock_node.final_check w t).isSome = true := by
  rw [show (4 : Nat) = 3 + 1 from rfl, exec_succ]
  by_cases hb : (!w.codelock_timer.is_expired w.now) = true
  · simp only [codelock_thread.code, if_pos hb]
    exact codelock.total_while_top P _ t hf
  · simp only [codelock_thread.code, if_neg hb]
    rfl

theorem codelock.total_timer_check (P : Platform) (w : codelock_world)
    (t : task codelock_thread) (hf : w.key_pressed_flag = 0) :
    (exec (codelock_thread.code P) 11 codelock_node.timer_check w t).isSome = true := by
  rw [show (11 : Nat) = 10 + 1 from rfl, exec_succ]
  by_cases hb : w.codelock_timer.is_expired w.now = true
  · simp only [codelock_thread.code, if_pos hb]
    exact exec_isSome_mono _ 4 10 _ _ _ (codelock.total_after_for P _ t hf) (by decide)
  · simp only [codelock_thread.code, if_neg hb]
    exact codelock.total_key_check P w t hf

/-- Every call of `codelock_thread` returns within the bound `codelock_thread.fuel`,
from each of the four places a call can start at. -/
theorem codelock.total_entry (P : Platform) (w : codelock_world) (t : task codelock_thread)
    (n : codelock_node)
    (hn : n = codelock_node.while_top ∨ n = codelock_node.await_first ∨
      n = codelock_node.await_next ∨ n = codelock_node.await_final) :
    (exec (codelock_thread.code P) (codelock_thread.fuel w t) n w t).isSome = true := by
  have hkp : (key_pressed w).2.key_pressed_flag = 0 := by
    unfold key_pressed
    split <;> simp_all
  have hkpe : (key_pressed_or_expired w).2.key_pressed_flag = 0 := by
    have e : (key_pressed_or_expired w).2 = (key_pressed w).2 := by
      simp only [key_pressed_or_expired]
      by_cases h : (key_pressed w).1 = true
      · rw [if_pos h]
      · rw [if_neg h]
    rw [e]
    exact hkp
  have hfirst : ∀ u : task codelock_thread,
      (exec (codelock_thread.code P) 11 codelock_node.await_first w u).isSome = true := by
    intro u
    rw [show (11 : Nat) = 10 + 1 from rfl, exec_succ]
    by_cases hi : is_incomplete_bool (key_pressed w).1 = true
    · simp only [codelock_thread.code, if_pos hi]
      rfl
    · simp only [codelock_thread.code, if_neg hi]
      exact codelock.total_key_check P _ u hkp
  unfold codelock_thread.fuel
  rcases hn with rfl | rfl | rfl | rfl
  · rw [show (16 : Nat) = 14 + 1 + 1 from rfl, exec_succ]
    simp only [codelock_thread.code]
    rw [exec_succ]
    have h4 : (0 : Nat) < code.length := by decide
    simp only [codelock_thread.code, if_pos h4, if_true]
    exact exec_isSome_mono _ 11 14 _ _ _ (hfirst _) (by decide)
  · exact exec_isSome_mono _ 11 16 _ _ _ (hfirst t) (by decide)
  · rw [show (16 : Nat) = 15 + 1 from rfl, exec_succ]
    by_cases hi : is_incomplete_bool (key_pressed_or_expired w).1 = true
    · simp only [codelock_thread.code, if_pos hi]
      rfl
    · simp only [codelock_thread.code, if_neg hi]
      exact exec_isSome_mono _ 11 15 _ _ _ (codelock.total_timer_check P _ t hkpe) (by decide)
  · rw [show (16 : Nat) = 15 + 1 from rfl, exec_succ]
    by_cases hi : is_incomplete_bool (key_pressed_or_expired w).1 = true
    · simp only [codelock_thread.code, if_pos hi]
      rfl
    · simp only [codelock_thread.code, if_neg hi]
      exact exec_isSome_mono _ 4 15 _ _ _ (codelock.total_final_check P _ t hkpe) (by decide)

end async
